import Mathlib

/-!
Verification development for the VitalSense recovery scripts.

Part 1 embeds the Repair Engine of `scripts/Recovery/deduplicate_project.py`:
the three structural line patterns (PBXFileReference declaration, PBXBuildFile
declaration, phase-membership line), the line-by-line deduplication scan, the
blank-line collapse (`re.sub`), and the file-level driver with its backup side
effect.

Text is modelled as `List Char`.  The Python regexes are embedded as
deterministic matchers that reproduce the greedy / lazy backtracking order of
`re.match` on these particular patterns.
-/

namespace VitalSense

/-- Python `\s` whitespace (ASCII range, as used by the manifests). -/
def isWs (c : Char) : Bool :=
  c = ' ' || c = '\t' || c = '\n' || c = '\r' || c = '\x0b' || c = '\x0c'

/-- Character class `[A-F0-9]` of the identifier captures. -/
def isHex (c : Char) : Bool :=
  ('0' ≤ c && c ≤ '9') || ('A' ≤ c && c ≤ 'F')

/-- Greedy `\s+` followed by a non-whitespace continuation: consume one or
more whitespace characters.  Deterministic because every continuation in the
three patterns starts with a non-whitespace literal. -/
def ws1 : List Char → Option (List Char)
  | c :: rest => if isWs c then some (rest.dropWhile isWs) else none
  | [] => none

/-- Greedy `[A-F0-9]+` capture followed by whitespace: deterministic for the
same disjointness reason. -/
def hex1 : List Char → Option (List Char × List Char)
  | c :: rest =>
    if isHex c then some (c :: rest.takeWhile isHex, rest.dropWhile isHex)
    else none
  | [] => none

/-- Match a literal string. -/
def expectStr : List Char → List Char → Option (List Char)
  | [], s => some s
  | _, [] => none
  | p :: ps, c :: cs => if c = p then expectStr ps cs else none

/-- Tail of the PBXFileReference pattern after the label capture:
`\s+\*/\s+=\s+\{isa\s+=\s+PBXFileReference;` (prefix match, the rest of the
line is unconstrained). -/
def frTail (s : List Char) : Bool :=
  (do
    let s ← ws1 s
    let s ← expectStr (("*/").data) s
    let s ← ws1 s
    let s ← expectStr (("=").data) s
    let s ← ws1 s
    let s ← expectStr (("\x7bisa").data) s
    let s ← ws1 s
    let s ← expectStr (("=").data) s
    let s ← ws1 s
    let _ ← expectStr (("PBXFileReference;").data) s
    pure ()).isSome

/-- Shared continuation of the PBXBuildFile pattern after `*/`. -/
def bfCont (s : List Char) : Bool :=
  (do
    let s ← ws1 s
    let s ← expectStr (("=").data) s
    let s ← ws1 s
    let s ← expectStr (("\x7bisa").data) s
    let s ← ws1 s
    let s ← expectStr (("=").data) s
    let s ← ws1 s
    let _ ← expectStr (("PBXBuildFile;").data) s
    pure ()).isSome

/-- Tail of the PBXBuildFile pattern after the label capture:
`\s+(in\s+Sources)?\s*\*/\s+=\s+\{isa\s+=\s+PBXBuildFile;`.
The optional group is tried first (greedy `?`). -/
def bfTail (s : List Char) : Bool :=
  match ws1 s with
  | none => false
  | some s₁ =>
    (match (do
        let s₂ ← expectStr (("in").data) s₁
        let s₂ ← ws1 s₂
        let s₂ ← expectStr (("Sources").data) s₂
        let s₂ := s₂.dropWhile isWs
        expectStr (("*/").data) s₂) with
      | some s₃ => bfCont s₃
      | none => false)
    ||
    (match expectStr (("*/").data) s₁ with
      | some s₃ => bfCont s₃
      | none => false)

/-- Tail of the phase-membership pattern after the label capture:
`\s+in\s+Sources\s+\*/,?` — a prefix match, so nothing after `*/` is
constrained. -/
def phTail (s : List Char) : Bool :=
  (do
    let s ← ws1 s
    let s ← expectStr (("in").data) s
    let s ← ws1 s
    let s ← expectStr (("Sources").data) s
    let s ← ws1 s
    let _ ← expectStr (("*/").data) s
    pure ()).isSome

/-- Lazy `(.+?)` label capture: the shortest non-empty label (of characters
other than `'\n'`, which `.` does not match) whose remainder satisfies the
tail. -/
def lazyLabel (tailP : List Char → Bool) : List Char → Option (List Char)
  | [] => none
  | c :: rest =>
    if c = '\n' then none
    else if tailP rest then some [c]
    else
      match lazyLabel tailP rest with
      | some l => some (c :: l)
      | none => none

/-- Backtracking over the greedy `\s+` that precedes the lazy label: try the
longest whitespace consumption first (`k` counts how many of the `m`
whitespace characters are consumed). -/
def kLoop (tailP : List Char → Bool) (m r : List Char) : Nat → Option (List Char)
  | 0 => none
  | k + 1 =>
    match lazyLabel tailP (m.drop (k + 1) ++ r) with
    | some l => some l
    | none => kLoop tailP m r k

/-- Common shape of the three patterns:
`(\s+)([A-F0-9]+)\s+/\*\s+(.+?)` followed by a pattern-specific tail.
Returns the identifier capture and the raw label capture. -/
def matchCore (tailP : List Char → Bool) (line : List Char) :
    Option (List Char × List Char) :=
  match ws1 line with
  | none => none
  | some s₁ =>
    match hex1 s₁ with
    | none => none
    | some (idStr, s₂) =>
      match ws1 s₂ with
      | none => none
      | some s₃ =>
        match expectStr (("/*").data) s₃ with
        | none => none
        | some s₄ =>
          let m := s₄.takeWhile isWs
          let r := s₄.dropWhile isWs
          if m.length = 0 then none
          else
            match kLoop tailP m r m.length with
            | some lab => some (idStr, lab)
            | none => none

/-- `str.strip()` on the captured label. -/
def pyStrip (l : List Char) : List Char :=
  ((l.dropWhile isWs).reverse.dropWhile isWs).reverse

def frMatch (line : List Char) : Option (List Char × List Char) :=
  matchCore frTail line

def bfMatch (line : List Char) : Option (List Char × List Char) :=
  matchCore bfTail line

def phMatch (line : List Char) : Option (List Char × List Char) :=
  matchCore phTail line

/-- Classification of a line, mirroring the if-chain order of the scan loop:
PBXFileReference first, then PBXBuildFile, then phase membership. -/
inductive LClass where
  | fr (key id : List Char)
  | bf (key id : List Char)
  | ph (key id : List Char)
  | other
deriving DecidableEq

def classify (l : List Char) : LClass :=
  match frMatch l with
  | some (i, lab) => .fr (pyStrip lab) i
  | none =>
    match bfMatch l with
    | some (i, lab) => .bf (pyStrip lab) i
    | none =>
      match phMatch l with
      | some (i, lab) => .ph (pyStrip lab) i
      | none => .other

/-- Association-list lookup used for the `seen_refs` / `seen_build_refs`
dictionaries (only ever extended when the key is absent, so an assoc list with
first-match lookup is an exact model). -/
def alook (k : List Char) : List (List Char × List Char) → Option (List Char)
  | [] => none
  | (a, b) :: t => if a = k then some b else alook k t

/-- The line-by-line deduplication scan of `deduplicate_project_file`.
Returns the kept lines and the number of removed (duplicate) lines. -/
def scanLoop :
    List (List Char) → List (List Char × List Char) →
    List (List Char × List Char) → List (List Char) × Nat
  | [], _, _ => ([], 0)
  | l :: ls, sr, sb =>
    match classify l with
    | .fr k i =>
      match alook k sr with
      | some _ => ((scanLoop ls sr sb).1, (scanLoop ls sr sb).2 + 1)
      | none =>
        (l :: (scanLoop ls ((k, i) :: sr) sb).1, (scanLoop ls ((k, i) :: sr) sb).2)
    | .bf k i =>
      match alook k sb with
      | some _ => ((scanLoop ls sr sb).1, (scanLoop ls sr sb).2 + 1)
      | none =>
        (l :: (scanLoop ls sr ((k, i) :: sb)).1, (scanLoop ls sr ((k, i) :: sb)).2)
    | .ph k i =>
      match alook k sb with
      | some v =>
        if v ≠ i then ((scanLoop ls sr sb).1, (scanLoop ls sr sb).2 + 1)
        else (l :: (scanLoop ls sr sb).1, (scanLoop ls sr sb).2)
      | none => (l :: (scanLoop ls sr sb).1, (scanLoop ls sr sb).2)
    | .other => (l :: (scanLoop ls sr sb).1, (scanLoop ls sr sb).2)

/-- `content.split('\n')`. -/
def splitNl : List Char → List (List Char)
  | [] => [[]]
  | c :: rest =>
    if c = '\n' then [] :: splitNl rest
    else
      match splitNl rest with
      | [] => [[c]]
      | h :: t => (c :: h) :: t

/-- `'\n'.join(lines)`. -/
def joinNl : List (List Char) → List Char
  | [] => []
  | l :: ls => l ++ (if ls.isEmpty then [] else '\n' :: joinNl ls)

def nlCount (l : List Char) : Nat := l.count '\n'

/-- Split a list at its last `'\n'`: `r = a ++ '\n' :: b` with `b` free of
newlines. -/
def splitLastNl : List Char → Option (List Char × List Char)
  | [] => none
  | c :: t =>
    match splitLastNl t with
    | some (a, b) => some (c :: a, b)
    | none => if c = '\n' then some ([], t) else none

/-- Leftmost match of `\n\s*\n\s*\n` under Python's leftmost / greedy
semantics: the match starts at the first `'\n'` whose maximal whitespace run
contains at least two further newlines, and extends to the last newline of
that run.  Returns `(before, matched, after)`. -/
def findMatch : List Char → Option (List Char × List Char × List Char)
  | [] => none
  | c :: s =>
    if c = '\n' ∧ 2 ≤ nlCount (s.takeWhile isWs) then
      match splitLastNl (s.takeWhile isWs) with
      | some (a, b) => some ([], '\n' :: a ++ ['\n'], b ++ s.dropWhile isWs)
      | none => none
    else
      match findMatch s with
      | some (p, w, t) => some (c :: p, w, t)
      | none => none

/-- Fuel-driven repeated replacement, mirroring
`re.sub(r'\n\s*\n\s*\n', '\n\n', content)`: replace the leftmost match with
two newlines and continue scanning after it. -/
def subAux : Nat → List Char → List Char
  | 0, s => s
  | f + 1, s =>
    match findMatch s with
    | none => s
    | some (p, _, t) => p ++ '\n' :: '\n' :: subAux f t

/-- The blank-line collapse of the repair engine. -/
def collapse (s : List Char) : List Char := subAux s.length s

/-- The pure text-level repair:
split into lines, run the deduplication scan, re-join, collapse blank runs.
Returns the new text and the number of removed duplicates. -/
def repairText (t : List Char) : List Char × Nat :=
  (collapse (joinNl (scanLoop (splitNl t) [] []).1), (scanLoop (splitNl t) [] []).2)

/-! ### File-level model of `deduplicate_project_file`

The filesystem is an association list from paths to contents (later writes
shadow earlier bindings).  `wOk` is an oracle telling whether a given write
succeeds; a failing write raises in Python, which aborts the function (only
the initial read is wrapped in `try`), so nothing after a failed write
executes.  `writes` records the successful writes in program order. -/

def backupPath (p : String) : String := p ++ ".pre_dedup_backup"

def fsLook (p : String) : List (String × List Char) → Option (List Char)
  | [] => none
  | (a, b) :: t => if a = p then some b else fsLook p t

inductive DStatus where
  | readFailed
  | backupFailed
  | writeFailed
  | success
deriving DecidableEq

structure DedupResult where
  fs : List (String × List Char)
  writes : List String
  status : DStatus
  removed : Nat
deriving DecidableEq

def deduplicateProjectFile (fs : List (String × List Char))
    (wOk : String → Bool) (path : String) : DedupResult :=
  match fsLook path fs with
  | none => ⟨fs, [], .readFailed, 0⟩
  | some content =>
    if (repairText content).2 > 0 then
      if wOk (backupPath path) then
        if wOk path then
          ⟨(path, (repairText content).1) :: (backupPath path, content) :: fs,
            [backupPath path, path], .success, (repairText content).2⟩
        else
          ⟨(backupPath path, content) :: fs, [backupPath path], .writeFailed,
            (repairText content).2⟩
      else
        ⟨fs, [], .backupFailed, (repairText content).2⟩
    else
      ⟨fs, [], .success, 0⟩

/-! ### Concrete scenario for claim C1 -/

/-- First declaration line labelled `Utils.swift`. -/
def c1line1 : List Char :=
  ("\t\tAB0001 /* Utils.swift */ = \x7bisa = PBXFileReference; path = Utils.swift; \x7d;").data

/-- Second declaration line with the same label but a different identifier. -/
def c1line2 : List Char :=
  ("\t\tAB0002 /* Utils.swift */ = \x7bisa = PBXFileReference; path = Utils.swift; \x7d;").data

def c1head : List Char := ("/* Begin PBXFileReference section */\n").data

def c1foot : List Char := ("\n/* End PBXFileReference section */").data

/-- Manifest text containing exactly two `FileReference` declaration lines
with the same label and different identifiers. -/
def c1text : List Char := c1head ++ c1line1 ++ '\n' :: c1line2 ++ c1foot

/-- The same text with the second (duplicate) declaration removed. -/
def c1kept : List Char := c1head ++ c1line1 ++ c1foot

def c1path : String := "project.pbxproj"

end VitalSense

namespace VitalSense

set_option maxRecDepth 40000

/-- C1: for a manifest text with exactly two FileReference declaration lines
carrying the same label `Utils.swift` but different identifiers, repair keeps
the first declaration line, drops the second, reports one duplicate removed,
and writes exactly one backup file containing the pre-repair text (followed
by the rewrite of the original). -/
theorem c1_repair_scenario :
    (deduplicateProjectFile [(c1path, c1text)] (fun _ => true) c1path).removed = 1 ∧
    fsLook c1path
        (deduplicateProjectFile [(c1path, c1text)] (fun _ => true) c1path).fs =
      some c1kept ∧
    fsLook (backupPath c1path)
        (deduplicateProjectFile [(c1path, c1text)] (fun _ => true) c1path).fs =
      some c1text ∧
    (deduplicateProjectFile [(c1path, c1text)] (fun _ => true) c1path).writes =
      [backupPath c1path, c1path] := by
  decide

/-! ### Cleanliness: absence of duplicate labels under the three patterns -/

/-- `cleanAux sr sb ls` says that scanning `ls` starting from the seen-maps
`sr` (file references) and `sb` (build files) never meets a duplicate:
no FileReference declaration whose label was already recorded, no
PBXBuildFile declaration whose label was already recorded, and no
phase-membership line whose label is recorded under a different identifier.
This is the formalisation of “contains no duplicate labels under any of the
three structural patterns”. -/
def cleanAux :
    List (List Char × List Char) → List (List Char × List Char) →
    List (List Char) → Bool
  | _, _, [] => true
  | sr, sb, l :: ls =>
    match classify l with
    | .fr k i => (alook k sr).isNone && cleanAux ((k, i) :: sr) sb ls
    | .bf k i => (alook k sb).isNone && cleanAux sr ((k, i) :: sb) ls
    | .ph k i =>
      (match alook k sb with
        | some v => decide (v = i)
        | none => true) && cleanAux sr sb ls
    | .other => cleanAux sr sb ls

/-- On a clean line list the deduplication scan keeps every line and counts
zero duplicates. -/
theorem scanLoop_of_clean :
    ∀ (ls : List (List Char)) (sr sb : List (List Char × List Char)),
      cleanAux sr sb ls = true → scanLoop ls sr sb = (ls, 0) := by
  intro ls
  induction ls with
  | nil => intro sr sb _; rfl
  | cons l ls ih =>
    intro sr sb h
    rw [cleanAux] at h
    cases hc : classify l with
    | fr k i =>
      rw [hc] at h
      rcases Bool.and_eq_true_iff.mp h with ⟨h₁, h₂⟩
      cases hl : alook k sr with
      | some v => rw [hl] at h₁; simp at h₁
      | none => simp only [scanLoop, hc, hl, ih _ _ h₂]
    | bf k i =>
      rw [hc] at h
      rcases Bool.and_eq_true_iff.mp h with ⟨h₁, h₂⟩
      cases hl : alook k sb with
      | some v => rw [hl] at h₁; simp at h₁
      | none => simp only [scanLoop, hc, hl, ih _ _ h₂]
    | ph k i =>
      rw [hc] at h
      rcases Bool.and_eq_true_iff.mp h with ⟨h₁, h₂⟩
      cases hl : alook k sb with
      | some v =>
        rw [hl] at h₁
        have hvi : v = i := of_decide_eq_true h₁
        simp only [scanLoop, hc, hl, hvi, ne_eq, not_true_eq_false, ite_false,
          if_neg, ih _ _ h₂]
      | none => simp only [scanLoop, hc, hl, ih _ _ h₂]
    | other =>
      rw [hc] at h
      simp only [scanLoop, hc, ih _ _ h]

/-- The lines kept by the deduplication scan are clean with respect to the
same starting seen-maps (duplicates never make it into the output, and
dropped lines never extend the maps). -/
theorem scanLoop_output_clean :
    ∀ (ls : List (List Char)) (sr sb : List (List Char × List Char)),
      cleanAux sr sb (scanLoop ls sr sb).1 = true := by
  intro ls
  induction ls with
  | nil => intro sr sb; rfl
  | cons l ls ih =>
    intro sr sb
    cases hc : classify l with
    | fr k i =>
      cases hl : alook k sr with
      | some v => simp only [scanLoop, hc, hl]; exact ih sr sb
      | none =>
        simp only [scanLoop, hc, hl, cleanAux, Option.isNone_none, Bool.true_and]
        exact ih ((k, i) :: sr) sb
    | bf k i =>
      cases hl : alook k sb with
      | some v => simp only [scanLoop, hc, hl]; exact ih sr sb
      | none =>
        simp only [scanLoop, hc, hl, cleanAux, Option.isNone_none, Bool.true_and]
        exact ih sr ((k, i) :: sb)
    | ph k i =>
      cases hl : alook k sb with
      | some v =>
        by_cases hvi : v = i
        · simp only [scanLoop, hc, hl, hvi, ne_eq, not_true_eq_false, ite_false,
            if_neg, cleanAux, decide_True, Bool.true_and]
          exact ih sr sb
        · simp only [scanLoop, hc, hl, ne_eq, hvi, not_false_eq_true, if_pos,
            ite_true]
          exact ih sr sb
      | none =>
        simp only [scanLoop, hc, hl, cleanAux, Bool.true_and]
        exact ih sr sb
    | other =>
      simp only [scanLoop, hc, cleanAux]
      exact ih sr sb

/-- C2: for every manifest text without duplicate labels under any of the
three structural patterns, the repair leaves the stored artifact
byte-for-byte unchanged, reports zero duplicates removed, performs no write
and creates no backup file. -/
theorem c2_noop_on_clean (fs : List (String × List Char)) (wOk : String → Bool)
    (path : String) (text : List Char)
    (hread : fsLook path fs = some text)
    (hclean : cleanAux [] [] (splitNl text) = true) :
    deduplicateProjectFile fs wOk path = ⟨fs, [], .success, 0⟩ := by
  unfold deduplicateProjectFile
  rw [hread]
  have hscan := scanLoop_of_clean (splitNl text) [] [] hclean
  simp only [repairText, hscan]
  norm_num

/-- Witness for C2 at a concrete clean manifest. -/
theorem c2_noop_on_clean_witness :
    deduplicateProjectFile [(c1path, c1kept)] (fun _ => false) c1path =
      ⟨[(c1path, c1kept)], [], .success, 0⟩ :=
  c2_noop_on_clean [(c1path, c1kept)] (fun _ => false) c1path c1kept
    (by decide) (by decide)

/-! ### Structure of `findMatch` and idempotence of the blank-line collapse -/

theorem splitLastNl_none : ∀ (r : List Char), splitLastNl r = none → '\n' ∉ r := by
  intro r
  induction r with
  | nil => intro _ h; simp at h
  | cons c t ih =>
    intro h
    rw [splitLastNl] at h
    cases h' : splitLastNl t with
    | some p => rw [h'] at h; simp at h
    | none =>
      rw [h'] at h
      by_cases hc : c = '\n'
      · rw [if_pos hc] at h; simp at h
      · rw [if_neg hc] at h
        intro hm
        rcases List.mem_cons.mp hm with h1 | h2
        · exact hc h1.symm
        · exact ih h' h2

theorem splitLastNl_spec :
    ∀ (r a b : List Char), splitLastNl r = some (a, b) →
      r = a ++ '\n' :: b ∧ '\n' ∉ b := by
  intro r
  induction r with
  | nil => intro a b h; simp [splitLastNl] at h
  | cons c t ih =>
    intro a b h
    rw [splitLastNl] at h
    cases h' : splitLastNl t with
    | some p =>
      rw [h'] at h
      obtain ⟨a', b'⟩ := p
      rw [Option.some.injEq, Prod.mk.injEq] at h
      obtain ⟨h1, h2⟩ := h
      rcases ih a' b' h' with ⟨hd, hb⟩
      subst h1; subst h2
      exact ⟨by rw [hd]; rfl, hb⟩
    | none =>
      rw [h'] at h
      by_cases hc : c = '\n'
      · rw [if_pos hc] at h
        rw [Option.some.injEq, Prod.mk.injEq] at h
        obtain ⟨h1, h2⟩ := h
        subst h1; subst h2; subst hc
        exact ⟨rfl, splitLastNl_none t h'⟩
      · rw [if_neg hc] at h; simp at h

/-- Decomposition produced by `findMatch`. -/
theorem findMatch_split :
    ∀ (s p w t : List Char), findMatch s = some (p, w, t) → s = p ++ w ++ t := by
  intro s
  induction s with
  | nil => intro p w t h; simp [findMatch] at h
  | cons c s ih =>
    intro p w t h
    rw [findMatch] at h
    by_cases hc : c = '\n' ∧ 2 ≤ nlCount (s.takeWhile isWs)
    · rw [if_pos hc] at h
      cases h' : splitLastNl (s.takeWhile isWs) with
      | some ab =>
        obtain ⟨a, b⟩ := ab
        rw [h'] at h
        rw [Option.some.injEq, Prod.mk.injEq, Prod.mk.injEq] at h
        obtain ⟨h1, h2, h3⟩ := h
        subst h1; subst h2; subst h3
        rcases splitLastNl_spec _ _ _ h' with ⟨hd, _⟩
        rw [hc.1]
        show ('\n' :: s) = [] ++ ('\n' :: a ++ ['\n']) ++ (b ++ s.dropWhile isWs)
        simp only [List.nil_append, List.cons_append]
        congr 1
        conv_lhs => rw [← List.takeWhile_append_dropWhile isWs s]
        rw [hd]
        simp [List.append_assoc]
      | none => rw [h'] at h; simp at h
    · rw [if_neg hc] at h
      cases h' : findMatch s with
      | some pwt =>
        obtain ⟨p', w', t'⟩ := pwt
        rw [h'] at h
        rw [Option.some.injEq, Prod.mk.injEq, Prod.mk.injEq] at h
        obtain ⟨h1, h2, h3⟩ := h
        subst h2; subst h3
        rw [← h1]
        have hs := ih p' w' t' h'
        simp [hs]
      | none => rw [h'] at h; simp at h

theorem takeWhile_dropWhile_nil (p : Char → Bool) :
    ∀ (l : List Char), (l.dropWhile p).takeWhile p = [] := by
  intro l
  induction l with
  | nil => rfl
  | cons c t ih =>
    rw [List.dropWhile]
    by_cases hc : p c
    · rw [hc]; exact ih
    · rw [Bool.of_not_eq_true hc]
      rw [List.takeWhile]
      rw [Bool.of_not_eq_true hc]

/-- If `a` contains a non-whitespace character then the whitespace head run of
`a ++ b` is that of `a`. -/
theorem takeWhile_append_left (p : Char → Bool) :
    ∀ (a b : List Char), ¬(∀ c ∈ a, p c = true) →
      (a ++ b).takeWhile p = a.takeWhile p := by
  intro a
  induction a with
  | nil => intro b h; exact absurd (by intro c hc; simp at hc) h
  | cons c t ih =>
    intro b h
    by_cases hc : p c
    · have ht : ¬(∀ x ∈ t, p x = true) := by
        intro hall
        apply h
        intro x hx
        rcases List.mem_cons.mp hx with h1 | h2
        · rw [h1]; exact hc
        · exact hall x h2
      rw [List.cons_append, List.takeWhile_cons_of_pos hc,
        List.takeWhile_cons_of_pos hc, ih b ht]
    · rw [List.cons_append, List.takeWhile_cons_of_neg hc,
        List.takeWhile_cons_of_neg hc]

/-- Newline count of the whitespace head run is monotone under appending. -/
theorem nlCount_takeWhile_le (p : Char → Bool) :
    ∀ (a b : List Char),
      (a.takeWhile p).count '\n' ≤ ((a ++ b).takeWhile p).count '\n' := by
  intro a
  induction a with
  | nil => intro b; simp
  | cons c t ih =>
    intro b
    by_cases hc : p c
    · rw [List.cons_append, List.takeWhile_cons_of_pos hc,
        List.takeWhile_cons_of_pos hc, List.count_cons, List.count_cons]
      exact Nat.add_le_add_right (ih b) _
    · rw [List.cons_append, List.takeWhile_cons_of_neg hc]
      simp

/-- An all-whitespace prefix embeds into the whitespace head run. -/
theorem allWs_sub_takeWhile (p : Char → Bool) (a r : List Char)
    (h : ∀ c ∈ a, p c = true) : (a ++ r).takeWhile p = a ++ r.takeWhile p :=
  List.takeWhile_append_of_pos h

/-- Master structure lemma for the matched window of `findMatch`. -/
theorem findMatch_w_spec :
    ∀ (s p w t : List Char), findMatch s = some (p, w, t) →
      (∀ c ∈ w, isWs c = true) ∧ (∃ a, w = '\n' :: a ++ ['\n']) ∧
      '\n' ∉ t.takeWhile isWs := by
  intro s
  induction s with
  | nil => intro p w t h; simp [findMatch] at h
  | cons c s ih =>
    intro p w t h
    rw [findMatch] at h
    by_cases hc : c = '\n' ∧ 2 ≤ nlCount (s.takeWhile isWs)
    · rw [if_pos hc] at h
      cases h' : splitLastNl (s.takeWhile isWs) with
      | some ab =>
        obtain ⟨a, b⟩ := ab
        rw [h'] at h
        rw [Option.some.injEq, Prod.mk.injEq, Prod.mk.injEq] at h
        obtain ⟨h1, h2, h3⟩ := h
        subst h1; subst h2; subst h3
        rcases splitLastNl_spec _ _ _ h' with ⟨hd, hb⟩
        refine ⟨?_, ⟨a, rfl⟩, ?_⟩
        · intro x hx
          rcases List.mem_cons.mp hx with h1 | h2
          · rw [h1]; rfl
          · have hmem : x ∈ s.takeWhile isWs := by
              rw [hd]
              rcases List.mem_append.mp h2 with ha | hnl
              · exact List.mem_append.mpr (Or.inl ha)
              · simp at hnl
                rw [hnl]
                exact List.mem_append.mpr (Or.inr (List.mem_cons_self _ _))
            exact List.mem_takeWhile_imp hmem
        · have hws : ∀ x ∈ b, isWs x = true := by
            intro x hx
            have hmem : x ∈ s.takeWhile isWs := by
              rw [hd]; exact List.mem_append.mpr (Or.inr (List.mem_cons_of_mem _ hx))
            exact List.mem_takeWhile_imp hmem
          rw [allWs_sub_takeWhile isWs b _ hws]
          rw [takeWhile_dropWhile_nil]
          intro hmm
          rcases List.mem_append.mp hmm with h1 | h2
          · exact hb h1
          · simp at h2
      | none => rw [h'] at h; simp at h
    · rw [if_neg hc] at h
      cases h' : findMatch s with
      | some pwt =>
        obtain ⟨p', w', t'⟩ := pwt
        rw [h'] at h
        rw [Option.some.injEq, Prod.mk.injEq, Prod.mk.injEq] at h
        obtain ⟨h1, h2, h3⟩ := h
        subst h2; subst h3
        exact ih p' w' t' h'
      | none => rw [h'] at h; simp at h

theorem findMatch_cons_none (c : Char) (s : List Char)
    (h : findMatch (c :: s) = none) :
    findMatch s = none ∧ ¬(c = '\n' ∧ 2 ≤ nlCount (s.takeWhile isWs)) := by
  rw [findMatch] at h
  by_cases hc : c = '\n' ∧ 2 ≤ nlCount (s.takeWhile isWs)
  · exfalso
    rw [if_pos hc] at h
    cases h' : splitLastNl (s.takeWhile isWs) with
    | some ab => obtain ⟨a, b⟩ := ab; rw [h'] at h; simp at h
    | none =>
      have hmem : '\n' ∈ s.takeWhile isWs := by
        have : 0 < (s.takeWhile isWs).count '\n' := lt_of_lt_of_le (by norm_num) hc.2
        exact List.count_pos_iff.mp this
      exact splitLastNl_none _ h' hmem
  · rw [if_neg hc] at h
    cases h' : findMatch s with
    | some pwt => rw [h'] at h; simp at h
    | none => exact ⟨rfl, hc⟩

/-- No earlier match exists inside the part before the leftmost match. -/
theorem findMatch_p_none :
    ∀ (s p w t : List Char), findMatch s = some (p, w, t) → findMatch p = none := by
  intro s
  induction s with
  | nil => intro p w t h; simp [findMatch] at h
  | cons c s ih =>
    intro p w t h
    rw [findMatch] at h
    by_cases hc : c = '\n' ∧ 2 ≤ nlCount (s.takeWhile isWs)
    · rw [if_pos hc] at h
      cases h' : splitLastNl (s.takeWhile isWs) with
      | some ab =>
        obtain ⟨a, b⟩ := ab
        rw [h'] at h
        rw [Option.some.injEq, Prod.mk.injEq, Prod.mk.injEq] at h
        rw [← h.1]
        rfl
      | none => rw [h'] at h; simp at h
    · rw [if_neg hc] at h
      cases h' : findMatch s with
      | some pwt =>
        obtain ⟨p', w', t'⟩ := pwt
        rw [h'] at h
        rw [Option.some.injEq, Prod.mk.injEq, Prod.mk.injEq] at h
        obtain ⟨h1, h2, h3⟩ := h
        subst h2; subst h3
        rw [← h1]
        rw [findMatch]
        have hnc : ¬(c = '\n' ∧ 2 ≤ nlCount (p'.takeWhile isWs)) := by
          rintro ⟨hceq, hcnt⟩
          apply hc
          refine ⟨hceq, le_trans hcnt ?_⟩
          have hs := findMatch_split s p' w' t' h'
          rw [hs]
          calc (p'.takeWhile isWs).count '\n'
              ≤ ((p' ++ (w' ++ t')).takeWhile isWs).count '\n' :=
                nlCount_takeWhile_le isWs p' (w' ++ t')
            _ = nlCount ((p' ++ w' ++ t').takeWhile isWs) := by
                rw [nlCount, List.append_assoc]
        rw [if_neg hnc, ih p' w' t' h']
      | none => rw [h'] at h; simp at h

/-- No newline in the part before the leftmost match is connected to its end
by whitespace only. -/
theorem findMatch_p_tail :
    ∀ (s p w t : List Char), findMatch s = some (p, w, t) →
      ∀ x y, p = x ++ '\n' :: y → ¬(∀ c ∈ y, isWs c = true) := by
  intro s
  induction s with
  | nil => intro p w t h; simp [findMatch] at h
  | cons c s ih =>
    intro p w t h
    rw [findMatch] at h
    by_cases hc : c = '\n' ∧ 2 ≤ nlCount (s.takeWhile isWs)
    · rw [if_pos hc] at h
      cases h' : splitLastNl (s.takeWhile isWs) with
      | some ab =>
        obtain ⟨a, b⟩ := ab
        rw [h'] at h
        rw [Option.some.injEq, Prod.mk.injEq, Prod.mk.injEq] at h
        intro x y hp
        rw [← h.1] at hp
        simp at hp
      | none => rw [h'] at h; simp at h
    · rw [if_neg hc] at h
      cases h' : findMatch s with
      | some pwt =>
        obtain ⟨p', w', t'⟩ := pwt
        rw [h'] at h
        rw [Option.some.injEq, Prod.mk.injEq, Prod.mk.injEq] at h
        obtain ⟨h1, h2, h3⟩ := h
        subst h2; subst h3
        intro x y hp hall
        rw [← h1] at hp
        cases x with
        | nil =>
          simp at hp
          obtain ⟨hcc, hpy⟩ := hp
          apply hc
          refine ⟨hcc, ?_⟩
          have hs := findMatch_split s p' w' t' h'
          rcases findMatch_w_spec s p' w' t' h' with ⟨hwws, ⟨a, hwsh⟩, _⟩
          have hpws : ∀ q ∈ p', isWs q = true := by
            rw [hpy]; exact hall
          rw [hs, List.append_assoc, allWs_sub_takeWhile isWs p' _ hpws,
            allWs_sub_takeWhile isWs w' _ hwws]
          rw [nlCount]
          rw [List.count_append, List.count_append]
          have : 2 ≤ w'.count '\n' := by
            rw [hwsh]
            simp [List.count_cons, List.count_append]
          omega
        | cons d x' =>
          simp at hp
          exact ih p' w' t' h' x' y hp.2 hall
      | none => rw [h'] at h; simp at h

theorem subAux_nil : ∀ (f : Nat), subAux f [] = [] := by
  intro f
  cases f with
  | zero => rfl
  | succ f => rw [subAux]; rfl

theorem findMatch_t_short (s p w t : List Char) (h : findMatch s = some (p, w, t)) :
    t.length + 2 ≤ s.length := by
  have hs := findMatch_split s p w t h
  rcases findMatch_w_spec s p w t h with ⟨_, ⟨a, hw⟩, _⟩
  rw [hs, hw]
  simp
  omega

/-- The fuel argument of `subAux` is irrelevant once it covers the length. -/
theorem subAux_fuel :
    ∀ (k f g : Nat) (s : List Char), s.length ≤ k → s.length ≤ f →
      s.length ≤ g → subAux f s = subAux g s := by
  intro k
  induction k with
  | zero =>
    intro f g s hk _ _
    have : s = [] := List.eq_nil_of_length_eq_zero (Nat.le_zero.mp hk)
    subst this
    rw [subAux_nil, subAux_nil]
  | succ k ih =>
    intro f g s hk hf hg
    cases f with
    | zero =>
      have : s = [] := List.eq_nil_of_length_eq_zero (Nat.le_zero.mp hf)
      subst this
      rw [subAux_nil, subAux_nil]
    | succ f =>
      cases g with
      | zero =>
        have : s = [] := List.eq_nil_of_length_eq_zero (Nat.le_zero.mp hg)
        subst this
        rw [subAux_nil, subAux_nil]
      | succ g =>
        rw [subAux, subAux]
        cases hm : findMatch s with
        | none => rfl
        | some pwt =>
          obtain ⟨p, w, t⟩ := pwt
          have hlen := findMatch_t_short s p w t hm
          have ht : subAux f t = subAux g t := by
            apply ih f g t <;> omega
          dsimp only
          rw [ht]

/-- Recursion equation for the blank-line collapse. -/
theorem collapse_eq (s : List Char) :
    collapse s = (match findMatch s with
      | none => s
      | some (p, _, t) => p ++ '\n' :: '\n' :: collapse t) := by
  rw [collapse]
  cases hm : findMatch s with
  | none =>
    cases hl : s.length with
    | zero => rfl
    | succ n => rw [subAux, hm]
  | some pwt =>
    obtain ⟨p, w, t⟩ := pwt
    have hlen := findMatch_t_short s p w t hm
    cases hl : s.length with
    | zero => omega
    | succ n =>
      rw [subAux, hm]
      have hnt : subAux n t = subAux t.length t := by
        apply subAux_fuel n n t.length t <;> omega
      dsimp only
      rw [hnt]
      rfl

/-- A match-free part, a double newline and a match-free continuation with a
newline-free whitespace head glue into a match-free whole. -/
theorem findMatch_none_concat :
    ∀ (p q : List Char), findMatch p = none →
      (∀ x y, p = x ++ '\n' :: y → ¬(∀ c ∈ y, isWs c = true)) →
      findMatch q = none → '\n' ∉ q.takeWhile isWs →
      findMatch (p ++ '\n' :: '\n' :: q) = none := by
  intro p
  induction p with
  | nil =>
    intro q _ _ hq hqh
    have hcq : ('\n' :: q).takeWhile isWs = '\n' :: q.takeWhile isWs :=
      List.takeWhile_cons_of_pos (by rfl)
    have hcnt0 : (q.takeWhile isWs).count '\n' = 0 := List.count_eq_zero.mpr hqh
    rw [List.nil_append, findMatch]
    have hnc1 : ¬('\n' = '\n' ∧ 2 ≤ nlCount (('\n' :: q).takeWhile isWs)) := by
      rintro ⟨_, hcnt⟩
      rw [hcq, nlCount, List.count_cons_self, hcnt0] at hcnt
      omega
    rw [if_neg hnc1, findMatch]
    have hnc2 : ¬('\n' = '\n' ∧ 2 ≤ nlCount (q.takeWhile isWs)) := by
      rintro ⟨_, hcnt⟩
      rw [nlCount, hcnt0] at hcnt
      omega
    rw [if_neg hnc2, hq]
  | cons c p' ih =>
    intro q hp hpt hq hqh
    obtain ⟨hp', hnc⟩ := findMatch_cons_none c p' hp
    rw [List.cons_append, findMatch]
    have hcond :
        ¬(c = '\n' ∧ 2 ≤ nlCount ((p' ++ '\n' :: '\n' :: q).takeWhile isWs)) := by
      rintro ⟨hceq, hcnt⟩
      by_cases hall : ∀ x ∈ p', isWs x = true
      · exact hpt [] p' (by rw [hceq]; rfl) hall
      · rw [takeWhile_append_left isWs p' _ hall] at hcnt
        exact hnc ⟨hceq, hcnt⟩
    rw [if_neg hcond]
    have hrest :
        findMatch (p' ++ '\n' :: '\n' :: q) = none := by
      apply ih q hp' _ hq hqh
      intro x y hxy
      exact hpt (c :: x) y (by rw [hxy]; rfl)
    rw [hrest]

/-- The whitespace head run never gains a newline through collapsing. -/
theorem collapse_nl_head (s : List Char) (h : '\n' ∉ s.takeWhile isWs) :
    '\n' ∉ (collapse s).takeWhile isWs := by
  rw [collapse_eq]
  cases hm : findMatch s with
  | none => exact h
  | some pwt =>
    obtain ⟨p, w, t⟩ := pwt
    have hs := findMatch_split s p w t hm
    rcases findMatch_w_spec s p w t hm with ⟨hwws, ⟨a, hwsh⟩, _⟩
    have hnws : ¬(∀ c ∈ p, isWs c = true) := by
      intro hall
      apply h
      rw [hs, List.append_assoc, allWs_sub_takeWhile isWs p _ hall]
      apply List.mem_append.mpr
      right
      rw [allWs_sub_takeWhile isWs w _ hwws]
      apply List.mem_append.mpr
      left
      rw [hwsh]
      exact List.mem_cons_self _ _
    dsimp only
    rw [takeWhile_append_left isWs p _ hnws]
    have heq : s.takeWhile isWs = p.takeWhile isWs := by
      rw [hs, List.append_assoc, takeWhile_append_left isWs p _ hnws]
    rw [← heq]
    exact h

theorem collapse_nil : collapse [] = [] := rfl

/-- The output of the collapse contains no further match of the blank-run
pattern (this is where non-rescanned replacements could in principle have
created one). -/
theorem findMatch_collapse_bound :
    ∀ (n : Nat) (s : List Char), s.length ≤ n → findMatch (collapse s) = none := by
  intro n
  induction n with
  | zero =>
    intro s hn
    have : s = [] := List.eq_nil_of_length_eq_zero (Nat.le_zero.mp hn)
    subst this
    rw [collapse_nil]
    rfl
  | succ n ih =>
    intro s hn
    rw [collapse_eq]
    cases hm : findMatch s with
    | none => exact hm
    | some pwt =>
      obtain ⟨p, w, t⟩ := pwt
      have hlen := findMatch_t_short s p w t hm
      rcases findMatch_w_spec s p w t hm with ⟨hwws, ⟨a, hwsh⟩, hth⟩
      dsimp only
      apply findMatch_none_concat
      · exact findMatch_p_none s p w t hm
      · exact findMatch_p_tail s p w t hm
      · exact ih t (by omega)
      · exact collapse_nl_head t hth

theorem findMatch_collapse (s : List Char) : findMatch (collapse s) = none :=
  findMatch_collapse_bound s.length s le_rfl

/-- Collapsing is idempotent. -/
theorem collapse_idem (s : List Char) : collapse (collapse s) = collapse s := by
  rw [collapse_eq (collapse s), findMatch_collapse s]

/-- A match-free text contains no three newlines separated by whitespace. -/
theorem noTriple_of_findMatch_none :
    ∀ (s : List Char), findMatch s = none →
      ∀ x y z u, (∀ c ∈ y, isWs c = true) → (∀ c ∈ z, isWs c = true) →
        s ≠ x ++ '\n' :: (y ++ '\n' :: (z ++ '\n' :: u)) := by
  intro s
  induction s with
  | nil =>
    intro _ x y z u _ _ heq
    have := congrArg List.length heq
    simp at this
    omega
  | cons c s' ih =>
    intro h x y z u hy hz heq
    obtain ⟨hs', hnc⟩ := findMatch_cons_none c s' h
    cases x with
    | nil =>
      rw [List.nil_append] at heq
      rw [List.cons.injEq] at heq
      obtain ⟨hc, hs⟩ := heq
      apply hnc
      refine ⟨hc, ?_⟩
      have hdec : s' = (y ++ '\n' :: (z ++ ['\n'])) ++ u := by
        rw [hs]; simp
      have hallws : ∀ q ∈ y ++ '\n' :: (z ++ ['\n']), isWs q = true := by
        intro q hq
        rcases List.mem_append.mp hq with h1 | h2
        · exact hy q h1
        · rcases List.mem_cons.mp h2 with h3 | h4
          · rw [h3]; rfl
          · rcases List.mem_append.mp h4 with h5 | h6
            · exact hz q h5
            · simp at h6; rw [h6]; rfl
      rw [hdec, allWs_sub_takeWhile isWs _ _ hallws]
      rw [nlCount, List.count_append]
      have : 2 ≤ (y ++ '\n' :: (z ++ ['\n'])).count '\n' := by
        rw [List.count_append, List.count_cons_self, List.count_append]
        simp
        omega
      omega
    | cons d x' =>
      rw [List.cons_append, List.cons.injEq] at heq
      exact ih hs' x' y z u hy hz heq.2

/-! ### Line-level algebra of `splitNl` / `joinNl` -/

theorem splitNl_ne_nil : ∀ (s : List Char), splitNl s ≠ [] := by
  intro s
  cases s with
  | nil => simp [splitNl]
  | cons c rest =>
    rw [splitNl]
    by_cases hc : c = '\n'
    · rw [if_pos hc]; simp
    · rw [if_neg hc]
      cases splitNl rest with
      | nil => simp
      | cons h t => simp

theorem splitNl_append_nl :
    ∀ (a b : List Char), splitNl (a ++ '\n' :: b) = splitNl a ++ splitNl b := by
  intro a
  induction a with
  | nil =>
    intro b
    simp [splitNl]
  | cons c a' ih =>
    intro b
    rw [List.cons_append, splitNl, splitNl]
    by_cases hc : c = '\n'
    · rw [if_pos hc, if_pos hc, ih b]
      rfl
    · rw [if_neg hc, if_neg hc, ih b]
      cases hsp : splitNl a' with
      | nil => exact absurd hsp (splitNl_ne_nil a')
      | cons h t => rfl

theorem joinNl_splitNl : ∀ (s : List Char), joinNl (splitNl s) = s := by
  intro s
  induction s with
  | nil => rfl
  | cons c rest ih =>
    rw [splitNl]
    by_cases hc : c = '\n'
    · rw [if_pos hc, joinNl]
      have hne : ¬((splitNl rest).isEmpty = true) := by
        cases hsp : splitNl rest with
        | nil => exact absurd hsp (splitNl_ne_nil rest)
        | cons h t => simp
      rw [if_neg hne, ih, hc]
      rfl
    · rw [if_neg hc]
      cases hsp : splitNl rest with
      | nil => exact absurd hsp (splitNl_ne_nil rest)
      | cons h t =>
        rw [joinNl]
        rw [hsp, joinNl] at ih
        rw [List.cons_append, ih]

theorem splitNl_no_nl : ∀ (l : List Char), '\n' ∉ l → splitNl l = [l] := by
  intro l
  induction l with
  | nil => intro _; rfl
  | cons c t ih =>
    intro h
    have hc : c ≠ '\n' := by
      intro hcc
      exact h (by rw [hcc]; exact List.mem_cons_self _ _)
    rw [splitNl, if_neg hc, ih (fun hm => h (List.mem_cons_of_mem _ hm))]

theorem splitNl_joinNl :
    ∀ (ls : List (List Char)), ls ≠ [] → (∀ l ∈ ls, '\n' ∉ l) →
      splitNl (joinNl ls) = ls := by
  intro ls
  induction ls with
  | nil => intro h _; exact absurd rfl h
  | cons l ls ih =>
    intro _ hnl
    cases ls with
    | nil =>
      rw [joinNl]
      simp only [List.isEmpty_nil, if_pos, List.append_nil, ite_true]
      exact splitNl_no_nl l (hnl l (List.mem_cons_self _ _))
    | cons l2 ls2 =>
      rw [joinNl]
      simp only [List.isEmpty_cons, ite_false, Bool.false_eq_true, if_neg,
        not_false_eq_true]
      rw [splitNl_append_nl, splitNl_no_nl l (hnl l (List.mem_cons_self _ _))]
      rw [ih (by simp) (fun q hq => hnl q (List.mem_cons_of_mem _ hq))]
      rfl

/-- Characters of a line produced by `splitNl` come from the input text. -/
theorem splitNl_chars :
    ∀ (s : List Char) (l : List Char), l ∈ splitNl s → ∀ c ∈ l, c ∈ s := by
  intro s
  induction s with
  | nil =>
    intro l hl c hc
    simp [splitNl] at hl
    subst hl
    simp at hc
  | cons d rest ih =>
    intro l hl c hc
    rw [splitNl] at hl
    by_cases hd : d = '\n'
    · rw [if_pos hd] at hl
      rcases List.mem_cons.mp hl with h1 | h2
      · subst h1; simp at hc
      · exact List.mem_cons_of_mem _ (ih l h2 c hc)
    · rw [if_neg hd] at hl
      cases hsp : splitNl rest with
      | nil => exact absurd hsp (splitNl_ne_nil rest)
      | cons h t =>
        rw [hsp] at hl
        rcases List.mem_cons.mp hl with h1 | h2
        · subst h1
          rcases List.mem_cons.mp hc with h3 | h4
          · rw [h3]; exact List.mem_cons_self _ _
          · exact List.mem_cons_of_mem _
              (ih h (by rw [hsp]; exact List.mem_cons_self _ _) c h4)
        · exact List.mem_cons_of_mem _
            (ih l (by rw [hsp]; exact List.mem_cons_of_mem _ h2) c hc)

/-- Lines produced by `splitNl` contain no newline. -/
theorem splitNl_no_nl_mem :
    ∀ (s : List Char) (l : List Char), l ∈ splitNl s → '\n' ∉ l := by
  intro s
  induction s with
  | nil =>
    intro l hl
    simp [splitNl] at hl
    subst hl
    simp
  | cons d rest ih =>
    intro l hl
    rw [splitNl] at hl
    by_cases hd : d = '\n'
    · rw [if_pos hd] at hl
      rcases List.mem_cons.mp hl with h1 | h2
      · subst h1; simp
      · exact ih l h2
    · rw [if_neg hd] at hl
      cases hsp : splitNl rest with
      | nil => exact absurd hsp (splitNl_ne_nil rest)
      | cons h t =>
        rw [hsp] at hl
        rcases List.mem_cons.mp hl with h1 | h2
        · subst h1
          intro hm
          rcases List.mem_cons.mp hm with h3 | h4
          · exact hd h3.symm
          · exact ih h (by rw [hsp]; exact List.mem_cons_self _ _) h4
        · exact ih l (by rw [hsp]; exact List.mem_cons_of_mem _ h2)

/-! ### Transfer of cleanliness through the collapse -/

def wsLine (l : List Char) : Bool := l.all isWs

def nonWsLines (ls : List (List Char)) : List (List Char) :=
  ls.filter (fun l => !(wsLine l))

def clsOf (ls : List (List Char)) : List LClass :=
  (ls.map classify).filter (fun c => decide (c ≠ LClass.other))

/-- The classified-line view of the seen-map recursion. -/
def cleanC :
    List (List Char × List Char) → List (List Char × List Char) →
    List LClass → Bool
  | _, _, [] => true
  | sr, sb, c :: cs =>
    match c with
    | .fr k i => (alook k sr).isNone && cleanC ((k, i) :: sr) sb cs
    | .bf k i => (alook k sb).isNone && cleanC sr ((k, i) :: sb) cs
    | .ph k i =>
      (match alook k sb with
        | some v => decide (v = i)
        | none => true) && cleanC sr sb cs
    | .other => cleanC sr sb cs

theorem matchCore_ws_none (tp : List Char → Bool) (l : List Char)
    (h : wsLine l = true) : matchCore tp l = none := by
  cases l with
  | nil => rfl
  | cons c rest =>
    rw [wsLine, List.all_cons, Bool.and_eq_true_iff] at h
    have hdrop : rest.dropWhile isWs = [] := by
      rw [List.dropWhile_eq_nil_iff]
      intro x hx
      exact (List.all_eq_true.mp h.2) x hx
    rw [matchCore, ws1, if_pos h.1, hdrop]
    rfl

theorem classify_ws (l : List Char) (h : wsLine l = true) :
    classify l = .other := by
  rw [classify, frMatch, bfMatch, phMatch,
    matchCore_ws_none frTail l h, matchCore_ws_none bfTail l h,
    matchCore_ws_none phTail l h]

theorem clsOf_nil : clsOf [] = [] := rfl

theorem clsOf_cons (l : List Char) (ls : List (List Char)) :
    clsOf (l :: ls) =
      if classify l ≠ LClass.other then classify l :: clsOf ls else clsOf ls := by
  rw [clsOf, List.map_cons, List.filter_cons]
  by_cases hc : classify l = LClass.other
  · simp [hc, clsOf]
  · simp [hc, clsOf]

theorem clsOf_nonWs : ∀ (ls : List (List Char)), clsOf (nonWsLines ls) = clsOf ls := by
  intro ls
  induction ls with
  | nil => rfl
  | cons l ls ih =>
    rw [nonWsLines, List.filter_cons]
    by_cases hw : wsLine l = true
    · have : (!(wsLine l)) = false := by rw [hw]; rfl
      rw [this]
      simp only [Bool.false_eq_true, if_neg, ite_false, not_false_eq_true]
      rw [clsOf_cons, if_neg (by rw [classify_ws l hw]; simp)]
      exact ih
    · have : (!(wsLine l)) = true := by
        cases hww : wsLine l with
        | true => exact absurd hww hw
        | false => rfl
      rw [this]
      simp only [ite_true, if_pos]
      rw [clsOf_cons, clsOf_cons, ← nonWsLines, ih]

theorem cleanAux_eq_cleanC :
    ∀ (ls : List (List Char)) (sr sb : List (List Char × List Char)),
      cleanAux sr sb ls = cleanC sr sb (clsOf ls) := by
  intro ls
  induction ls with
  | nil => intro sr sb; rfl
  | cons l ls ih =>
    intro sr sb
    rw [cleanAux, clsOf_cons]
    cases hc : classify l with
    | fr k i =>
      dsimp only
      rw [if_pos (by simp)]
      simp only [cleanC]
      rw [ih ((k, i) :: sr) sb]
    | bf k i =>
      dsimp only
      rw [if_pos (by simp)]
      simp only [cleanC]
      rw [ih sr ((k, i) :: sb)]
    | ph k i =>
      dsimp only
      rw [if_pos (by simp)]
      simp only [cleanC]
      rw [ih sr sb]
    | other =>
      dsimp only
      rw [if_neg (by simp)]
      exact ih sr sb

/-- Collapsing preserves the non-whitespace lines (it only deletes
whitespace-only lines and inserts empty lines). -/
theorem nonWsLines_collapse_bound :
    ∀ (n : Nat) (s : List Char), s.length ≤ n →
      nonWsLines (splitNl (collapse s)) = nonWsLines (splitNl s) := by
  intro n
  induction n with
  | zero =>
    intro s hn
    have : s = [] := List.eq_nil_of_length_eq_zero (Nat.le_zero.mp hn)
    subst this
    rw [collapse_nil]
  | succ n ih =>
    intro s hn
    rw [collapse_eq]
    cases hm : findMatch s with
    | none => rfl
    | some pwt =>
      obtain ⟨p, w, t⟩ := pwt
      have hlen := findMatch_t_short s p w t hm
      have hs := findMatch_split s p w t hm
      rcases findMatch_w_spec s p w t hm with ⟨hwws, ⟨a, hwsh⟩, _⟩
      dsimp only
      have hsplit1 :
          splitNl (p ++ '\n' :: '\n' :: collapse t) =
            splitNl p ++ [] :: splitNl (collapse t) := by
        rw [splitNl_append_nl]
        congr 1
      have hs2 : s = p ++ '\n' :: (a ++ '\n' :: t) := by
        rw [hs, hwsh]
        simp
      have hsplit2 :
          splitNl s = splitNl p ++ splitNl a ++ splitNl t := by
        rw [hs2, splitNl_append_nl, splitNl_append_nl, List.append_assoc]
      rw [hsplit1, hsplit2]
      rw [nonWsLines, nonWsLines, List.filter_append, List.filter_append,
        List.filter_append]
      have hwsa : ∀ l ∈ splitNl a, wsLine l = true := by
        intro l hl
        rw [wsLine, List.all_eq_true]
        intro c hc
        apply hwws
        rw [hwsh]
        have := splitNl_chars a l hl c hc
        exact List.mem_cons_of_mem _ (List.mem_append.mpr (Or.inl this))
      have hfa : (splitNl a).filter (fun l => !(wsLine l)) = [] := by
        rw [List.filter_eq_nil_iff]
        intro l hl
        rw [hwsa l hl]
        simp
      have hfe : ([] :: splitNl (collapse t)).filter (fun l => !(wsLine l)) =
          (splitNl (collapse t)).filter (fun l => !(wsLine l)) := by
        rw [List.filter_cons]
        norm_num [wsLine]
      rw [hfa, hfe]
      have := ih t (by omega)
      rw [nonWsLines, nonWsLines] at this
      rw [this]
      simp

/-- The kept lines of the scan form a sublist of the input lines. -/
theorem scanLoop_sublist :
    ∀ (ls : List (List Char)) (sr sb : List (List Char × List Char)),
      List.Sublist (scanLoop ls sr sb).1 ls := by
  intro ls
  induction ls with
  | nil => intro sr sb; simp [scanLoop]
  | cons l ls ih =>
    intro sr sb
    cases hc : classify l with
    | fr k i =>
      cases hl : alook k sr with
      | some v =>
        simp only [scanLoop, hc, hl]
        exact (ih sr sb).cons l
      | none =>
        simp only [scanLoop, hc, hl]
        exact (ih ((k, i) :: sr) sb).cons₂ l
    | bf k i =>
      cases hl : alook k sb with
      | some v =>
        simp only [scanLoop, hc, hl]
        exact (ih sr sb).cons l
      | none =>
        simp only [scanLoop, hc, hl]
        exact (ih sr ((k, i) :: sb)).cons₂ l
    | ph k i =>
      cases hl : alook k sb with
      | some v =>
        by_cases hvi : v = i
        · simp only [scanLoop, hc, hl, hvi, ne_eq, not_true_eq_false, ite_false,
            if_neg]
          exact (ih sr sb).cons₂ l
        · simp only [scanLoop, hc, hl, ne_eq, hvi, not_false_eq_true, if_pos,
            ite_true]
          exact (ih sr sb).cons l
      | none =>
        simp only [scanLoop, hc, hl]
        exact (ih sr sb).cons₂ l
    | other =>
      simp only [scanLoop, hc]
      exact (ih sr sb).cons₂ l

/-- C7 counterexample: on the input consisting of two newline characters the
repair removes no duplicates and returns the text unchanged, yet that output
splits into three consecutive blank lines — so the repaired output can very
well contain a run of two or more consecutive blank lines (the collapse only
fires on runs of at least three newlines). -/
theorem c7_blank_run_cex :
    repairText (("\n\n").data) = ((("\n\n").data), 0) ∧
    [[], []] <:+: splitNl (repairText (("\n\n").data)).1 := by
  decide

/-- C3: repair is idempotent — applying repair to the result of repair
returns that result unchanged and removes zero duplicates. -/
theorem c3_repair_idem (t : List Char) :
    repairText (repairText t).1 = ((repairText t).1, 0) := by
  have hT1 : (repairText t).1 =
      collapse (joinNl (scanLoop (splitNl t) [] []).1) := rfl
  have hcleanK : cleanAux [] [] (scanLoop (splitNl t) [] []).1 = true :=
    scanLoop_output_clean (splitNl t) [] []
  have hnlK : ∀ l ∈ (scanLoop (splitNl t) [] []).1, '\n' ∉ l := by
    intro l hl
    exact splitNl_no_nl_mem t l ((scanLoop_sublist (splitNl t) [] []).subset hl)
  have hclsKjoin :
      clsOf (splitNl (joinNl (scanLoop (splitNl t) [] []).1)) =
        clsOf (scanLoop (splitNl t) [] []).1 := by
    cases hKc : (scanLoop (splitNl t) [] []).1 with
    | nil => rfl
    | cons l ls =>
      rw [splitNl_joinNl (l :: ls) (by simp) (by rw [← hKc]; exact hnlK)]
  have hcls1 :
      clsOf (splitNl (collapse (joinNl (scanLoop (splitNl t) [] []).1))) =
        clsOf (scanLoop (splitNl t) [] []).1 := by
    calc clsOf (splitNl (collapse (joinNl (scanLoop (splitNl t) [] []).1)))
        = clsOf (nonWsLines
            (splitNl (collapse (joinNl (scanLoop (splitNl t) [] []).1)))) :=
          (clsOf_nonWs _).symm
      _ = clsOf (nonWsLines (splitNl (joinNl (scanLoop (splitNl t) [] []).1))) := by
          rw [nonWsLines_collapse_bound
            (joinNl (scanLoop (splitNl t) [] []).1).length _ le_rfl]
      _ = clsOf (splitNl (joinNl (scanLoop (splitNl t) [] []).1)) := clsOf_nonWs _
      _ = clsOf (scanLoop (splitNl t) [] []).1 := hclsKjoin
  have hclean1 :
      cleanAux [] []
        (splitNl (collapse (joinNl (scanLoop (splitNl t) [] []).1))) = true := by
    rw [cleanAux_eq_cleanC, hcls1, ← cleanAux_eq_cleanC]
    exact hcleanK
  have hscan2 := scanLoop_of_clean _ [] [] hclean1
  rw [hT1]
  show (collapse (joinNl (scanLoop
      (splitNl (collapse (joinNl (scanLoop (splitNl t) [] []).1))) [] []).1),
    (scanLoop (splitNl (collapse (joinNl (scanLoop (splitNl t) [] []).1))) [] []).2) = _
  rw [hscan2]
  rw [joinNl_splitNl, collapse_idem]

/-- C7 (amended): after the repair the output text contains no run of three
newlines separated only by whitespace — the collapse eliminates every
occurrence of the pattern `\n\s*\n\s*\n`.  (Runs of blank lines delimited by
only two newline characters, such as the counterexample above, may remain.) -/
theorem c7_collapse_amended (t x y z u : List Char)
    (hy : ∀ c ∈ y, isWs c = true) (hz : ∀ c ∈ z, isWs c = true) :
    (repairText t).1 ≠ x ++ '\n' :: (y ++ '\n' :: (z ++ '\n' :: u)) := by
  have hnone : findMatch (repairText t).1 = none := by
    rw [repairText]
    exact findMatch_collapse _
  exact noTriple_of_findMatch_none _ hnone x y z u hy hz

/-- Witness for the amended C7 at a concrete input. -/
theorem c7_collapse_amended_witness :
    (repairText (("\n\n").data)).1 ≠ [] ++ '\n' :: ([] ++ '\n' :: ([] ++ '\n' :: [])) :=
  c7_collapse_amended (("\n\n").data) [] [] [] [] (by simp) (by simp)

/-- C6: on a repair that removes at least one duplicate, the pre-repair text
is written to the backup path first (it heads the write trace, and the backup
file holds the pre-repair text); and if the backup write fails, the engine
stops without touching the stored artifact (the whole filesystem, and in
particular the original file, is unchanged). -/
theorem c6_backup_before_overwrite (fs : List (String × List Char))
    (wOk : String → Bool) (path : String) (text : List Char)
    (hread : fsLook path fs = some text)
    (hcnt : 0 < (repairText text).2) :
    (wOk (backupPath path) = false →
      deduplicateProjectFile fs wOk path =
        ⟨fs, [], .backupFailed, (repairText text).2⟩) ∧
    (wOk (backupPath path) = true →
      fsLook (backupPath path) (deduplicateProjectFile fs wOk path).fs =
        some text ∧
      ((deduplicateProjectFile fs wOk path).writes = [backupPath path] ∨
        (deduplicateProjectFile fs wOk path).writes = [backupPath path, path])) := by
  unfold deduplicateProjectFile
  rw [hread]
  dsimp only
  constructor
  · intro hb
    rw [if_pos hcnt, hb]
    rfl
  · intro hb
    rw [if_pos hcnt, hb]
    have hne : path ≠ backupPath path := by
      intro heq
      have hlen := congrArg String.length heq
      rw [backupPath, String.length_append] at hlen
      have h17 : (".pre_dedup_backup" : String).length = 17 := by decide
      omega
    by_cases hw : wOk path
    · rw [hw]
      simp only [ite_true, if_pos]
      constructor
      · simp [fsLook, hne]
      · right; trivial
    · rw [Bool.of_not_eq_true hw]
      constructor
      · simp [fsLook]
      · simp

/-- Witness for C6 at the concrete duplicate-bearing manifest of C1, with a
backup write that fails. -/
theorem c6_backup_before_overwrite_witness :
    (((fun _ => false) : String → Bool) (backupPath c1path) = false →
      deduplicateProjectFile [(c1path, c1text)] (fun _ => false) c1path =
        ⟨[(c1path, c1text)], [], .backupFailed, (repairText c1text).2⟩) ∧
    (((fun _ => false) : String → Bool) (backupPath c1path) = true →
      fsLook (backupPath c1path)
          (deduplicateProjectFile [(c1path, c1text)] (fun _ => false) c1path).fs =
        some c1text ∧
      ((deduplicateProjectFile [(c1path, c1text)] (fun _ => false) c1path).writes =
          [backupPath c1path] ∨
        (deduplicateProjectFile [(c1path, c1text)] (fun _ => false) c1path).writes =
          [backupPath c1path, c1path])) :=
  c6_backup_before_overwrite [(c1path, c1text)] (fun _ => false) c1path c1text
    (by decide) (by decide)

/-!
Part 2 embeds `scripts/Recovery/smart_project_import.py`: the file classifier
`should_include_file`, the categorising scan `scan_smart_files`, the
identifier allocator `generate_id`, and the per-file allocation loop of
`build_smart_project`.

Paths here are the relative paths handed to `should_include_file` by the
scan, so `Path(...).parts` is modelled as splitting on `/` and dropping
empty components, and `Path(...).suffix` follows the CPython rule
(`name[i:]` for the last dot at position `0 < i < len - 1`, else empty).
-/

/-- Is `n` a leading piece of `h`? -/
def leadsWith : List Char → List Char → Bool
  | [], _ => true
  | _ :: _, [] => false
  | p :: ps, c :: cs => p = c && leadsWith ps cs

/-- Python's `needle in hay` substring test. -/
def hasSub : List Char → List Char → Bool
  | n, [] => leadsWith n []
  | n, c :: t => leadsWith n (c :: t) || hasSub n t

def strContains (needle hay : String) : Bool := hasSub needle.data hay.data

/-- Split on `'/'`. -/
def splitSlash : List Char → List (List Char)
  | [] => [[]]
  | c :: rest =>
    if c = '/' then [] :: splitSlash rest
    else
      match splitSlash rest with
      | [] => [[c]]
      | h :: t => (c :: h) :: t

/-- `Path(p).parts` for the relative paths produced by the scan. -/
def pathParts (p : String) : List String :=
  ((splitSlash p.data).filter (fun l => l ≠ [])).map (fun l => ⟨l⟩)

/-- Split a name at its last dot. -/
def splitLastDot : List Char → Option (List Char × List Char)
  | [] => none
  | c :: t =>
    match splitLastDot t with
    | some (a, b) => some (c :: a, b)
    | none => if c = '.' then some ([], t) else none

/-- `Path(name).suffix.lower()`: the extension from the last dot when that dot
is neither the first nor the last character, lower-cased. -/
def suffixLower (name : String) : String :=
  match splitLastDot name.data with
  | none => ""
  | some (a, b) => if a ≠ [] ∧ b ≠ [] then ⟨('.' :: b).map Char.toLower⟩ else ""

/-- `str(file_path).replace('VitalSense/', '')`: remove every (non-overlapping,
left-to-right) occurrence. -/
def removeVSData : Nat → List Char → List Char
  | 0, s => s
  | _ + 1, [] => []
  | f + 1, c :: t =>
    if leadsWith (("VitalSense/").data) (c :: t) then
      removeVSData f (List.drop 11 (c :: t))
    else c :: removeVSData f t

def removeVS (s : String) : String := ⟨removeVSData s.data.length s.data⟩

def countSlash (p : String) : Nat := p.data.count '/'

def excludedPatterns : List String :=
  ["Test", "UITest", "Watch", "Widget", "Bridge", "build_", "audit.", ".log",
   "README", "Bridging-Header", "sample", "Sample"]

def excludedDirs : List String :=
  ["VitalSenseTests", "VitalSenseUITests", "VitalSenseTests", "VitalSenseUITests",
   "VitalSense", "VitalSenseWatch", "VitalSenseWidgets", "Generated", "scripts"]

def mainDirMarkers : List String := ["Core", "Features", "UI", "Configuration"]

def entryAllowList : List String :=
  ["VitalSenseApp.swift", "VitalSenseBrand.swift", "VitalSenseComponents.swift"]

/-- `should_include_file` of `SmartXcodeProjectBuilder`. -/
def shouldIncludeFile (filePath fileName : String) : Bool :=
  if excludedDirs.any (fun d => (pathParts filePath).contains d) then false
  else if excludedPatterns.any (fun pat => strContains pat fileName) then false
  else if suffixLower fileName = ".swift" then
    if (pathParts filePath).any (fun part => mainDirMarkers.contains part) then true
    else if entryAllowList.contains fileName then true
    else false
  else if suffixLower fileName = ".plist" then
    fileName = "Info.plist" && !(strContains "VitalSense" (removeVS filePath))
  else if suffixLower fileName = ".entitlements" then
    fileName = "VitalSense.entitlements"
  else if fileName = "Assets.xcassets" then
    !(strContains "VitalSense/" filePath) || decide (countSlash filePath ≤ 1)
  else false

structure FileInfo where
  path : String
  name : String
  ftype : String
  category : String
deriving DecidableEq

def excludedScanFiles : List String :=
  [".DS_Store", "build.log", "audit.out", "build_fix.log", "build_full.log"]

/-- The per-file categorisation of `scan_smart_files` (after the inclusion
test): suffix dispatch into type and category. -/
def classifyScan (rp nm : String) : Option FileInfo :=
  if suffixLower nm = ".swift" then some ⟨rp, nm, "sourcecode.swift", "source"⟩
  else if suffixLower nm = ".plist" ∧ nm = "Info.plist" then
    some ⟨rp, nm, "text.plist.xml", "resource"⟩
  else if suffixLower nm = ".entitlements" then
    some ⟨rp, nm, "text.plist.entitlements", "entitlements"⟩
  else if nm = "Assets.xcassets" then
    some ⟨rp, nm, "folder.assetcatalog", "resource"⟩
  else none

/-- `scan_smart_files` over an abstract directory listing (the filesystem walk
itself is an external collaborator): drop noise files, apply
`should_include_file`, then categorise.  Discovery order is preserved. -/
def scanSmartFiles (listing : List (String × String)) : List FileInfo :=
  listing.filterMap (fun e =>
    if excludedScanFiles.contains e.2 then none
    else if shouldIncludeFile e.1 e.2 = false then none
    else classifyScan e.1 e.2)

/-! ### The identifier allocator `generate_id` -/

def hexDigitChar (n : Nat) : Char :=
  if n = 0 then '0' else if n = 1 then '1' else if n = 2 then '2'
  else if n = 3 then '3' else if n = 4 then '4' else if n = 5 then '5'
  else if n = 6 then '6' else if n = 7 then '7' else if n = 8 then '8'
  else if n = 9 then '9' else if n = 10 then 'A' else if n = 11 then 'B'
  else if n = 12 then 'C' else if n = 13 then 'D' else if n = 14 then 'E'
  else 'F'

def hexRevAux : Nat → Nat → List Char
  | 0, _ => []
  | f + 1, n => if n = 0 then [] else hexDigitChar (n % 16) :: hexRevAux f (n / 16)

/-- Hex digits of `n`, least significant first (empty for zero). -/
def hexRev (n : Nat) : List Char := hexRevAux n n

theorem hexRevAux_fuel :
    ∀ (k f g n : Nat), n ≤ k → n ≤ f → n ≤ g → hexRevAux f n = hexRevAux g n := by
  intro k
  induction k with
  | zero =>
    intro f g n hk hf hg
    have hn : n = 0 := Nat.le_zero.mp hk
    subst hn
    cases f with
    | zero =>
      cases g with
      | zero => rfl
      | succ g => rw [hexRevAux, hexRevAux, if_pos rfl]
    | succ f =>
      cases g with
      | zero => rw [hexRevAux, hexRevAux, if_pos rfl]
      | succ g => rw [hexRevAux, hexRevAux, if_pos rfl, if_pos rfl]
  | succ k ih =>
    intro f g n hk hf hg
    by_cases hn : n = 0
    · subst hn
      cases f with
      | zero =>
        cases g with
        | zero => rfl
        | succ g => rw [hexRevAux, hexRevAux, if_pos rfl]
      | succ f =>
        cases g with
        | zero => rw [hexRevAux, hexRevAux, if_pos rfl]
        | succ g => rw [hexRevAux, hexRevAux, if_pos rfl, if_pos rfl]
    · have hnp : 0 < n := Nat.pos_of_ne_zero hn
      cases f with
      | zero => omega
      | succ f =>
        cases g with
        | zero => omega
        | succ g =>
          rw [hexRevAux, hexRevAux, if_neg hn, if_neg hn]
          have hdiv : n / 16 < n := Nat.div_lt_self hnp (by norm_num)
          rw [ih f g (n / 16) (by omega) (by omega) (by omega)]

/-- Recursion equation for `hexRev`. -/
theorem hexRev_eq (n : Nat) :
    hexRev n = if n = 0 then [] else hexDigitChar (n % 16) :: hexRev (n / 16) := by
  by_cases hn : n = 0
  · subst hn; rw [if_pos rfl]; rfl
  · obtain ⟨m, rfl⟩ := Nat.exists_eq_succ_of_ne_zero hn
    rw [if_neg hn, hexRev, hexRevAux, if_neg hn, hexRev]
    have hdiv : (m + 1) / 16 < m + 1 := Nat.div_lt_self (Nat.succ_pos m) (by norm_num)
    rw [hexRevAux_fuel ((m + 1) / 16) m ((m + 1) / 16) ((m + 1) / 16) le_rfl
      (by omega) le_rfl]

/-- `f"{n:022X}"`: upper-case hex, zero-padded to at least 22 digits. -/
def hexPad22 (n : Nat) : List Char :=
  List.replicate (22 - (hexRev n).reverse.length) '0' ++ (hexRev n).reverse

/-- `generate_id` output for counter value `n`: `f"AB{n:022X}"`. -/
def genIdStr (n : Nat) : String := ⟨'A' :: 'B' :: hexPad22 n⟩

/-! ### The per-file allocation loop of `build_smart_project` -/

structure PerFile where
  info : FileInfo
  refId : String
  buildRec : Option (String × String)
deriving DecidableEq

structure AllocState where
  perFile : List PerFile
  buildFileEntries : List (String × String × String × String)
  sourcesList : List (String × String)
  resourcesList : List (String × String)
  counter : Nat
deriving DecidableEq

/-- The `for file_info in files` loop: allocate a FileReference identifier for
every file, then a BuildFile identifier in the Sources phase for `source`
files, in the Resources phase for `resource` files, and nothing further for
other (entitlements) files. -/
def allocFiles : List FileInfo → Nat → AllocState
  | [], c => ⟨[], [], [], [], c⟩
  | f :: fs, c =>
    if f.category = "source" then
      ⟨⟨f, genIdStr (c + 1), some (genIdStr (c + 2), "Sources")⟩ ::
          (allocFiles fs (c + 2)).perFile,
        (genIdStr (c + 2), f.name, "Sources", genIdStr (c + 1)) ::
          (allocFiles fs (c + 2)).buildFileEntries,
        (genIdStr (c + 2), f.name) :: (allocFiles fs (c + 2)).sourcesList,
        (allocFiles fs (c + 2)).resourcesList,
        (allocFiles fs (c + 2)).counter⟩
    else if f.category = "resource" then
      ⟨⟨f, genIdStr (c + 1), some (genIdStr (c + 2), "Resources")⟩ ::
          (allocFiles fs (c + 2)).perFile,
        (genIdStr (c + 2), f.name, "Resources", genIdStr (c + 1)) ::
          (allocFiles fs (c + 2)).buildFileEntries,
        (allocFiles fs (c + 2)).sourcesList,
        (genIdStr (c + 2), f.name) :: (allocFiles fs (c + 2)).resourcesList,
        (allocFiles fs (c + 2)).counter⟩
    else
      ⟨⟨f, genIdStr (c + 1), none⟩ :: (allocFiles fs (c + 1)).perFile,
        (allocFiles fs (c + 1)).buildFileEntries,
        (allocFiles fs (c + 1)).sourcesList,
        (allocFiles fs (c + 1)).resourcesList,
        (allocFiles fs (c + 1)).counter⟩

/-- The fifteen header identifiers allocated before the file loop, in
allocation order (main group, products group, content group, target, product,
three phases, two configuration lists, four configurations, project object),
followed by the per-file state. -/
structure SmartProject where
  mainGroupId : String
  productsGroupId : String
  vitalsenseGroupId : String
  mainTargetId : String
  mainProductId : String
  sourcesPhaseId : String
  frameworksPhaseId : String
  resourcesPhaseId : String
  targetConfigListId : String
  projectConfigListId : String
  targetDebugId : String
  targetReleaseId : String
  projectDebugId : String
  projectReleaseId : String
  projectObjectId : String
  alloc : AllocState
deriving DecidableEq

/-- `build_smart_project` (structural content): header identifiers in the
order of the fifteen `generate_id()` calls, then the file loop starting from
the advanced counter. -/
def buildSmartProject (files : List FileInfo) (c0 : Nat) : SmartProject :=
  { mainGroupId := genIdStr (c0 + 1)
    productsGroupId := genIdStr (c0 + 2)
    vitalsenseGroupId := genIdStr (c0 + 3)
    mainTargetId := genIdStr (c0 + 4)
    mainProductId := genIdStr (c0 + 5)
    sourcesPhaseId := genIdStr (c0 + 6)
    frameworksPhaseId := genIdStr (c0 + 7)
    resourcesPhaseId := genIdStr (c0 + 8)
    targetConfigListId := genIdStr (c0 + 9)
    projectConfigListId := genIdStr (c0 + 10)
    targetDebugId := genIdStr (c0 + 11)
    targetReleaseId := genIdStr (c0 + 12)
    projectDebugId := genIdStr (c0 + 13)
    projectReleaseId := genIdStr (c0 + 14)
    projectObjectId := genIdStr (c0 + 15)
    alloc := allocFiles files (c0 + 15) }

/-- The FileReference identifiers of the manifest: the synthetic product
reference first, then one per scanned item in input order. -/
def fileRefIds (sp : SmartProject) : List String :=
  sp.mainProductId :: sp.alloc.perFile.map (fun a => a.refId)

/-- Every identifier allocated during one synthesis run, in allocation
order. -/
def spIdList (files : List FileInfo) (c0 : Nat) : List String :=
  (buildSmartProject files c0).mainGroupId ::
  (buildSmartProject files c0).productsGroupId ::
  (buildSmartProject files c0).vitalsenseGroupId ::
  (buildSmartProject files c0).mainTargetId ::
  (buildSmartProject files c0).mainProductId ::
  (buildSmartProject files c0).sourcesPhaseId ::
  (buildSmartProject files c0).frameworksPhaseId ::
  (buildSmartProject files c0).resourcesPhaseId ::
  (buildSmartProject files c0).targetConfigListId ::
  (buildSmartProject files c0).projectConfigListId ::
  (buildSmartProject files c0).targetDebugId ::
  (buildSmartProject files c0).targetReleaseId ::
  (buildSmartProject files c0).projectDebugId ::
  (buildSmartProject files c0).projectReleaseId ::
  (buildSmartProject files c0).projectObjectId ::
  (buildSmartProject files c0).alloc.perFile.flatMap (fun a =>
    a.refId :: (match a.buildRec with
      | some bp => [bp.1]
      | none => []))

/-- The directory listing of the C4 scenario as the claim states it. -/
def c4Listing : List (String × String) :=
  [("App.swift", "App.swift"),
   ("Core/Model.swift", "Model.swift"),
   ("Tests/ModelTests.swift", "ModelTests.swift"),
   ("Assets.xcassets", "Assets.xcassets"),
   ("App.entitlements", "App.entitlements")]

/-- The C4 scenario with the names the classifier actually accepts:
the allow-listed entry point is `VitalSenseApp.swift` and the accepted
entitlements file is `VitalSense.entitlements`. -/
def c4AmendedListing : List (String × String) :=
  [("VitalSenseApp.swift", "VitalSenseApp.swift"),
   ("Core/Model.swift", "Model.swift"),
   ("Tests/ModelTests.swift", "ModelTests.swift"),
   ("Assets.xcassets", "Assets.xcassets"),
   ("VitalSense.entitlements", "VitalSense.entitlements")]

/-! ### Injectivity and width of the allocator's identifiers -/

def hexVal (c : Char) : Nat :=
  if c = '0' then 0 else if c = '1' then 1 else if c = '2' then 2
  else if c = '3' then 3 else if c = '4' then 4 else if c = '5' then 5
  else if c = '6' then 6 else if c = '7' then 7 else if c = '8' then 8
  else if c = '9' then 9 else if c = 'A' then 10 else if c = 'B' then 11
  else if c = 'C' then 12 else if c = 'D' then 13 else if c = 'E' then 14
  else 15

def vfold (l : List Char) : Nat := l.foldl (fun a c => 16 * a + hexVal c) 0

theorem hexVal_hexDigitChar : ∀ m, m < 16 → hexVal (hexDigitChar m) = m := by
  intro m hm
  interval_cases m <;> decide

theorem vfold_zeros :
    ∀ (k : Nat) (l : List Char), vfold (List.replicate k '0' ++ l) = vfold l := by
  intro k
  induction k with
  | zero => intro l; rfl
  | succ k ih =>
    intro l
    rw [List.replicate_succ, List.cons_append, vfold, List.foldl_cons]
    have h0 : 16 * 0 + hexVal '0' = 0 := by decide
    rw [h0]
    exact ih l

theorem vfold_hexRev :
    ∀ (k n : Nat), n ≤ k → vfold (hexRev n).reverse = n := by
  intro k
  induction k with
  | zero =>
    intro n hk
    have : n = 0 := Nat.le_zero.mp hk
    subst this
    rfl
  | succ k ih =>
    intro n hk
    by_cases hn : n = 0
    · subst hn; rfl
    · rw [hexRev_eq, if_neg hn, List.reverse_cons, vfold, List.foldl_append]
      have hdiv : n / 16 < n := Nat.div_lt_self (Nat.pos_of_ne_zero hn) (by norm_num)
      have ihd : vfold (hexRev (n / 16)).reverse = n / 16 := ih (n / 16) (by omega)
      rw [vfold] at ihd
      rw [ihd, List.foldl_cons, List.foldl_nil,
        hexVal_hexDigitChar (n % 16) (Nat.mod_lt n (by norm_num))]
      omega

theorem vfold_hexPad22 (n : Nat) : vfold (hexPad22 n) = n := by
  rw [hexPad22, vfold_zeros]
  exact vfold_hexRev n n le_rfl

theorem genIdStr_inj : Function.Injective genIdStr := by
  intro a b h
  have hd := congrArg String.data h
  simp only [genIdStr] at hd
  rw [List.cons.injEq, List.cons.injEq] at hd
  have hp : hexPad22 a = hexPad22 b := hd.2.2
  have := congrArg vfold hp
  rwa [vfold_hexPad22, vfold_hexPad22] at this

theorem hexRev_len_le : ∀ (k n : Nat), n < 16 ^ k → (hexRev n).length ≤ k := by
  intro k
  induction k with
  | zero =>
    intro n hn
    have : n = 0 := by simpa using Nat.lt_one_iff.mp (by simpa using hn)
    subst this
    simp [hexRev, hexRevAux]
  | succ k ih =>
    intro n hn
    by_cases h0 : n = 0
    · subst h0; simp [hexRev, hexRevAux]
    · rw [hexRev_eq, if_neg h0, List.length_cons]
      have hdiv : n / 16 < 16 ^ k := by
        rw [Nat.div_lt_iff_lt_mul (by norm_num)]
        calc n < 16 ^ (k + 1) := hn
          _ = 16 ^ k * 16 := by ring
      exact Nat.succ_le_succ (ih (n / 16) hdiv)

theorem genIdStr_len (n : Nat) (hn : n < 16 ^ 22) : (genIdStr n).length = 24 := by
  have hlen : (hexRev n).reverse.length ≤ 22 := by
    rw [List.length_reverse]
    exact hexRev_len_le 22 n hn
  have : (genIdStr n).length = ('A' :: 'B' :: hexPad22 n).length := rfl
  rw [this, List.length_cons, List.length_cons, hexPad22, List.length_append,
    List.length_replicate]
  omega

/-! ### Allocation numbers of one synthesis run -/

/-- The counter values consumed by the file loop, in allocation order. -/
def allocNums : List FileInfo → Nat → List Nat
  | [], _ => []
  | f :: fs, c =>
    if f.category = "source" then (c + 1) :: (c + 2) :: allocNums fs (c + 2)
    else if f.category = "resource" then (c + 1) :: (c + 2) :: allocNums fs (c + 2)
    else (c + 1) :: allocNums fs (c + 1)

/-- All counter values of one run: fifteen header allocations, then the file
loop. -/
def allIdNums (files : List FileInfo) (c0 : Nat) : List Nat :=
  List.range' (c0 + 1) 15 ++ allocNums files (c0 + 15)

theorem allocNums_lower :
    ∀ (fs : List FileInfo) (c : Nat), ∀ m ∈ allocNums fs c, c < m := by
  intro fs
  induction fs with
  | nil => intro c m hm; simp [allocNums] at hm
  | cons f fs ih =>
    intro c m hm
    rw [allocNums] at hm
    by_cases h1 : f.category = "source"
    · rw [if_pos h1] at hm
      rcases List.mem_cons.mp hm with h | h
      · omega
      · rcases List.mem_cons.mp h with h | h
        · omega
        · have := ih (c + 2) m h; omega
    · rw [if_neg h1] at hm
      by_cases h2 : f.category = "resource"
      · rw [if_pos h2] at hm
        rcases List.mem_cons.mp hm with h | h
        · omega
        · rcases List.mem_cons.mp h with h | h
          · omega
          · have := ih (c + 2) m h; omega
      · rw [if_neg h2] at hm
        rcases List.mem_cons.mp hm with h | h
        · omega
        · have := ih (c + 1) m h; omega

theorem allocFiles_counter_ge :
    ∀ (fs : List FileInfo) (c : Nat), c ≤ (allocFiles fs c).counter := by
  intro fs
  induction fs with
  | nil => intro c; simp [allocFiles]
  | cons f fs ih =>
    intro c
    rw [allocFiles]
    by_cases h1 : f.category = "source"
    · rw [if_pos h1]; have := ih (c + 2); dsimp only; omega
    · rw [if_neg h1]
      by_cases h2 : f.category = "resource"
      · rw [if_pos h2]; have := ih (c + 2); dsimp only; omega
      · rw [if_neg h2]; have := ih (c + 1); dsimp only; omega

theorem allocNums_upper :
    ∀ (fs : List FileInfo) (c : Nat),
      ∀ m ∈ allocNums fs c, m ≤ (allocFiles fs c).counter := by
  intro fs
  induction fs with
  | nil => intro c m hm; simp [allocNums] at hm
  | cons f fs ih =>
    intro c m hm
    rw [allocNums] at hm
    rw [allocFiles]
    by_cases h1 : f.category = "source"
    · rw [if_pos h1] at hm ⊢
      dsimp only
      have hge := allocFiles_counter_ge fs (c + 2)
      rcases List.mem_cons.mp hm with h | h
      · omega
      · rcases List.mem_cons.mp h with h | h
        · omega
        · exact ih (c + 2) m h
    · rw [if_neg h1] at hm ⊢
      by_cases h2 : f.category = "resource"
      · rw [if_pos h2] at hm ⊢
        dsimp only
        have hge := allocFiles_counter_ge fs (c + 2)
        rcases List.mem_cons.mp hm with h | h
        · omega
        · rcases List.mem_cons.mp h with h | h
          · omega
          · exact ih (c + 2) m h
      · rw [if_neg h2] at hm ⊢
        dsimp only
        have hge := allocFiles_counter_ge fs (c + 1)
        rcases List.mem_cons.mp hm with h | h
        · omega
        · exact ih (c + 1) m h

theorem allocNums_sorted :
    ∀ (fs : List FileInfo) (c : Nat), List.Pairwise (· < ·) (allocNums fs c) := by
  intro fs
  induction fs with
  | nil => intro c; simp [allocNums]
  | cons f fs ih =>
    intro c
    rw [allocNums]
    by_cases h1 : f.category = "source"
    · rw [if_pos h1]
      refine List.pairwise_cons.mpr ⟨?_, List.pairwise_cons.mpr ⟨?_, ih (c + 2)⟩⟩
      · intro m hm
        rcases List.mem_cons.mp hm with h | h
        · omega
        · have := allocNums_lower fs (c + 2) m h; omega
      · intro m hm
        exact allocNums_lower fs (c + 2) m hm
    · rw [if_neg h1]
      by_cases h2 : f.category = "resource"
      · rw [if_pos h2]
        refine List.pairwise_cons.mpr ⟨?_, List.pairwise_cons.mpr ⟨?_, ih (c + 2)⟩⟩
        · intro m hm
          rcases List.mem_cons.mp hm with h | h
          · omega
          · have := allocNums_lower fs (c + 2) m h; omega
        · intro m hm
          exact allocNums_lower fs (c + 2) m hm
      · rw [if_neg h2]
        refine List.pairwise_cons.mpr ⟨?_, ih (c + 1)⟩
        intro m hm
        exact allocNums_lower fs (c + 1) m hm

/-- The flattened per-file identifiers are the allocation numbers rendered
through `generate_id`. -/
theorem allocFiles_flat_ids :
    ∀ (fs : List FileInfo) (c : Nat),
      (allocFiles fs c).perFile.flatMap (fun a =>
          a.refId :: (match a.buildRec with
            | some bp => [bp.1]
            | none => [])) = (allocNums fs c).map genIdStr := by
  intro fs
  induction fs with
  | nil => intro c; rfl
  | cons f fs ih =>
    intro c
    rw [allocFiles, allocNums]
    by_cases h1 : f.category = "source"
    · simp [h1, ih (c + 2)]
    · by_cases h2 : f.category = "resource"
      · simp [h1, h2, ih (c + 2)]
      · simp [h1, h2, ih (c + 1)]

theorem spIdList_eq (files : List FileInfo) (c0 : Nat) :
    spIdList files c0 = (allIdNums files c0).map genIdStr := by
  rw [spIdList, allIdNums]
  simp only [buildSmartProject]
  rw [allocFiles_flat_ids files (c0 + 15)]
  norm_num [List.range']

theorem allIdNums_sorted (files : List FileInfo) (c0 : Nat) :
    List.Pairwise (· < ·) (allIdNums files c0) := by
  rw [allIdNums]
  rw [List.pairwise_append]
  refine ⟨?_, allocNums_sorted files (c0 + 15), ?_⟩
  · exact List.pairwise_lt_range' _ _
  · intro a ha b hb
    have h1 := (List.mem_range'_1).mp ha
    have h2 := allocNums_lower files (c0 + 15) b hb
    omega

/-- C8: all identifiers allocated in one synthesis run are pairwise distinct,
and (as long as the counter stays below the 22-hex-digit space, which every
real run does) each is a fixed-width 24-character token. -/
theorem c8_identifiers_distinct (files : List FileInfo) (c0 : Nat)
    (hbound : (buildSmartProject files c0).alloc.counter < 16 ^ 22) :
    (spIdList files c0).Nodup ∧ ∀ id ∈ spIdList files c0, id.length = 24 := by
  have hnums : ∀ m ∈ allIdNums files c0, m < 16 ^ 22 := by
    intro m hm
    rw [allIdNums] at hm
    rcases List.mem_append.mp hm with h | h
    · have h1 := (List.mem_range'_1).mp h
      have h2 := allocFiles_counter_ge files (c0 + 15)
      simp only [buildSmartProject] at hbound
      omega
    · have h1 := allocNums_upper files (c0 + 15) m h
      simp only [buildSmartProject] at hbound
      omega
  constructor
  · rw [spIdList_eq]
    apply List.Nodup.map genIdStr_inj
    exact ((allIdNums_sorted files c0).imp (fun h => Nat.ne_of_lt h))
  · intro id hid
    rw [spIdList_eq] at hid
    rcases List.mem_map.mp hid with ⟨m, hm, rfl⟩
    exact genIdStr_len m (hnums m hm)

/-- Witness for C8 at a run over the amended scenario's files with the real
initial counter `0x2000`. -/
theorem c8_identifiers_distinct_witness :
    (buildSmartProject (scanSmartFiles c4AmendedListing) 0x2000).alloc.counter <
        16 ^ 22 ∧
    ((spIdList (scanSmartFiles c4AmendedListing) 0x2000).Nodup ∧
      ∀ id ∈ spIdList (scanSmartFiles c4AmendedListing) 0x2000, id.length = 24) := by
  have hb : (buildSmartProject (scanSmartFiles c4AmendedListing) 0x2000).alloc.counter <
      16 ^ 22 := by decide
  exact ⟨hb, c8_identifiers_distinct (scanSmartFiles c4AmendedListing) 0x2000 hb⟩

/-! ### Claim C5: entitlement items get a FileReference but no BuildFileEntry -/

theorem alloc_refId_num :
    ∀ (fs : List FileInfo) (c : Nat), ∀ a ∈ (allocFiles fs c).perFile,
      ∃ n, c < n ∧ a.refId = genIdStr n := by
  intro fs
  induction fs with
  | nil => intro c a ha; simp [allocFiles] at ha
  | cons f fs ih =>
    intro c a ha
    rw [allocFiles] at ha
    by_cases h1 : f.category = "source"
    · rw [if_pos h1] at ha
      rcases List.mem_cons.mp ha with h | h
      · exact ⟨c + 1, by omega, by rw [h]⟩
      · obtain ⟨n, hn, he⟩ := ih (c + 2) a h
        exact ⟨n, by omega, he⟩
    · rw [if_neg h1] at ha
      by_cases h2 : f.category = "resource"
      · rw [if_pos h2] at ha
        rcases List.mem_cons.mp ha with h | h
        · exact ⟨c + 1, by omega, by rw [h]⟩
        · obtain ⟨n, hn, he⟩ := ih (c + 2) a h
          exact ⟨n, by omega, he⟩
      · rw [if_neg h2] at ha
        rcases List.mem_cons.mp ha with h | h
        · exact ⟨c + 1, by omega, by rw [h]⟩
        · obtain ⟨n, hn, he⟩ := ih (c + 1) a h
          exact ⟨n, by omega, he⟩

theorem alloc_member_num :
    ∀ (fs : List FileInfo) (c : Nat),
      ∀ m ∈ (allocFiles fs c).sourcesList ++ (allocFiles fs c).resourcesList,
        ∃ n, c < n ∧ m.1 = genIdStr n := by
  intro fs
  induction fs with
  | nil => intro c m hm; simp [allocFiles] at hm
  | cons f fs ih =>
    intro c m hm
    rw [allocFiles] at hm
    by_cases h1 : f.category = "source"
    · rw [if_pos h1] at hm
      dsimp only at hm
      rcases List.mem_append.mp hm with h | h
      · rcases List.mem_cons.mp h with h | h
        · exact ⟨c + 2, by omega, by rw [h]⟩
        · obtain ⟨n, hn, he⟩ := ih (c + 2) m (List.mem_append.mpr (Or.inl h))
          exact ⟨n, by omega, he⟩
      · obtain ⟨n, hn, he⟩ := ih (c + 2) m (List.mem_append.mpr (Or.inr h))
        exact ⟨n, by omega, he⟩
    · rw [if_neg h1] at hm
      by_cases h2 : f.category = "resource"
      · rw [if_pos h2] at hm
        dsimp only at hm
        rcases List.mem_append.mp hm with h | h
        · obtain ⟨n, hn, he⟩ := ih (c + 2) m (List.mem_append.mpr (Or.inl h))
          exact ⟨n, by omega, he⟩
        · rcases List.mem_cons.mp h with h | h
          · exact ⟨c + 2, by omega, by rw [h]⟩
          · obtain ⟨n, hn, he⟩ := ih (c + 2) m (List.mem_append.mpr (Or.inr h))
            exact ⟨n, by omega, he⟩
      · rw [if_neg h2] at hm
        dsimp only at hm
        obtain ⟨n, hn, he⟩ := ih (c + 1) m hm
        exact ⟨n, by omega, he⟩

/-- Build-file records exist only for source and resource items. -/
theorem allocFiles_buildRec_cat :
    ∀ (fs : List FileInfo) (c : Nat), ∀ a ∈ (allocFiles fs c).perFile,
      (a.info.category ≠ "source" ∧ a.info.category ≠ "resource" →
        a.buildRec = none) ∧
      (a.buildRec.isSome = true →
        a.info.category = "source" ∨ a.info.category = "resource") := by
  intro fs
  induction fs with
  | nil => intro c a ha; simp [allocFiles] at ha
  | cons f fs ih =>
    intro c a ha
    rw [allocFiles] at ha
    by_cases h1 : f.category = "source"
    · rw [if_pos h1] at ha
      rcases List.mem_cons.mp ha with h | h
      · subst h
        exact ⟨fun hne => absurd h1 hne.1, fun _ => Or.inl h1⟩
      · exact ih (c + 2) a h
    · rw [if_neg h1] at ha
      by_cases h2 : f.category = "resource"
      · rw [if_pos h2] at ha
        rcases List.mem_cons.mp ha with h | h
        · subst h
          exact ⟨fun hne => absurd h2 hne.2, fun _ => Or.inr h2⟩
        · exact ih (c + 2) a h
      · rw [if_neg h2] at ha
        rcases List.mem_cons.mp ha with h | h
        · subst h
          exact ⟨fun _ => rfl, fun hs => by simp at hs⟩
        · exact ih (c + 1) a h

/-- An item without a build-file record is referenced by no phase member. -/
theorem allocFiles_member_ne :
    ∀ (fs : List FileInfo) (c : Nat), ∀ a ∈ (allocFiles fs c).perFile,
      a.buildRec = none →
      ∀ m ∈ (allocFiles fs c).sourcesList ++ (allocFiles fs c).resourcesList,
        m.1 ≠ a.refId := by
  intro fs
  induction fs with
  | nil => intro c a ha; simp [allocFiles] at ha
  | cons f fs ih =>
    intro c a ha hnone m hm
    rw [allocFiles] at ha hm
    by_cases h1 : f.category = "source"
    · rw [if_pos h1] at ha hm
      dsimp only at ha hm
      rcases List.mem_cons.mp ha with h | h
      · subst h; simp at hnone
      · obtain ⟨n, hn, he⟩ := alloc_refId_num fs (c + 2) a h
        rcases List.mem_append.mp hm with hh | hh
        · rcases List.mem_cons.mp hh with hh | hh
          · rw [hh, he]
            intro heq
            have := genIdStr_inj heq
            omega
          · exact ih (c + 2) a h hnone m (List.mem_append.mpr (Or.inl hh))
        · exact ih (c + 2) a h hnone m (List.mem_append.mpr (Or.inr hh))
    · rw [if_neg h1] at ha hm
      by_cases h2 : f.category = "resource"
      · rw [if_pos h2] at ha hm
        dsimp only at ha hm
        rcases List.mem_cons.mp ha with h | h
        · subst h; simp at hnone
        · obtain ⟨n, hn, he⟩ := alloc_refId_num fs (c + 2) a h
          rcases List.mem_append.mp hm with hh | hh
          · exact ih (c + 2) a h hnone m (List.mem_append.mpr (Or.inl hh))
          · rcases List.mem_cons.mp hh with hh | hh
            · rw [hh, he]
              intro heq
              have := genIdStr_inj heq
              omega
            · exact ih (c + 2) a h hnone m (List.mem_append.mpr (Or.inr hh))
      · rw [if_neg h2] at ha hm
        dsimp only at ha hm
        rcases List.mem_cons.mp ha with h | h
        · subst h
          obtain ⟨n, hn, he⟩ := alloc_member_num fs (c + 1) m hm
          rw [he]
          intro heq
          have := genIdStr_inj heq
          simp at this
          omega
        · exact ih (c + 1) a h hnone m hm

/-- C5: every entitlement-category item receives a FileReference but no
BuildFileEntry — its per-file record carries no build-file allocation, its
reference identifier appears among the manifest's FileReference identifiers,
and no member of the Sources or Resources phase refers to it; BuildFileEntry
records are created only for source- and resource-category items. -/
theorem c5_entitlement_no_buildfile (files : List FileInfo) (c0 : Nat) :
    (∀ a ∈ (buildSmartProject files c0).alloc.perFile,
        a.info.category = "entitlements" →
          a.buildRec = none ∧
          a.refId ∈ fileRefIds (buildSmartProject files c0) ∧
          ∀ m ∈ (buildSmartProject files c0).alloc.sourcesList ++
              (buildSmartProject files c0).alloc.resourcesList,
            m.1 ≠ a.refId) ∧
    (∀ a ∈ (buildSmartProject files c0).alloc.perFile, a.buildRec.isSome = true →
        a.info.category = "source" ∨ a.info.category = "resource") := by
  constructor
  · intro a ha hcat
    have hnone : a.buildRec = none := by
      apply ((allocFiles_buildRec_cat files (c0 + 15) a ha).1)
      rw [hcat]
      exact ⟨by simp, by simp⟩
    refine ⟨hnone, ?_, ?_⟩
    · rw [fileRefIds]
      exact List.mem_cons_of_mem _ (List.mem_map_of_mem _ ha)
    · exact allocFiles_member_ne files (c0 + 15) a ha hnone
  · intro a ha hs
    exact (allocFiles_buildRec_cat files (c0 + 15) a ha).2 hs

/-- Witness for C5 on the amended scenario run, whose last scanned item is the
entitlements file. -/
theorem c5_entitlement_no_buildfile_witness :
    (⟨⟨"VitalSense.entitlements", "VitalSense.entitlements",
        "text.plist.entitlements", "entitlements"⟩,
      "AB0000000000000000002016", none⟩ : PerFile) ∈
      (buildSmartProject (scanSmartFiles c4AmendedListing) 0x2000).alloc.perFile ∧
    ∀ m ∈ (buildSmartProject (scanSmartFiles c4AmendedListing) 0x2000).alloc.sourcesList ++
        (buildSmartProject (scanSmartFiles c4AmendedListing) 0x2000).alloc.resourcesList,
      m.1 ≠ "AB0000000000000000002016" := by
  have hmem : (⟨⟨"VitalSense.entitlements", "VitalSense.entitlements",
      "text.plist.entitlements", "entitlements"⟩,
      "AB0000000000000000002016", none⟩ : PerFile) ∈
      (buildSmartProject (scanSmartFiles c4AmendedListing) 0x2000).alloc.perFile := by
    decide
  refine ⟨hmem, ?_⟩
  have h := ((c5_entitlement_no_buildfile (scanSmartFiles c4AmendedListing) 0x2000).1
    _ hmem (by decide)).2.2
  exact h

/-! ### The serializer: `build_smart_project`'s manifest text, line by line -/

/-- `chr(10).join(block)` occupies one empty line when the block is empty. -/
def joinBlock (ls : List String) : List String := if ls.isEmpty then [""] else ls

def productRefLine (sp : SmartProject) : String :=
  "\t\t" ++ sp.mainProductId ++
  " /* VitalSense.app */ = \x7bisa = PBXFileReference; explicitFileType = wrapper.application; includeInIndex = 0; path = VitalSense.app; sourceTree = BUILT_PRODUCTS_DIR; \x7d;"

def fileRefLine (a : PerFile) : String :=
  "\t\t" ++ a.refId ++ " /* " ++ a.info.name ++
  " */ = \x7bisa = PBXFileReference; lastKnownFileType = " ++ a.info.ftype ++
  "; path = \"" ++ a.info.path ++ "\"; sourceTree = \"<group>\"; \x7d;"

/-- A PBXBuildFile declaration line from `(buildFileId, name, phase, refId)`. -/
def buildFileLine (e : String × String × String × String) : String :=
  "\t\t" ++ e.1 ++ " /* " ++ e.2.1 ++ " in " ++ e.2.2.1 ++
  " */ = \x7bisa = PBXBuildFile; fileRef = " ++ e.2.2.2 ++ " /* " ++ e.2.1 ++
  " */; \x7d;"

def memberLine (ph : String) (e : String × String) : String :=
  "\t\t\t\t" ++ e.1 ++ " /* " ++ e.2 ++ " in " ++ ph ++ " */,"

def childLine (e : String × String) : String :=
  "\t\t\t\t" ++ e.1 ++ " /* " ++ e.2 ++ " */,"

/-- The `self.file_refs` dictionary after the loop: the last assignment for a
path wins. -/
def lastRefId (pfs : List PerFile) (p : String) : String :=
  match pfs.reverse.find? (fun a => a.info.path = p) with
  | some a => a.refId
  | none => ""

/-- The `file_children` list: one child per scanned file, resolved through the
`file_refs` dictionary. -/
def fileChildren (sp : SmartProject) : List (String × String) :=
  sp.alloc.perFile.map (fun a => (lastRefId sp.alloc.perFile a.info.path, a.info.name))

/-- Lines before the PBXBuildFile block. -/
def blkA : List String :=
  ["// !$*UTF8*$!",
   "\x7b",
   "\tarchiveVersion = 1;",
   "\tclasses = \x7b",
   "\t\x7d;",
   "\tobjectVersion = 77;",
   "\tobjects = \x7b",
   "",
   "/* Begin PBXBuildFile section */"]

/-- Lines between the PBXBuildFile and PBXFileReference blocks. -/
def blkB : List String :=
  ["/* End PBXBuildFile section */",
   "",
   "/* Begin PBXFileReference section */"]

/-- Lines from the end of the PBXFileReference block to the children of the
content group (frameworks phase, group headers, fixed children). -/
def blkC (sp : SmartProject) : List String :=
  ["/* End PBXFileReference section */",
   "",
   "/* Begin PBXFrameworksBuildPhase section */",
   "\t\t" ++ sp.frameworksPhaseId ++ " /* Frameworks */ = \x7b",
   "\t\t\tisa = PBXFrameworksBuildPhase;",
   "\t\t\tbuildActionMask = 2147483647;",
   "\t\t\tfiles = (",
   "\t\t\t);",
   "\t\t\trunOnlyForDeploymentPostprocessing = 0;",
   "\t\t\x7d;",
   "/* End PBXFrameworksBuildPhase section */",
   "",
   "/* Begin PBXGroup section */",
   "\t\t" ++ sp.mainGroupId ++ " = \x7b",
   "\t\t\tisa = PBXGroup;",
   "\t\t\tchildren = (",
   "\t\t\t\t" ++ sp.vitalsenseGroupId ++ " /* VitalSense */,",
   "\t\t\t\t" ++ sp.productsGroupId ++ " /* Products */,",
   "\t\t\t);",
   "\t\t\tsourceTree = \"<group>\";",
   "\t\t\x7d;",
   "\t\t" ++ sp.productsGroupId ++ " /* Products */ = \x7b",
   "\t\t\tisa = PBXGroup;",
   "\t\t\tchildren = (",
   "\t\t\t\t" ++ sp.mainProductId ++ " /* VitalSense.app */,",
   "\t\t\t);",
   "\t\t\tname = Products;",
   "\t\t\tsourceTree = \"<group>\";",
   "\t\t\x7d;",
   "\t\t" ++ sp.vitalsenseGroupId ++ " /* VitalSense */ = \x7b",
   "\t\t\tisa = PBXGroup;",
   "\t\t\tchildren = ("]

/-- Lines from the close of the content group to the head of the Resources
phase file list (native target, project object). -/
def blkD (sp : SmartProject) : List String :=
  ["\t\t\t);",
   "\t\t\tpath = VitalSense;",
   "\t\t\tsourceTree = \"<group>\";",
   "\t\t\x7d;",
   "/* End PBXGroup section */",
   "",
   "/* Begin PBXNativeTarget section */",
   "\t\t" ++ sp.mainTargetId ++ " /* VitalSense */ = \x7b",
   "\t\t\tisa = PBXNativeTarget;",
   "\t\t\tbuildConfigurationList = " ++ sp.targetConfigListId ++
     " /* Build configuration list for PBXNativeTarget \"VitalSense\" */;",
   "\t\t\tbuildPhases = (",
   "\t\t\t\t" ++ sp.sourcesPhaseId ++ " /* Sources */,",
   "\t\t\t\t" ++ sp.frameworksPhaseId ++ " /* Frameworks */,",
   "\t\t\t\t" ++ sp.resourcesPhaseId ++ " /* Resources */,",
   "\t\t\t);",
   "\t\t\tbuildRules = (",
   "\t\t\t);",
   "\t\t\tdependencies = (",
   "\t\t\t);",
   "\t\t\tname = VitalSense;",
   "\t\t\tproductName = VitalSense;",
   "\t\t\tproductReference = " ++ sp.mainProductId ++ " /* VitalSense.app */;",
   "\t\t\tproductType = \"com.apple.product-type.application\";",
   "\t\t\x7d;",
   "/* End PBXNativeTarget section */",
   "",
   "/* Begin PBXProject section */",
   "\t\t" ++ sp.projectObjectId ++ " /* Project object */ = \x7b",
   "\t\t\tisa = PBXProject;",
   "\t\t\tattributes = \x7b",
   "\t\t\t\tBuildIndependentTargetsInParallel = 1;",
   "\t\t\t\tLastSwiftUpdateCheck = 1600;",
   "\t\t\t\tLastUpgradeCheck = 1600;",
   "\t\t\t\tTargetAttributes = \x7b",
   "\t\t\t\t\t" ++ sp.mainTargetId ++ " = \x7b",
   "\t\t\t\t\t\tCreatedOnToolsVersion = 16.0;",
   "\t\t\t\t\t\x7d;",
   "\t\t\t\t\x7d;",
   "\t\t\t\x7d;",
   "\t\t\tbuildConfigurationList = " ++ sp.projectConfigListId ++
     " /* Build configuration list for PBXProject \"VitalSense\" */;",
   "\t\t\tdevelopmentRegion = en;",
   "\t\t\thasScannedForEncodings = 0;",
   "\t\t\tknownRegions = (",
   "\t\t\t\ten,",
   "\t\t\t\tBase,",
   "\t\t\t);",
   "\t\t\tmainGroup = " ++ sp.mainGroupId ++ ";",
   "\t\t\tproductRefGroup = " ++ sp.productsGroupId ++ " /* Products */;",
   "\t\t\tprojectDirPath = \"\";",
   "\t\t\tprojectRoot = \"\";",
   "\t\t\ttargets = (",
   "\t\t\t\t" ++ sp.mainTargetId ++ " /* VitalSense */,",
   "\t\t\t);",
   "\t\t\x7d;",
   "/* End PBXProject section */",
   "",
   "/* Begin PBXResourcesBuildPhase section */",
   "\t\t" ++ sp.resourcesPhaseId ++ " /* Resources */ = \x7b",
   "\t\t\tisa = PBXResourcesBuildPhase;",
   "\t\t\tbuildActionMask = 2147483647;",
   "\t\t\tfiles = ("]

/-- Lines between the Resources and Sources file lists. -/
def blkE (sp : SmartProject) : List String :=
  ["\t\t\t);",
   "\t\t\trunOnlyForDeploymentPostprocessing = 0;",
   "\t\t\x7d;",
   "/* End PBXResourcesBuildPhase section */",
   "",
   "/* Begin PBXSourcesBuildPhase section */",
   "\t\t" ++ sp.sourcesPhaseId ++ " /* Sources */ = \x7b",
   "\t\t\tisa = PBXSourcesBuildPhase;",
   "\t\t\tbuildActionMask = 2147483647;",
   "\t\t\tfiles = ("]

/-- Lines from the close of the Sources file list to the end of the manifest
(build configurations, configuration lists, root pointer). -/
def blkF (sp : SmartProject) : List String :=
  ["\t\t\t);",
   "\t\t\trunOnlyForDeploymentPostprocessing = 0;",
   "\t\t\x7d;",
   "/* End PBXSourcesBuildPhase section */",
   "",
   "/* Begin XCBuildConfiguration section */",
   "\t\t" ++ sp.projectDebugId ++ " /* Debug */ = \x7b",
   "\t\t\tisa = XCBuildConfiguration;",
   "\t\t\tbuildSettings = \x7b",
   "\t\t\t\tALWAYS_SEARCH_USER_PATHS = NO;",
   "\t\t\t\tCLANG_ANALYZER_NONNULL = YES;",
   "\t\t\t\tCLANG_ANALYZER_NUMBER_OBJECT_CONVERSION = YES_AGGRESSIVE;",
   "\t\t\t\tCLANG_CXX_LANGUAGE_STANDARD = \"gnu++20\";",
   "\t\t\t\tCLANG_ENABLE_MODULES = YES;",
   "\t\t\t\tCLANG_ENABLE_OBJC_ARC = YES;",
   "\t\t\t\tCLANG_ENABLE_OBJC_WEAK = YES;",
   "\t\t\t\tCLANG_WARN_DOCUMENTATION_COMMENTS = YES;",
   "\t\t\t\tCOPY_PHASE_STRIP = NO;",
   "\t\t\t\tDEBUG_INFORMATION_FORMAT = dwarf;",
   "\t\t\t\tENABLE_STRICT_OBJC_MSGSEND = YES;",
   "\t\t\t\tENABLE_TESTABILITY = YES;",
   "\t\t\t\tGCC_C_LANGUAGE_STANDARD = gnu17;",
   "\t\t\t\tGCC_DYNAMIC_NO_PIC = NO;",
   "\t\t\t\tGCC_NO_COMMON_BLOCKS = YES;",
   "\t\t\t\tGCC_OPTIMIZATION_LEVEL = 0;",
   "\t\t\t\tGCC_PREPROCESSOR_DEFINITIONS = (",
   "\t\t\t\t\t\"DEBUG=1\",",
   "\t\t\t\t\t\"$$(inherited)\",",
   "\t\t\t\t);",
   "\t\t\t\tIPHONEOS_DEPLOYMENT_TARGET = 18.0;",
   "\t\t\t\tMTL_ENABLE_DEBUG_INFO = INCLUDE_SOURCE;",
   "\t\t\t\tMTL_FAST_MATH = YES;",
   "\t\t\t\tONLY_ACTIVE_ARCH = YES;",
   "\t\t\t\tSDKROOT = iphoneos;",
   "\t\t\t\tSWIFT_ACTIVE_COMPILATION_CONDITIONS = \"DEBUG $$(inherited)\";",
   "\t\t\t\tSWIFT_OPTIMIZATION_LEVEL = \"-Onone\";",
   "\t\t\t\tSWIFT_VERSION = 6.0;",
   "\t\t\t\x7d;",
   "\t\t\tname = Debug;",
   "\t\t\x7d;",
   "\t\t" ++ sp.projectReleaseId ++ " /* Release */ = \x7b",
   "\t\t\tisa = XCBuildConfiguration;",
   "\t\t\tbuildSettings = \x7b",
   "\t\t\t\tALWAYS_SEARCH_USER_PATHS = NO;",
   "\t\t\t\tCLANG_ANALYZER_NONNULL = YES;",
   "\t\t\t\tCLANG_ANALYZER_NUMBER_OBJECT_CONVERSION = YES_AGGRESSIVE;",
   "\t\t\t\tCLANG_CXX_LANGUAGE_STANDARD = \"gnu++20\";",
   "\t\t\t\tCLANG_ENABLE_MODULES = YES;",
   "\t\t\t\tCLANG_ENABLE_OBJC_ARC = YES;",
   "\t\t\t\tCLANG_ENABLE_OBJC_WEAK = YES;",
   "\t\t\t\tCLANG_WARN_DOCUMENTATION_COMMENTS = YES;",
   "\t\t\t\tCOPY_PHASE_STRIP = NO;",
   "\t\t\t\tDEBUG_INFORMATION_FORMAT = \"dwarf-with-dsym\";",
   "\t\t\t\tENABLE_NS_ASSERTIONS = NO;",
   "\t\t\t\tENABLE_STRICT_OBJC_MSGSEND = YES;",
   "\t\t\t\tGCC_C_LANGUAGE_STANDARD = gnu17;",
   "\t\t\t\tGCC_NO_COMMON_BLOCKS = YES;",
   "\t\t\t\tIPHONEOS_DEPLOYMENT_TARGET = 18.0;",
   "\t\t\t\tMTL_ENABLE_DEBUG_INFO = NO;",
   "\t\t\t\tMTL_FAST_MATH = YES;",
   "\t\t\t\tSDKROOT = iphoneos;",
   "\t\t\t\tSWIFT_COMPILATION_MODE = wholemodule;",
   "\t\t\t\tSWIFT_VERSION = 6.0;",
   "\t\t\t\tVALIDATE_PRODUCT = YES;",
   "\t\t\t\x7d;",
   "\t\t\tname = Release;",
   "\t\t\x7d;",
   "\t\t" ++ sp.targetDebugId ++ " /* Debug */ = \x7b",
   "\t\t\tisa = XCBuildConfiguration;",
   "\t\t\tbuildSettings = \x7b",
   "\t\t\t\tASSETCATALOG_COMPILER_APPICON_NAME = AppIcon;",
   "\t\t\t\tASSETCATALOG_COMPILER_GLOBAL_ACCENT_COLOR_NAME = AccentColor;",
   "\t\t\t\tCODE_SIGN_ENTITLEMENTS = VitalSense/VitalSense.entitlements;",
   "\t\t\t\tCODE_SIGN_STYLE = Automatic;",
   "\t\t\t\tCURRENT_PROJECT_VERSION = 1;",
   "\t\t\t\tGENERATE_INFOPLIST_FILE = NO;",
   "\t\t\t\tINFOPLIST_FILE = VitalSense/Info.plist;",
   "\t\t\t\tINFOPLIST_KEY_UIApplicationSupportsIndirectInputEvents = YES;",
   "\t\t\t\tINFOPLIST_KEY_UILaunchStoryboardName = LaunchScreen;",
   "\t\t\t\tINFOPLIST_KEY_UISupportedInterfaceOrientations_iPad = \"UIInterfaceOrientationPortrait UIInterfaceOrientationPortraitUpsideDown UIInterfaceOrientationLandscapeLeft UIInterfaceOrientationLandscapeRight\";",
   "\t\t\t\tINFOPLIST_KEY_UISupportedInterfaceOrientations_iPhone = \"UIInterfaceOrientationPortrait UIInterfaceOrientationLandscapeLeft UIInterfaceOrientationLandscapeRight\";",
   "\t\t\t\tLD_RUNPATH_SEARCH_PATHS = (",
   "\t\t\t\t\t\"$$(inherited)\",",
   "\t\t\t\t\t\"@executable_path/Frameworks\",",
   "\t\t\t\t);",
   "\t\t\t\tMARKETING_VERSION = 1.0;",
   "\t\t\t\tPRODUCT_BUNDLE_IDENTIFIER = com.vitalsense.app;",
   "\t\t\t\tPRODUCT_NAME = \"$$(TARGET_NAME)\";",
   "\t\t\t\tSWIFT_EMIT_LOC_STRINGS = YES;",
   "\t\t\t\tTARGETED_DEVICE_FAMILY = \"1,2\";",
   "\t\t\t\x7d;",
   "\t\t\tname = Debug;",
   "\t\t\x7d;",
   "\t\t" ++ sp.targetReleaseId ++ " /* Release */ = \x7b",
   "\t\t\tisa = XCBuildConfiguration;",
   "\t\t\tbuildSettings = \x7b",
   "\t\t\t\tASSETCATALOG_COMPILER_APPICON_NAME = AppIcon;",
   "\t\t\t\tASSETCATALOG_COMPILER_GLOBAL_ACCENT_COLOR_NAME = AccentColor;",
   "\t\t\t\tCODE_SIGN_ENTITLEMENTS = VitalSense/VitalSense.entitlements;",
   "\t\t\t\tCODE_SIGN_STYLE = Automatic;",
   "\t\t\t\tCURRENT_PROJECT_VERSION = 1;",
   "\t\t\t\tGENERATE_INFOPLIST_FILE = NO;",
   "\t\t\t\tINFOPLIST_FILE = VitalSense/Info.plist;",
   "\t\t\t\tINFOPLIST_KEY_UIApplicationSupportsIndirectInputEvents = YES;",
   "\t\t\t\tINFOPLIST_KEY_UILaunchStoryboardName = LaunchScreen;",
   "\t\t\t\tINFOPLIST_KEY_UISupportedInterfaceOrientations_iPad = \"UIInterfaceOrientationPortrait UIInterfaceOrientationPortraitUpsideDown UIInterfaceOrientationLandscapeLeft UIInterfaceOrientationLandscapeRight\";",
   "\t\t\t\tINFOPLIST_KEY_UISupportedInterfaceOrientations_iPhone = \"UIInterfaceOrientationPortrait UIInterfaceOrientationLandscapeLeft UIInterfaceOrientationLandscapeRight\";",
   "\t\t\t\tLD_RUNPATH_SEARCH_PATHS = (",
   "\t\t\t\t\t\"$$(inherited)\",",
   "\t\t\t\t\t\"@executable_path/Frameworks\",",
   "\t\t\t\t);",
   "\t\t\t\tMARKETING_VERSION = 1.0;",
   "\t\t\t\tPRODUCT_BUNDLE_IDENTIFIER = com.vitalsense.app;",
   "\t\t\t\tPRODUCT_NAME = \"$$(TARGET_NAME)\";",
   "\t\t\t\tSWIFT_EMIT_LOC_STRINGS = YES;",
   "\t\t\t\tTARGETED_DEVICE_FAMILY = \"1,2\";",
   "\t\t\t\x7d;",
   "\t\t\tname = Release;",
   "\t\t\x7d;",
   "/* End XCBuildConfiguration section */",
   "",
   "/* Begin XCConfigurationList section */",
   "\t\t" ++ sp.projectConfigListId ++
     " /* Build configuration list for PBXProject \"VitalSense\" */ = \x7b",
   "\t\t\tisa = XCConfigurationList;",
   "\t\t\tbuildConfigurations = (",
   "\t\t\t\t" ++ sp.projectDebugId ++ " /* Debug */,",
   "\t\t\t\t" ++ sp.projectReleaseId ++ " /* Release */,",
   "\t\t\t);",
   "\t\t\tdefaultConfigurationIsVisible = 0;",
   "\t\t\tdefaultConfigurationName = Release;",
   "\t\t\x7d;",
   "\t\t" ++ sp.targetConfigListId ++
     " /* Build configuration list for PBXNativeTarget \"VitalSense\" */ = \x7b",
   "\t\t\tisa = XCConfigurationList;",
   "\t\t\tbuildConfigurations = (",
   "\t\t\t\t" ++ sp.targetDebugId ++ " /* Debug */,",
   "\t\t\t\t" ++ sp.targetReleaseId ++ " /* Release */,",
   "\t\t\t);",
   "\t\t\tdefaultConfigurationIsVisible = 0;",
   "\t\t\tdefaultConfigurationName = Release;",
   "\t\t\x7d;",
   "/* End XCConfigurationList section */",
   "",
   "\t\x7d;",
   "\trootObject = " ++ sp.projectObjectId ++ " /* Project object */;",
   "\x7d"]

/-- The manifest text of `build_smart_project`, as its list of lines,
transcribing the template (with `{{`/`}}` rendered as braces and `$$` kept
verbatim as the f-string leaves it). -/
def serializeProject (sp : SmartProject) : List String :=
  blkA ++
  joinBlock (sp.alloc.buildFileEntries.map buildFileLine) ++
  blkB ++
  joinBlock (productRefLine sp :: sp.alloc.perFile.map fileRefLine) ++
  blkC sp ++
  joinBlock ((fileChildren sp).map childLine) ++
  blkD sp ++
  joinBlock (sp.alloc.resourcesList.map (memberLine "Resources")) ++
  blkE sp ++
  joinBlock (sp.alloc.sourcesList.map (memberLine "Sources")) ++
  blkF sp

/-! ### The independent reader

Modelled from the spec: no parser exists in this repository — §6 describes the
output as "a nested, brace-delimited, comment-annotated object store with one
root pointer field" that external tooling re-parses into an equivalent object
graph.  The reader below is that independent consumer: it walks the lines,
tracks the current `Begin`/`End` section, and reconstructs the file
references, build files, phase memberships, group children and root pointer
with their identifiers, labels and order. -/

inductive RMode where
  | idle
  | inFileRefs
  | inBuildFiles
  | inGroups
  | inSources
  | inResources
  | inOther
deriving DecidableEq

structure RGraph where
  fileRefs : List (String × String × Option (String × String))
  buildFiles : List (String × String × String × String)
  srcMembers : List (String × String)
  resMembers : List (String × String)
  children : List (String × String)
  root : Option String
deriving DecidableEq

structure RState where
  mode : RMode
  g : RGraph
deriving DecidableEq

/-- Scan up to the first occurrence of a delimiter character. -/
def takeToCh (d : Char) : List Char → Option (List Char × List Char)
  | [] => none
  | c :: t =>
    if c = d then some ([], t)
    else
      match takeToCh d t with
      | some (a, b) => some (c :: a, b)
      | none => none

/-- Scan up to the first occurrence of a delimiter string. -/
def takeToStr (pat : List Char) : List Char → Option (List Char × List Char)
  | [] => if leadsWith pat [] then some ([], []) else none
  | c :: t =>
    if leadsWith pat (c :: t) then some ([], (c :: t).drop pat.length)
    else
      match takeToStr pat t with
      | some (a, b) => some (c :: a, b)
      | none => none

def parseFRLine (l : String) : Option (String × String × Option (String × String)) :=
  match expectStr (("\t\t").data) l.data with
  | none => none
  | some s =>
    match takeToCh ' ' s with
    | none => none
    | some (idc, s) =>
      match expectStr (("/* ").data) s with
      | none => none
      | some s =>
        match takeToStr ((" */ = \x7bisa = PBXFileReference; ").data) s with
        | none => none
        | some (nmc, s) =>
          match expectStr (("lastKnownFileType = ").data) s with
          | some s2 =>
            match takeToStr (("; path = \"").data) s2 with
            | none => none
            | some (tyc, s3) =>
              match takeToStr (("\"; sourceTree = \"<group>\"; \x7d;").data) s3 with
              | none => none
              | some (pc, _) => some (⟨idc⟩, ⟨nmc⟩, some (⟨tyc⟩, ⟨pc⟩))
          | none => some (⟨idc⟩, ⟨nmc⟩, none)

def parseBFLine (l : String) : Option (String × String × String × String) :=
  match expectStr (("\t\t").data) l.data with
  | none => none
  | some s =>
    match takeToCh ' ' s with
    | none => none
    | some (idc, s) =>
      match expectStr (("/* ").data) s with
      | none => none
      | some s =>
        match takeToStr ((" in Sources */ = \x7bisa = PBXBuildFile; fileRef = ").data) s with
        | some (nmc, s2) =>
          match takeToCh ' ' s2 with
          | none => none
          | some (ridc, _) => some (⟨idc⟩, ⟨nmc⟩, ("Sources" : String), ⟨ridc⟩)
        | none =>
          match takeToStr ((" in Resources */ = \x7bisa = PBXBuildFile; fileRef = ").data) s with
          | none => none
          | some (nmc, s2) =>
            match takeToCh ' ' s2 with
            | none => none
            | some (ridc, _) => some (⟨idc⟩, ⟨nmc⟩, ("Resources" : String), ⟨ridc⟩)

def parseMemberLine (ph : String) (l : String) : Option (String × String) :=
  match expectStr (("\t\t\t\t").data) l.data with
  | none => none
  | some s =>
    match takeToCh ' ' s with
    | none => none
    | some (idc, s) =>
      match expectStr (("/* ").data) s with
      | none => none
      | some s =>
        match takeToStr (((" in " ++ ph ++ " */,").data)) s with
        | none => none
        | some (nmc, _) => some (⟨idc⟩, ⟨nmc⟩)

def parseChildLine (l : String) : Option (String × String) :=
  match expectStr (("\t\t\t\t").data) l.data with
  | none => none
  | some s =>
    match takeToCh ' ' s with
    | none => none
    | some (idc, s) =>
      match expectStr (("/* ").data) s with
      | none => none
      | some s =>
        match takeToStr ((" */,").data) s with
        | none => none
        | some (nmc, _) => some (⟨idc⟩, ⟨nmc⟩)

def parseRootLine (l : String) : Option String :=
  match expectStr (("\trootObject = ").data) l.data with
  | none => none
  | some s =>
    match takeToCh ' ' s with
    | none => none
    | some (idc, _) => some ⟨idc⟩

/-- Section tracking: a `/* Begin X section */` line enters the mode for `X`
(an untracked section becomes `inOther`), a `/* End ... */` line leaves it. -/
def markerMode (l : String) : Option RMode :=
  match expectStr (("/* Begin ").data) l.data with
  | some rest =>
    match takeToStr ((" section */").data) rest with
    | some (nm, _) =>
      some (if nm = ("PBXFileReference").data then RMode.inFileRefs
        else if nm = ("PBXBuildFile").data then RMode.inBuildFiles
        else if nm = ("PBXGroup").data then RMode.inGroups
        else if nm = ("PBXSourcesBuildPhase").data then RMode.inSources
        else if nm = ("PBXResourcesBuildPhase").data then RMode.inResources
        else RMode.inOther)
    | none => some RMode.inOther
  | none =>
    match expectStr (("/* End ").data) l.data with
    | some _ => some RMode.idle
    | none => none

def rstep (st : RState) (l : String) : RState :=
  match markerMode l with
  | some m => ⟨m, st.g⟩
  | none =>
    match st.mode with
    | .inFileRefs =>
      match parseFRLine l with
      | some e => ⟨st.mode, { st.g with fileRefs := st.g.fileRefs ++ [e] }⟩
      | none => st
    | .inBuildFiles =>
      match parseBFLine l with
      | some e => ⟨st.mode, { st.g with buildFiles := st.g.buildFiles ++ [e] }⟩
      | none => st
    | .inSources =>
      match parseMemberLine "Sources" l with
      | some e => ⟨st.mode, { st.g with srcMembers := st.g.srcMembers ++ [e] }⟩
      | none => st
    | .inResources =>
      match parseMemberLine "Resources" l with
      | some e => ⟨st.mode, { st.g with resMembers := st.g.resMembers ++ [e] }⟩
      | none => st
    | .inGroups =>
      match parseChildLine l with
      | some e => ⟨st.mode, { st.g with children := st.g.children ++ [e] }⟩
      | none => st
    | .idle =>
      match parseRootLine l with
      | some r => ⟨st.mode, { st.g with root := some r }⟩
      | none => st
    | .inOther => st

def emptyRGraph : RGraph := ⟨[], [], [], [], [], none⟩

def readGraph (lines : List String) : RGraph :=
  (lines.foldl rstep ⟨RMode.idle, emptyRGraph⟩).g

/-- The object graph the reader is expected to reconstruct, projected from the
builder's state: product reference first, per-file references in discovery
order, build files, phase members, the three fixed children followed by the
per-file children, and the root pointer. -/
def graphOf (sp : SmartProject) : RGraph :=
  { fileRefs := (sp.mainProductId, ("VitalSense.app" : String), none) ::
      sp.alloc.perFile.map (fun a => (a.refId, a.info.name, some (a.info.ftype, a.info.path)))
    buildFiles := sp.alloc.buildFileEntries
    srcMembers := sp.alloc.sourcesList
    resMembers := sp.alloc.resourcesList
    children := (sp.vitalsenseGroupId, ("VitalSense" : String)) ::
      (sp.productsGroupId, ("Products" : String)) ::
      (sp.mainProductId, ("VitalSense.app" : String)) :: fileChildren sp
    root := some sp.projectObjectId }

/-! ### Claims C4 and C10 -/

/-- C4 counterexample: on the claimed listing the scan keeps only
`Core/Model.swift` and `Assets.xcassets` — `App.swift` is not in the fixed
entry-point allow-list (`VitalSenseApp.swift` etc.) and `App.entitlements` is
not the accepted `VitalSense.entitlements`, so neither is classified as the
claim requires. -/
theorem c4_scan_scenario_cex :
    scanSmartFiles c4Listing =
      [⟨"Core/Model.swift", "Model.swift", "sourcecode.swift", "source"⟩,
       ⟨"Assets.xcassets", "Assets.xcassets", "folder.assetcatalog", "resource"⟩] := by
  decide

/-- C4 (amended): scanning a directory containing `VitalSenseApp.swift`
(entry-point allow-listed name), `Core/Model.swift`, `Tests/ModelTests.swift`,
`Assets.xcassets` and `VitalSense.entitlements` classifies exactly
`VitalSenseApp.swift` → Source, `Core/Model.swift` → Source,
`Assets.xcassets` → Resource, `VitalSense.entitlements` → Entitlement, and
excludes `Tests/ModelTests.swift`; the Sources phase of the built manifest
lists exactly two BuildFileEntry members, in discovery order. -/
theorem c4_scan_scenario_amended :
    scanSmartFiles c4AmendedListing =
      [⟨"VitalSenseApp.swift", "VitalSenseApp.swift", "sourcecode.swift", "source"⟩,
       ⟨"Core/Model.swift", "Model.swift", "sourcecode.swift", "source"⟩,
       ⟨"Assets.xcassets", "Assets.xcassets", "folder.assetcatalog", "resource"⟩,
       ⟨"VitalSense.entitlements", "VitalSense.entitlements",
        "text.plist.entitlements", "entitlements"⟩] ∧
    (buildSmartProject (scanSmartFiles c4AmendedListing) 0x2000).alloc.sourcesList =
      [("AB0000000000000000002011", "VitalSenseApp.swift"),
       ("AB0000000000000000002013", "Model.swift")] := by
  decide

/-- C10: the file-name exclusion is by substring containment — whenever the
name contains one of the excluded markers anywhere, the classifier excludes
the file, regardless of its directory. -/
theorem c10_substring_exclusion (p n : String)
    (h : ∃ pat ∈ excludedPatterns, strContains pat n = true) :
    shouldIncludeFile p n = false := by
  rw [shouldIncludeFile]
  by_cases hd : excludedDirs.any (fun d => (pathParts p).contains d) = true
  · rw [if_pos hd]
  · rw [if_neg hd]
    obtain ⟨pat, hmem, hc⟩ := h
    rw [if_pos (List.any_eq_true.mpr ⟨pat, hmem, hc⟩)]

/-- Witness for C10: `WatchlistView.swift` contains the marker `Watch`, so it
is excluded even under the included directory `Core/`. -/
theorem c10_substring_exclusion_witness :
    (∃ pat ∈ excludedPatterns,
        strContains pat "WatchlistView.swift" = true) ∧
    shouldIncludeFile "Core/WatchlistView.swift" "WatchlistView.swift" = false :=
  ⟨⟨"Watch", by decide, by decide⟩,
    c10_substring_exclusion "Core/WatchlistView.swift" "WatchlistView.swift"
      ⟨"Watch", by decide, by decide⟩⟩


/-! ### Claim C9: string-scanning algebra for the reader -/

theorem leadsWith_iff (p s : List Char) : leadsWith p s = true ↔ ∃ r, s = p ++ r := by
  induction p generalizing s with
  | nil => simp [leadsWith]
  | cons c ps ih =>
    cases s with
    | nil =>
      simp only [leadsWith, List.cons_append]
      constructor
      · intro h; cases h
      · rintro ⟨r, hr⟩; cases hr
    | cons d t =>
      simp only [leadsWith, Bool.and_eq_true, decide_eq_true_eq, ih, List.cons_append]
      constructor
      · rintro ⟨hcd, r, hr⟩; exact ⟨r, by rw [← hcd, hr]⟩
      · rintro ⟨r, hr⟩
        injection hr with h1 h2
        exact ⟨h1.symm, r, h2⟩

theorem leadsWith_append (p r : List Char) : leadsWith p (p ++ r) = true :=
  (leadsWith_iff p (p ++ r)).mpr ⟨r, rfl⟩

theorem leadsWith_length {p s : List Char} (h : leadsWith p s = true) :
    p.length ≤ s.length := by
  obtain ⟨r, hr⟩ := (leadsWith_iff p s).mp h
  rw [hr, List.length_append]
  omega

theorem leadsWith_take {p s : List Char} (h : leadsWith p s = true) :
    s.take p.length = p := by
  obtain ⟨r, hr⟩ := (leadsWith_iff p s).mp h
  rw [hr, List.take_left]

theorem leadsWith_of_long {p : List Char} (a z : List Char)
    (hlen : p.length ≤ a.length) (h : leadsWith p (a ++ z) = true) :
    leadsWith p a = true := by
  apply (leadsWith_iff p a).mpr
  refine ⟨a.drop p.length, ?_⟩
  have h1 : (a ++ z).take p.length = p := leadsWith_take h
  have h2 : (a ++ z).take p.length = a.take p.length := List.take_append_of_le_length hlen
  have hp : a.take p.length = p := by rw [← h2]; exact h1
  conv_lhs => rw [← List.take_append_drop p.length a]
  rw [hp]

theorem leadsWith_split {p : List Char} (a z : List Char)
    (hlen : a.length < p.length) (h : leadsWith p (a ++ z) = true) :
    p.take a.length = a ∧ leadsWith (p.drop a.length) z = true := by
  induction a generalizing p with
  | nil => simpa using h
  | cons c t ih =>
    cases p with
    | nil => simp at hlen
    | cons q qs =>
      simp only [leadsWith, Bool.and_eq_true, decide_eq_true_eq, List.cons_append] at h
      have hl : t.length < qs.length := by simpa using hlen
      obtain ⟨h1, h2⟩ := h
      obtain ⟨ih1, ih2⟩ := ih hl h2
      refine ⟨?_, ?_⟩
      · simp only [List.length_cons, List.take_succ_cons, ih1, h1]
      · simpa using ih2

theorem hasSub_iff (p s : List Char) : hasSub p s = true ↔ ∃ a b, s = a ++ (p ++ b) := by
  induction s with
  | nil =>
    rw [hasSub]
    constructor
    · intro h
      obtain ⟨r, hr⟩ := (leadsWith_iff p []).mp h
      exact ⟨[], r, by simpa using hr⟩
    · rintro ⟨a, b, hab⟩
      have h2 := hab.symm
      rw [List.append_eq_nil] at h2
      obtain ⟨ha, h3⟩ := h2
      rw [List.append_eq_nil] at h3
      obtain ⟨hp, hb⟩ := h3
      subst hp
      rfl
  | cons c t ih =>
    rw [hasSub, Bool.or_eq_true, leadsWith_iff, ih]
    constructor
    · rintro (⟨r, hr⟩ | ⟨a, b, hab⟩)
      · exact ⟨[], r, by simpa using hr⟩
      · exact ⟨c :: a, b, by simp [hab]⟩
    · rintro ⟨a, b, hab⟩
      cases a with
      | nil => exact Or.inl ⟨b, by simpa using hab⟩
      | cons a0 as =>
        injection hab with h1 h2
        exact Or.inr ⟨as, b, h2⟩

theorem hasSub_trans {i p x : List Char} (h1 : hasSub i p = true)
    (h2 : hasSub p x = true) : hasSub i x = true := by
  obtain ⟨a, b, hab⟩ := (hasSub_iff i p).mp h1
  obtain ⟨c, d, hcd⟩ := (hasSub_iff p x).mp h2
  exact (hasSub_iff i x).mpr ⟨c ++ a, b ++ d, by simp [hcd, hab]⟩

theorem hasSub_false_of_inner {i p : List Char} (x : List Char)
    (hpi : hasSub i p = true) (hx : hasSub i x = false) : hasSub p x = false := by
  cases h : hasSub p x
  · rfl
  · rw [hasSub_trans hpi h] at hx
    cases hx

theorem hasSub_subset {p x : List Char} (h : hasSub p x = true) :
    ∀ c ∈ p, c ∈ x := by
  obtain ⟨a, b, hab⟩ := (hasSub_iff p x).mp h
  intro c hc
  rw [hab]
  exact List.mem_append_right a (List.mem_append_left b hc)

theorem hasSub_append_right (s a b : List Char) (h : hasSub s b = true) :
    hasSub s (a ++ b) = true := by
  obtain ⟨u, v, huv⟩ := (hasSub_iff s b).mp h
  exact (hasSub_iff s (a ++ b)).mpr ⟨a ++ u, v, by simp [huv]⟩

theorem hasSub_of_leadsWith {p s : List Char} (h : leadsWith p s = true) :
    hasSub p s = true := by
  obtain ⟨r, hr⟩ := (leadsWith_iff p s).mp h
  exact (hasSub_iff p s).mpr ⟨[], r, by simpa using hr⟩

/-- An occurrence inside a concatenation lies in the left part, in the right
part, or straddles the boundary. -/
theorem hasSub_append_cases (p a b : List Char) (h : hasSub p (a ++ b) = true) :
    hasSub p a = true ∨ hasSub p b = true ∨
      ∃ j, 0 < j ∧ j < p.length ∧ (∃ a2, a = a2 ++ p.take j) ∧
        leadsWith (p.drop j) b = true := by
  induction a with
  | nil => exact Or.inr (Or.inl (by simpa using h))
  | cons c t ih =>
    rw [List.cons_append, hasSub, Bool.or_eq_true] at h
    rcases h with h | h
    · by_cases hlen : p.length ≤ (c :: t).length
      · left
        rw [← List.cons_append] at h
        exact hasSub_of_leadsWith (leadsWith_of_long (c :: t) b hlen h)
      · push_neg at hlen
        rw [← List.cons_append] at h
        obtain ⟨h1, h2⟩ := leadsWith_split (c :: t) b hlen h
        exact Or.inr (Or.inr ⟨(c :: t).length, by simp, hlen, ⟨[], by simpa using h1.symm⟩, h2⟩)
    · rcases ih h with h' | h' | ⟨j, hj0, hjl, ⟨a2, ha2⟩, hlw⟩
      · left; rw [hasSub, Bool.or_eq_true]; exact Or.inr h'
      · exact Or.inr (Or.inl h')
      · exact Or.inr (Or.inr ⟨j, hj0, hjl, ⟨c :: a2, by simp [ha2]⟩, hlw⟩)

theorem expectStr_append : ∀ (p r : List Char), expectStr p (p ++ r) = some r := by
  intro p
  induction p with
  | nil => intro r; rw [List.nil_append]; cases r <;> rfl
  | cons c t ih => intro r; rw [List.cons_append, expectStr, if_pos rfl]; exact ih r

theorem takeToCh_exact (d : Char) (x r : List Char) (h : d ∉ x) :
    takeToCh d (x ++ d :: r) = some (x, r) := by
  induction x with
  | nil => rw [List.nil_append, takeToCh, if_pos rfl]
  | cons c t ih =>
    have hcd : ¬(c = d) := fun hc => h (hc ▸ List.mem_cons_self c t)
    rw [List.cons_append, takeToCh, if_neg hcd,
      ih (fun hm => h (List.mem_cons_of_mem c hm))]

theorem takeToStr_none (pat : List Char) (s : List Char)
    (h : hasSub pat s = false) : takeToStr pat s = none := by
  induction s with
  | nil =>
    rw [takeToStr]
    rw [hasSub] at h
    rw [h]
    rfl
  | cons c t ih =>
    rw [hasSub, Bool.or_eq_false_iff] at h
    rw [takeToStr, if_neg (by rw [h.1]; exact fun hc => by cases hc), ih h.2]

theorem takeToStr_exact (pat x r : List Char) (hne : pat ≠ [])
    (hx : hasSub pat x = false)
    (hov : ∀ j, 0 < j → j < pat.length → pat.drop j = pat.take (pat.length - j) →
      hasSub (pat.take j) x = false) :
    takeToStr pat (x ++ (pat ++ r)) = some (x, r) := by
  induction x with
  | nil =>
    rw [List.nil_append]
    cases hp : pat with
    | nil => exact absurd hp hne
    | cons c ps =>
      subst hp
      rw [List.cons_append, takeToStr,
        if_pos (by rw [← List.cons_append]; exact leadsWith_append (c :: ps) r),
        ← List.cons_append, List.drop_left]
  | cons c t ih =>
    have hx2 : hasSub pat t = false ∧ leadsWith pat (c :: t) = false := by
      rw [hasSub, Bool.or_eq_false_iff] at hx
      exact ⟨hx.2, hx.1⟩
    have hlw : leadsWith pat ((c :: t) ++ (pat ++ r)) = false := by
      cases hb : leadsWith pat ((c :: t) ++ (pat ++ r)) with
      | false => rfl
      | true =>
        exfalso
        by_cases hlen : pat.length ≤ (c :: t).length
        · have hsub := hasSub_of_leadsWith (leadsWith_of_long (c :: t) (pat ++ r) hlen hb)
          rw [hx] at hsub
          cases hsub
        · push_neg at hlen
          obtain ⟨h1, h2⟩ := leadsWith_split (c :: t) (pat ++ r) hlen hb
          have hd : pat.drop (c :: t).length = pat.take (pat.length - (c :: t).length) := by
            have hlw2 : leadsWith (pat.drop (c :: t).length) pat = true := by
              apply leadsWith_of_long pat r _ h2
              rw [List.length_drop]
              omega
            have h3 := leadsWith_take hlw2
            rw [List.length_drop] at h3
            exact h3.symm
          have hfalse := hov (c :: t).length (by simp) hlen hd
          rw [h1] at hfalse
          have htrue : hasSub (c :: t) (c :: t) = true := by
            apply hasSub_of_leadsWith
            have := leadsWith_append (c :: t) []
            rw [List.append_nil] at this
            exact this
          rw [hfalse] at htrue
          cases htrue
    have hlw2 : leadsWith pat (c :: (t ++ (pat ++ r))) = false := by
      rw [← List.cons_append]; exact hlw
    rw [List.cons_append, takeToStr, if_neg (by simp [hlw2])]
    have hov2 : ∀ j, 0 < j → j < pat.length →
        pat.drop j = pat.take (pat.length - j) → hasSub (pat.take j) t = false := by
      intro j hj0 hjl hd
      have h5 := hov j hj0 hjl hd
      rw [hasSub, Bool.or_eq_false_iff] at h5
      exact h5.2
    rw [ih hx2.1 hov2]


/-- Every character `hexDigitChar` can emit is an upper-case hex digit. -/
theorem hexDigitChar_mem (n : Nat) :
    hexDigitChar n ∈ ("0123456789ABCDEF").data := by
  rw [hexDigitChar]
  by_cases h0 : n = 0
  · rw [if_pos h0]; decide
  rw [if_neg h0]
  by_cases h1 : n = 1
  · rw [if_pos h1]; decide
  rw [if_neg h1]
  by_cases h2 : n = 2
  · rw [if_pos h2]; decide
  rw [if_neg h2]
  by_cases h3 : n = 3
  · rw [if_pos h3]; decide
  rw [if_neg h3]
  by_cases h4 : n = 4
  · rw [if_pos h4]; decide
  rw [if_neg h4]
  by_cases h5 : n = 5
  · rw [if_pos h5]; decide
  rw [if_neg h5]
  by_cases h6 : n = 6
  · rw [if_pos h6]; decide
  rw [if_neg h6]
  by_cases h7 : n = 7
  · rw [if_pos h7]; decide
  rw [if_neg h7]
  by_cases h8 : n = 8
  · rw [if_pos h8]; decide
  rw [if_neg h8]
  by_cases h9 : n = 9
  · rw [if_pos h9]; decide
  rw [if_neg h9]
  by_cases h10 : n = 10
  · rw [if_pos h10]; decide
  rw [if_neg h10]
  by_cases h11 : n = 11
  · rw [if_pos h11]; decide
  rw [if_neg h11]
  by_cases h12 : n = 12
  · rw [if_pos h12]; decide
  rw [if_neg h12]
  by_cases h13 : n = 13
  · rw [if_pos h13]; decide
  rw [if_neg h13]
  by_cases h14 : n = 14
  · rw [if_pos h14]; decide
  rw [if_neg h14]
  decide

theorem hexRev_chars (n : Nat) : ∀ c ∈ hexRev n, c ∈ ("0123456789ABCDEF").data := by
  induction n using Nat.strong_induction_on with
  | _ n ih =>
    intro c hc
    rw [hexRev_eq] at hc
    by_cases hn : n = 0
    · rw [if_pos hn] at hc; cases hc
    · rw [if_neg hn] at hc
      rcases List.mem_cons.mp hc with h | h
      · rw [h]; exact hexDigitChar_mem (n % 16)
      · exact ih (n / 16) (Nat.div_lt_self (Nat.pos_of_ne_zero hn) (by omega)) c h

/-- Every character of a generated identifier is an upper-case hex digit. -/
theorem genIdStr_hexOnly (n : Nat) :
    ∀ c ∈ (genIdStr n).data, c ∈ ("0123456789ABCDEF").data := by
  intro c hc
  rcases List.mem_cons.mp hc with h | hc2
  · rw [h]; decide
  rcases List.mem_cons.mp hc2 with h | hc3
  · rw [h]; decide
  rw [hexPad22] at hc3
  rcases List.mem_append.mp hc3 with h | h
  · rw [List.eq_of_mem_replicate h]; decide
  · exact hexRev_chars n c (List.mem_reverse.mp h)

/-- A character that is not a hex digit does not occur in a generated
identifier. -/
theorem genIdStr_not_mem {c : Char} (hc : c ∉ ("0123456789ABCDEF").data)
    (n : Nat) : c ∉ (genIdStr n).data :=
  fun h => hc (genIdStr_hexOnly n c h)


/-! #### Inversion of the line parsers on the serializer's lines -/

theorem inv_root (i : String) (hid : ' ' ∉ i.data) :
    parseRootLine ("\trootObject = " ++ i ++ " /* Project object */;") = some i := by
  have h1 : ("\trootObject = " ++ i ++ " /* Project object */;").data =
      ("\trootObject = ").data ++ (i.data ++ ' ' :: ("/* Project object */;").data) := by
    simp only [String.data_append, List.append_assoc] <;> rfl
  have h2 := takeToCh_exact ' ' i.data (("/* Project object */;").data) hid
  simp only [parseRootLine, h1, expectStr_append, h2]

theorem inv_child (i nm : String) (hid : ' ' ∉ i.data)
    (hnm : hasSub ((" */").data) nm.data = false) :
    parseChildLine (childLine (i, nm)) = some (i, nm) := by
  have h1 : (childLine (i, nm)).data =
      ("\t\t\t\t").data ++ (i.data ++ ' ' ::
        (("/* ").data ++ (nm.data ++ (" */,").data))) := by
    simp only [childLine, String.data_append, List.append_assoc]
    rfl
  have h2 := takeToCh_exact ' ' i.data
    (("/* ").data ++ (nm.data ++ (" */,").data)) hid
  have hx : hasSub ((" */,").data) nm.data = false :=
    hasSub_false_of_inner nm.data (by decide) hnm
  have hov : ∀ j, 0 < j → j < ((" */,").data).length →
      ((" */,").data).drop j = ((" */,").data).take (((" */,").data).length - j) →
      hasSub (((" */,").data).take j) nm.data = false := by
    intro j hj0 hjl h3
    have hL : (((" */,") : String).data).length = 4 := by decide
    rw [hL] at hjl
    interval_cases j <;> exact absurd h3 (by decide)
  have h4 := takeToStr_exact ((" */,").data) nm.data [] (by decide) hx hov
  rw [List.append_nil] at h4
  simp only [parseChildLine, h1, expectStr_append, h2, h4]

theorem inv_member_src (i nm : String) (hid : ' ' ∉ i.data)
    (hnm : hasSub ((" */").data) nm.data = false) :
    parseMemberLine "Sources" (memberLine "Sources" (i, nm)) = some (i, nm) := by
  have h1 : (memberLine "Sources" (i, nm)).data =
      ("\t\t\t\t").data ++ (i.data ++ ' ' ::
        (("/* ").data ++ (nm.data ++ ((" in " ++ "Sources" ++ " */,") : String).data))) := by
    simp only [memberLine, String.data_append, List.append_assoc]
    rfl
  have h2 := takeToCh_exact ' ' i.data
    (("/* ").data ++ (nm.data ++ ((" in " ++ "Sources" ++ " */,") : String).data)) hid
  have hx : hasSub (((" in " ++ "Sources" ++ " */,") : String).data) nm.data = false :=
    hasSub_false_of_inner nm.data (by decide) hnm
  have hov : ∀ j, 0 < j → j < (((" in " ++ "Sources" ++ " */,") : String).data).length →
      (((" in " ++ "Sources" ++ " */,") : String).data).drop j =
        (((" in " ++ "Sources" ++ " */,") : String).data).take
          ((((" in " ++ "Sources" ++ " */,") : String).data).length - j) →
      hasSub ((((" in " ++ "Sources" ++ " */,") : String).data).take j) nm.data = false := by
    intro j hj0 hjl h3
    have hL : (((" in " ++ "Sources" ++ " */,") : String).data).length = 15 := by decide
    rw [hL] at hjl
    interval_cases j <;> exact absurd h3 (by decide)
  have h4 := takeToStr_exact (((" in " ++ "Sources" ++ " */,") : String).data) nm.data []
    (by decide) hx hov
  rw [List.append_nil] at h4
  simp only [parseMemberLine, h1, expectStr_append, h2, h4]

theorem inv_member_res (i nm : String) (hid : ' ' ∉ i.data)
    (hnm : hasSub ((" */").data) nm.data = false) :
    parseMemberLine "Resources" (memberLine "Resources" (i, nm)) = some (i, nm) := by
  have h1 : (memberLine "Resources" (i, nm)).data =
      ("\t\t\t\t").data ++ (i.data ++ ' ' ::
        (("/* ").data ++ (nm.data ++ ((" in " ++ "Resources" ++ " */,") : String).data))) := by
    simp only [memberLine, String.data_append, List.append_assoc]
    rfl
  have h2 := takeToCh_exact ' ' i.data
    (("/* ").data ++ (nm.data ++ ((" in " ++ "Resources" ++ " */,") : String).data)) hid
  have hx : hasSub (((" in " ++ "Resources" ++ " */,") : String).data) nm.data = false :=
    hasSub_false_of_inner nm.data (by decide) hnm
  have hov : ∀ j, 0 < j → j < (((" in " ++ "Resources" ++ " */,") : String).data).length →
      (((" in " ++ "Resources" ++ " */,") : String).data).drop j =
        (((" in " ++ "Resources" ++ " */,") : String).data).take
          ((((" in " ++ "Resources" ++ " */,") : String).data).length - j) →
      hasSub ((((" in " ++ "Resources" ++ " */,") : String).data).take j) nm.data = false := by
    intro j hj0 hjl h3
    have hL : (((" in " ++ "Resources" ++ " */,") : String).data).length = 17 := by decide
    rw [hL] at hjl
    interval_cases j <;> exact absurd h3 (by decide)
  have h4 := takeToStr_exact (((" in " ++ "Resources" ++ " */,") : String).data) nm.data []
    (by decide) hx hov
  rw [List.append_nil] at h4
  simp only [parseMemberLine, h1, expectStr_append, h2, h4]

theorem inv_product (i : String) (hid : ' ' ∉ i.data) :
    parseFRLine ("\t\t" ++ i ++
        " /* VitalSense.app */ = \x7bisa = PBXFileReference; explicitFileType = wrapper.application; includeInIndex = 0; path = VitalSense.app; sourceTree = BUILT_PRODUCTS_DIR; \x7d;") =
      some (i, ("VitalSense.app" : String), none) := by
  have h1 : ("\t\t" ++ i ++
        " /* VitalSense.app */ = \x7bisa = PBXFileReference; explicitFileType = wrapper.application; includeInIndex = 0; path = VitalSense.app; sourceTree = BUILT_PRODUCTS_DIR; \x7d;").data =
      ("\t\t").data ++ (i.data ++ ' ' ::
        ("/* VitalSense.app */ = \x7bisa = PBXFileReference; explicitFileType = wrapper.application; includeInIndex = 0; path = VitalSense.app; sourceTree = BUILT_PRODUCTS_DIR; \x7d;").data) := by
    simp only [String.data_append, List.append_assoc] <;> rfl
  have h2 := takeToCh_exact ' ' i.data
    (("/* VitalSense.app */ = \x7bisa = PBXFileReference; explicitFileType = wrapper.application; includeInIndex = 0; path = VitalSense.app; sourceTree = BUILT_PRODUCTS_DIR; \x7d;").data) hid
  simp only [parseFRLine, h1, expectStr_append, h2]
  rfl


theorem inv_fileRef (a : PerFile) (hid : ' ' ∉ a.refId.data)
    (hnm : hasSub ((" */").data) a.info.name.data = false)
    (hty : hasSub ((";").data) a.info.ftype.data = false)
    (hpath : hasSub (("\"").data) a.info.path.data = false) :
    parseFRLine (fileRefLine a) =
      some (a.refId, a.info.name, some (a.info.ftype, a.info.path)) := by
  have h1 : (fileRefLine a).data =
      ("\t\t").data ++ (a.refId.data ++ ' ' ::
        (("/* ").data ++ (a.info.name.data ++
          ((" */ = \x7bisa = PBXFileReference; ").data ++
            (("lastKnownFileType = ").data ++
              (a.info.ftype.data ++
                (("; path = \"").data ++
                  (a.info.path.data ++
                    ("\"; sourceTree = \"<group>\"; \x7d;").data)))))))) := by
    simp only [fileRefLine, String.data_append, List.append_assoc] <;> rfl
  have h2 := takeToCh_exact ' ' a.refId.data
    (("/* ").data ++ (a.info.name.data ++
      ((" */ = \x7bisa = PBXFileReference; ").data ++
        (("lastKnownFileType = ").data ++
          (a.info.ftype.data ++
            (("; path = \"").data ++
              (a.info.path.data ++
                ("\"; sourceTree = \"<group>\"; \x7d;").data))))))) hid
  have hx1 : hasSub ((" */ = \x7bisa = PBXFileReference; ").data)
      a.info.name.data = false :=
    hasSub_false_of_inner a.info.name.data (by decide) hnm
  have hov1 : ∀ j, 0 < j → j < ((" */ = \x7bisa = PBXFileReference; ").data).length →
      ((" */ = \x7bisa = PBXFileReference; ").data).drop j =
        ((" */ = \x7bisa = PBXFileReference; ").data).take
          (((" */ = \x7bisa = PBXFileReference; ").data).length - j) →
      hasSub (((" */ = \x7bisa = PBXFileReference; ").data).take j)
        a.info.name.data = false := by
    intro j hj0 hjl h3
    have hL : ((" */ = \x7bisa = PBXFileReference; ").data).length = 31 := by decide
    rw [hL] at hjl
    interval_cases j <;> first
      | exact absurd h3 (by decide)
      | exact hasSub_false_of_inner a.info.name.data (by decide) hnm
  have h4 := takeToStr_exact ((" */ = \x7bisa = PBXFileReference; ").data)
    a.info.name.data
    (("lastKnownFileType = ").data ++
      (a.info.ftype.data ++
        (("; path = \"").data ++
          (a.info.path.data ++ ("\"; sourceTree = \"<group>\"; \x7d;").data))))
    (by decide) hx1 hov1
  have hx2 : hasSub (("; path = \"").data) a.info.ftype.data = false :=
    hasSub_false_of_inner a.info.ftype.data (by decide) hty
  have hov2 : ∀ j, 0 < j → j < (("; path = \"").data).length →
      (("; path = \"").data).drop j =
        (("; path = \"").data).take ((("; path = \"").data).length - j) →
      hasSub ((("; path = \"").data).take j) a.info.ftype.data = false := by
    intro j hj0 hjl h3
    have hL : (("; path = \"").data).length = 10 := by decide
    rw [hL] at hjl
    interval_cases j <;> first
      | exact absurd h3 (by decide)
      | exact hasSub_false_of_inner a.info.ftype.data (by decide) hty
  have h5 := takeToStr_exact (("; path = \"").data) a.info.ftype.data
    (a.info.path.data ++ ("\"; sourceTree = \"<group>\"; \x7d;").data)
    (by decide) hx2 hov2
  have hx3 : hasSub (("\"; sourceTree = \"<group>\"; \x7d;").data)
      a.info.path.data = false :=
    hasSub_false_of_inner a.info.path.data (by decide) hpath
  have hov3 : ∀ j, 0 < j → j < (("\"; sourceTree = \"<group>\"; \x7d;").data).length →
      (("\"; sourceTree = \"<group>\"; \x7d;").data).drop j =
        (("\"; sourceTree = \"<group>\"; \x7d;").data).take
          ((("\"; sourceTree = \"<group>\"; \x7d;").data).length - j) →
      hasSub ((("\"; sourceTree = \"<group>\"; \x7d;").data).take j)
        a.info.path.data = false := by
    intro j hj0 hjl h3
    have hL : (("\"; sourceTree = \"<group>\"; \x7d;").data).length = 29 := by decide
    rw [hL] at hjl
    interval_cases j <;> first
      | exact absurd h3 (by decide)
      | exact hasSub_false_of_inner a.info.path.data (by decide) hpath
  have h6 := takeToStr_exact (("\"; sourceTree = \"<group>\"; \x7d;").data)
    a.info.path.data [] (by decide) hx3 hov3
  rw [List.append_nil] at h6
  simp only [parseFRLine, h1, expectStr_append, h2, h4, h5, h6]


/-- The Sources delimiter of `parseBFLine` does not occur anywhere in the tail
of a Resources build-file line whose label is free of the comment closer and
whose reference identifier is made of hex digits. -/
theorem noSources_in_resLine (nm rid : List Char)
    (hnm : hasSub ((" */").data) nm = false)
    (hrid : ∀ c ∈ rid, c ∈ ("0123456789ABCDEF").data) :
    hasSub ((" in Sources */ = \x7bisa = PBXBuildFile; fileRef = ").data)
      (nm ++ ((" in Resources */ = \x7bisa = PBXBuildFile; fileRef = ").data ++
        (rid ++ ' ' :: (("/* ").data ++ (nm ++ (" */; \x7d;").data))))) = false := by
  cases hocc : hasSub ((" in Sources */ = \x7bisa = PBXBuildFile; fileRef = ").data)
      (nm ++ ((" in Resources */ = \x7bisa = PBXBuildFile; fileRef = ").data ++
        (rid ++ ' ' :: (("/* ").data ++ (nm ++ (" */; \x7d;").data))))) with
  | false => rfl
  | true =>
    exfalso
    have hin : hasSub (("Sources */ = \x7b").data)
        (nm ++ ((" in Resources */ = \x7bisa = PBXBuildFile; fileRef = ").data ++
          (rid ++ ' ' :: (("/* ").data ++ (nm ++ (" */; \x7d;").data))))) = true :=
      hasSub_trans (by decide) hocc
    rcases hasSub_append_cases (("Sources */ = \x7b").data) nm
        ((" in Resources */ = \x7bisa = PBXBuildFile; fileRef = ").data ++
          (rid ++ ' ' :: (("/* ").data ++ (nm ++ (" */; \x7d;").data)))) hin with
      h | h | ⟨j, hj0, hjl, ⟨a2, ha2⟩, hlw⟩
    · have h9 : hasSub ((" */").data) nm = true := hasSub_trans (by decide) h
      rw [hnm] at h9
      exact Bool.noConfusion h9
    · rcases hasSub_append_cases (("Sources */ = \x7b").data)
          ((" in Resources */ = \x7bisa = PBXBuildFile; fileRef = ").data)
          (rid ++ ' ' :: (("/* ").data ++ (nm ++ (" */; \x7d;").data))) h with
        h | h | ⟨j, hj0, hjl, ⟨a2, ha2⟩, hlw⟩
      · exact absurd h (by decide)
      · rcases hasSub_append_cases (("Sources */ = \x7b").data) rid
            (' ' :: (("/* ").data ++ (nm ++ (" */; \x7d;").data))) h with
          h | h | ⟨j, hj0, hjl, ⟨a2, ha2⟩, hlw⟩
        · exact absurd (hrid 'S' (hasSub_subset h 'S' (by decide))) (by decide)
        · rcases hasSub_append_cases (("Sources */ = \x7b").data) ((" /* ").data)
              (nm ++ (" */; \x7d;").data)
              (show hasSub (("Sources */ = \x7b").data)
                  (((" /* ").data) ++ (nm ++ (" */; \x7d;").data)) = true from h) with
            h | h | ⟨j, hj0, hjl, ⟨a2, ha2⟩, hlw⟩
          · exact absurd h (by decide)
          · rcases hasSub_append_cases (("Sources */ = \x7b").data) nm
                ((" */; \x7d;").data) h with
              h | h | ⟨j, hj0, hjl, ⟨a2, ha2⟩, hlw⟩
            · have h9 : hasSub ((" */").data) nm = true := hasSub_trans (by decide) h
              rw [hnm] at h9
              exact Bool.noConfusion h9
            · exact absurd h (by decide)
            · have hL : ((("Sources */ = \x7b") : String).data).length = 14 := by decide
              rw [hL] at hjl
              interval_cases j <;> exact absurd hlw (by decide)
          · have hL : ((("Sources */ = \x7b") : String).data).length = 14 := by decide
            rw [hL] at hjl
            interval_cases j <;>
              exact absurd
                ((leadsWith_iff _ _).mpr ⟨a2.reverse, (congrArg List.reverse ha2).trans (List.reverse_append _ _)⟩)
                (by decide)
        · have hS : 'S' ∈ rid := by
            rw [ha2]
            apply List.mem_append_right
            obtain ⟨k, hk⟩ := Nat.exists_eq_succ_of_ne_zero (Nat.pos_iff_ne_zero.mp hj0)
            rw [hk]
            exact List.mem_cons_self 'S' (List.take k (("ources */ = \x7b").data))
          exact absurd (hrid 'S' hS) (by decide)
      · have hL : ((("Sources */ = \x7b") : String).data).length = 14 := by decide
        rw [hL] at hjl
        interval_cases j <;>
          exact absurd ((leadsWith_iff _ _).mpr ⟨a2.reverse, (congrArg List.reverse ha2).trans (List.reverse_append _ _)⟩)
            (by decide)
    · have hL : ((("Sources */ = \x7b") : String).data).length = 14 := by decide
      rw [hL] at hjl
      interval_cases j <;> exact absurd (leadsWith_of_long _ _ (by decide) hlw) (by decide)


theorem inv_bf_src (bid nm rid : String) (hbid : ' ' ∉ bid.data)
    (hnm : hasSub ((" */").data) nm.data = false)
    (hrid : ∀ c ∈ rid.data, c ∈ ("0123456789ABCDEF").data) :
    parseBFLine (buildFileLine (bid, nm, ("Sources" : String), rid)) =
      some (bid, nm, ("Sources" : String), rid) := by
  have hridsp : ' ' ∉ rid.data := fun hm => by
    have h9 := hrid ' ' hm
    exact absurd h9 (by decide)
  have h1 : (buildFileLine (bid, nm, ("Sources" : String), rid)).data =
      ("\t\t").data ++ (bid.data ++ ' ' ::
        (("/* ").data ++ (nm.data ++
          ((" in Sources */ = \x7bisa = PBXBuildFile; fileRef = ").data ++
            (rid.data ++ ' ' ::
              (("/* ").data ++ (nm.data ++ (" */; \x7d;").data))))))) := by
    simp only [buildFileLine, String.data_append, List.append_assoc] <;> rfl
  have h2 := takeToCh_exact ' ' bid.data
    (("/* ").data ++ (nm.data ++
      ((" in Sources */ = \x7bisa = PBXBuildFile; fileRef = ").data ++
        (rid.data ++ ' ' ::
          (("/* ").data ++ (nm.data ++ (" */; \x7d;").data)))))) hbid
  have hx1 : hasSub ((" in Sources */ = \x7bisa = PBXBuildFile; fileRef = ").data)
      nm.data = false :=
    hasSub_false_of_inner nm.data (by decide) hnm
  have hov1 : ∀ j, 0 < j →
      j < ((" in Sources */ = \x7bisa = PBXBuildFile; fileRef = ").data).length →
      ((" in Sources */ = \x7bisa = PBXBuildFile; fileRef = ").data).drop j =
        ((" in Sources */ = \x7bisa = PBXBuildFile; fileRef = ").data).take
          (((" in Sources */ = \x7bisa = PBXBuildFile; fileRef = ").data).length - j) →
      hasSub (((" in Sources */ = \x7bisa = PBXBuildFile; fileRef = ").data).take j)
        nm.data = false := by
    intro j hj0 hjl h3
    have hL : ((" in Sources */ = \x7bisa = PBXBuildFile; fileRef = ").data).length = 48 := by
      decide
    rw [hL] at hjl
    interval_cases j <;> first
      | exact absurd h3 (by decide)
      | exact hasSub_false_of_inner nm.data (by decide) hnm
  have h4 := takeToStr_exact ((" in Sources */ = \x7bisa = PBXBuildFile; fileRef = ").data)
    nm.data
    (rid.data ++ ' ' :: (("/* ").data ++ (nm.data ++ (" */; \x7d;").data)))
    (by decide) hx1 hov1
  have h5 := takeToCh_exact ' ' rid.data
    (("/* ").data ++ (nm.data ++ (" */; \x7d;").data)) hridsp
  simp only [parseBFLine, h1, expectStr_append, h2, h4, h5]

theorem inv_bf_res (bid nm rid : String) (hbid : ' ' ∉ bid.data)
    (hnm : hasSub ((" */").data) nm.data = false)
    (hrid : ∀ c ∈ rid.data, c ∈ ("0123456789ABCDEF").data) :
    parseBFLine (buildFileLine (bid, nm, ("Resources" : String), rid)) =
      some (bid, nm, ("Resources" : String), rid) := by
  have hridsp : ' ' ∉ rid.data := fun hm => by
    have h9 := hrid ' ' hm
    exact absurd h9 (by decide)
  have h1 : (buildFileLine (bid, nm, ("Resources" : String), rid)).data =
      ("\t\t").data ++ (bid.data ++ ' ' ::
        (("/* ").data ++ (nm.data ++
          ((" in Resources */ = \x7bisa = PBXBuildFile; fileRef = ").data ++
            (rid.data ++ ' ' ::
              (("/* ").data ++ (nm.data ++ (" */; \x7d;").data))))))) := by
    simp only [buildFileLine, String.data_append, List.append_assoc] <;> rfl
  have h2 := takeToCh_exact ' ' bid.data
    (("/* ").data ++ (nm.data ++
      ((" in Resources */ = \x7bisa = PBXBuildFile; fileRef = ").data ++
        (rid.data ++ ' ' ::
          (("/* ").data ++ (nm.data ++ (" */; \x7d;").data)))))) hbid
  have hnone := takeToStr_none
    ((" in Sources */ = \x7bisa = PBXBuildFile; fileRef = ").data)
    (nm.data ++ ((" in Resources */ = \x7bisa = PBXBuildFile; fileRef = ").data ++
      (rid.data ++ ' ' :: (("/* ").data ++ (nm.data ++ (" */; \x7d;").data)))))
    (noSources_in_resLine nm.data rid.data hnm hrid)
  have hx1 : hasSub ((" in Resources */ = \x7bisa = PBXBuildFile; fileRef = ").data)
      nm.data = false :=
    hasSub_false_of_inner nm.data (by decide) hnm
  have hov1 : ∀ j, 0 < j →
      j < ((" in Resources */ = \x7bisa = PBXBuildFile; fileRef = ").data).length →
      ((" in Resources */ = \x7bisa = PBXBuildFile; fileRef = ").data).drop j =
        ((" in Resources */ = \x7bisa = PBXBuildFile; fileRef = ").data).take
          (((" in Resources */ = \x7bisa = PBXBuildFile; fileRef = ").data).length - j) →
      hasSub (((" in Resources */ = \x7bisa = PBXBuildFile; fileRef = ").data).take j)
        nm.data = false := by
    intro j hj0 hjl h3
    have hL : ((" in Resources */ = \x7bisa = PBXBuildFile; fileRef = ").data).length = 50 := by
      decide
    rw [hL] at hjl
    interval_cases j <;> first
      | exact absurd h3 (by decide)
      | exact hasSub_false_of_inner nm.data (by decide) hnm
  have h4 := takeToStr_exact
    ((" in Resources */ = \x7bisa = PBXBuildFile; fileRef = ").data)
    nm.data
    (rid.data ++ ' ' :: (("/* ").data ++ (nm.data ++ (" */; \x7d;").data)))
    (by decide) hx1 hov1
  have h5 := takeToCh_exact ' ' rid.data
    (("/* ").data ++ (nm.data ++ (" */; \x7d;").data)) hridsp
  simp only [parseBFLine, h1, expectStr_append, h2, hnone, h4, h5]


/-! #### Step lemmas for the reader's state machine -/

theorem strData_ext : ∀ s t : String, s.data = t.data → s = t := by
  intro s t h
  cases s
  cases t
  exact congrArg String.mk h

theorem rstep_mark (st : RState) (m : RMode) (l : String)
    (h : markerMode l = some m) : rstep st l = ⟨m, st.g⟩ := by
  simp only [rstep, h]

theorem rstep_idle_skip (g : RGraph) (l : String) (h1 : markerMode l = none)
    (h2 : parseRootLine l = none) :
    rstep ⟨RMode.idle, g⟩ l = ⟨RMode.idle, g⟩ := by
  simp only [rstep, h1, h2]

theorem rstep_root (g : RGraph) (l : String) (r : String)
    (h1 : markerMode l = none) (h2 : parseRootLine l = some r) :
    rstep ⟨RMode.idle, g⟩ l = ⟨RMode.idle, { g with root := some r }⟩ := by
  simp only [rstep, h1, h2]

theorem rstep_other (g : RGraph) (l : String) (h : markerMode l = none) :
    rstep ⟨RMode.inOther, g⟩ l = ⟨RMode.inOther, g⟩ := by
  simp only [rstep, h]

theorem rstep_fr (g : RGraph) (l : String)
    (e : String × String × Option (String × String))
    (h1 : markerMode l = none) (h2 : parseFRLine l = some e) :
    rstep ⟨RMode.inFileRefs, g⟩ l =
      ⟨RMode.inFileRefs, { g with fileRefs := g.fileRefs ++ [e] }⟩ := by
  simp only [rstep, h1, h2]

theorem rstep_bf (g : RGraph) (l : String) (e : String × String × String × String)
    (h1 : markerMode l = none) (h2 : parseBFLine l = some e) :
    rstep ⟨RMode.inBuildFiles, g⟩ l =
      ⟨RMode.inBuildFiles, { g with buildFiles := g.buildFiles ++ [e] }⟩ := by
  simp only [rstep, h1, h2]

theorem rstep_bf_skip (g : RGraph) (l : String) (h1 : markerMode l = none)
    (h2 : parseBFLine l = none) :
    rstep ⟨RMode.inBuildFiles, g⟩ l = ⟨RMode.inBuildFiles, g⟩ := by
  simp only [rstep, h1, h2]

theorem rstep_src (g : RGraph) (l : String) (e : String × String)
    (h1 : markerMode l = none) (h2 : parseMemberLine "Sources" l = some e) :
    rstep ⟨RMode.inSources, g⟩ l =
      ⟨RMode.inSources, { g with srcMembers := g.srcMembers ++ [e] }⟩ := by
  simp only [rstep, h1, h2]

theorem rstep_src_skip (g : RGraph) (l : String) (h1 : markerMode l = none)
    (h2 : parseMemberLine "Sources" l = none) :
    rstep ⟨RMode.inSources, g⟩ l = ⟨RMode.inSources, g⟩ := by
  simp only [rstep, h1, h2]

theorem rstep_res (g : RGraph) (l : String) (e : String × String)
    (h1 : markerMode l = none) (h2 : parseMemberLine "Resources" l = some e) :
    rstep ⟨RMode.inResources, g⟩ l =
      ⟨RMode.inResources, { g with resMembers := g.resMembers ++ [e] }⟩ := by
  simp only [rstep, h1, h2]

theorem rstep_res_skip (g : RGraph) (l : String) (h1 : markerMode l = none)
    (h2 : parseMemberLine "Resources" l = none) :
    rstep ⟨RMode.inResources, g⟩ l = ⟨RMode.inResources, g⟩ := by
  simp only [rstep, h1, h2]

theorem rstep_child (g : RGraph) (l : String) (e : String × String)
    (h1 : markerMode l = none) (h2 : parseChildLine l = some e) :
    rstep ⟨RMode.inGroups, g⟩ l =
      ⟨RMode.inGroups, { g with children := g.children ++ [e] }⟩ := by
  simp only [rstep, h1, h2]

theorem rstep_child_skip (g : RGraph) (l : String) (h1 : markerMode l = none)
    (h2 : parseChildLine l = none) :
    rstep ⟨RMode.inGroups, g⟩ l = ⟨RMode.inGroups, g⟩ := by
  simp only [rstep, h1, h2]

theorem markerMode_tab (l : String) (t : List Char) (h : l.data = '\t' :: t) :
    markerMode l = none := by
  simp only [markerMode, h]
  rfl

theorem markerMode_app (x a b : String) (t : List Char) (hx : x.data = '\t' :: t) :
    markerMode (x ++ a ++ b) = none := by
  apply markerMode_tab _ (t ++ (a.data ++ b.data))
  simp only [String.data_append, hx, List.cons_append, List.append_assoc]

theorem markerMode_app2 (x a : String) (t : List Char) (hx : x.data = '\t' :: t) :
    markerMode (x ++ a) = none := by
  apply markerMode_tab _ (t ++ a.data)
  simp only [String.data_append, hx, List.cons_append]

theorem parseChild_hdr (n : Nat) (b : String) :
    parseChildLine ("\t\t" ++ genIdStr n ++ b) = none := by
  have h1 : ("\t\t" ++ genIdStr n ++ b).data =
      '\t' :: '\t' :: 'A' :: ('B' :: hexPad22 n ++ b.data) := by
    simp only [String.data_append, genIdStr, List.append_assoc] <;> rfl
  simp only [parseChildLine, h1]
  rfl

theorem parseMember_hdr (ph : String) (n : Nat) (b : String) :
    parseMemberLine ph ("\t\t" ++ genIdStr n ++ b) = none := by
  have h1 : ("\t\t" ++ genIdStr n ++ b).data =
      '\t' :: '\t' :: 'A' :: ('B' :: hexPad22 n ++ b.data) := by
    simp only [String.data_append, genIdStr, List.append_assoc] <;> rfl
  simp only [parseMemberLine, h1]
  rfl

theorem inv_child_fix (i nm b : String)
    (hb : ("\t\t\t\t" ++ i ++ b : String) = childLine (i, nm))
    (hid : ' ' ∉ i.data) (hnm : hasSub ((" */").data) nm.data = false) :
    parseChildLine ("\t\t\t\t" ++ i ++ b) = some (i, nm) := by
  rw [hb]
  exact inv_child i nm hid hnm


/-! #### Folding the reader over the serializer's blocks -/

theorem fold_blkA (g : RGraph) :
    List.foldl rstep ⟨RMode.idle, g⟩ blkA = ⟨RMode.inBuildFiles, g⟩ := by
  simp only [blkA, List.foldl_cons, List.foldl_nil]
  rw [rstep_idle_skip g _ (by decide) (by decide)]
  rw [rstep_idle_skip g _ (by decide) (by decide)]
  rw [rstep_idle_skip g _ (by decide) (by decide)]
  rw [rstep_idle_skip g _ (by decide) (by decide)]
  rw [rstep_idle_skip g _ (by decide) (by decide)]
  rw [rstep_idle_skip g _ (by decide) (by decide)]
  rw [rstep_idle_skip g _ (by decide) (by decide)]
  rw [rstep_idle_skip g _ (by decide) (by decide)]
  rw [rstep_mark _ RMode.inBuildFiles "/* Begin PBXBuildFile section */" (by decide)]

theorem fold_blkB (g : RGraph) :
    List.foldl rstep ⟨RMode.inBuildFiles, g⟩ blkB = ⟨RMode.inFileRefs, g⟩ := by
  simp only [blkB, List.foldl_cons, List.foldl_nil]
  rw [rstep_mark _ RMode.idle "/* End PBXBuildFile section */" (by decide)]
  rw [rstep_idle_skip g _ (by decide) (by decide)]
  rw [rstep_mark _ RMode.inFileRefs "/* Begin PBXFileReference section */" (by decide)]


theorem fold_blkC (files : List FileInfo) (c0 : Nat) (g : RGraph) :
    List.foldl rstep ⟨RMode.inFileRefs, g⟩ (blkC (buildSmartProject files c0)) =
      ⟨RMode.inGroups, { g with children := g.children ++
        [(genIdStr (c0 + 3), ("VitalSense" : String)),
         (genIdStr (c0 + 2), ("Products" : String)),
         (genIdStr (c0 + 5), ("VitalSense.app" : String))] }⟩ := by
  simp only [blkC, buildSmartProject, List.foldl_cons, List.foldl_nil]
  rw [rstep_mark _ RMode.idle "/* End PBXFileReference section */" (by decide)]
  rw [rstep_idle_skip _ _ (by decide) (by decide)]
  rw [rstep_mark _ RMode.inOther "/* Begin PBXFrameworksBuildPhase section */" (by decide)]
  rw [rstep_other _ _ (markerMode_app "\t\t" _ _ _ rfl)]
  rw [rstep_other _ _ (by decide)]
  rw [rstep_other _ _ (by decide)]
  rw [rstep_other _ _ (by decide)]
  rw [rstep_other _ _ (by decide)]
  rw [rstep_other _ _ (by decide)]
  rw [rstep_other _ _ (by decide)]
  rw [rstep_mark _ RMode.idle "/* End PBXFrameworksBuildPhase section */" (by decide)]
  rw [rstep_idle_skip _ _ (by decide) (by decide)]
  rw [rstep_mark _ RMode.inGroups "/* Begin PBXGroup section */" (by decide)]
  rw [rstep_child_skip _ _ (markerMode_app "\t\t" _ _ _ rfl) (parseChild_hdr _ _)]
  rw [rstep_child_skip _ _ (by decide) (by decide)]
  rw [rstep_child_skip _ _ (by decide) (by decide)]
  rw [rstep_child _ _ _ (markerMode_app "\t\t\t\t" _ _ _ rfl) (inv_child_fix _ "VitalSense" " /* VitalSense */," (strData_ext _ _ (by simp only [childLine, String.data_append, List.append_assoc] <;> rfl)) (genIdStr_not_mem (by decide) _) (by decide))]
  rw [rstep_child _ _ _ (markerMode_app "\t\t\t\t" _ _ _ rfl) (inv_child_fix _ "Products" " /* Products */," (strData_ext _ _ (by simp only [childLine, String.data_append, List.append_assoc] <;> rfl)) (genIdStr_not_mem (by decide) _) (by decide))]
  rw [rstep_child_skip _ _ (by decide) (by decide)]
  rw [rstep_child_skip _ _ (by decide) (by decide)]
  rw [rstep_child_skip _ _ (by decide) (by decide)]
  rw [rstep_child_skip _ _ (markerMode_app "\t\t" _ _ _ rfl) (parseChild_hdr _ _)]
  rw [rstep_child_skip _ _ (by decide) (by decide)]
  rw [rstep_child_skip _ _ (by decide) (by decide)]
  rw [rstep_child _ _ _ (markerMode_app "\t\t\t\t" _ _ _ rfl) (inv_child_fix _ "VitalSense.app" " /* VitalSense.app */," (strData_ext _ _ (by simp only [childLine, String.data_append, List.append_assoc] <;> rfl)) (genIdStr_not_mem (by decide) _) (by decide))]
  rw [rstep_child_skip _ _ (by decide) (by decide)]
  rw [rstep_child_skip _ _ (by decide) (by decide)]
  rw [rstep_child_skip _ _ (by decide) (by decide)]
  rw [rstep_child_skip _ _ (by decide) (by decide)]
  rw [rstep_child_skip _ _ (markerMode_app "\t\t" _ _ _ rfl) (parseChild_hdr _ _)]
  rw [rstep_child_skip _ _ (by decide) (by decide)]
  rw [rstep_child_skip _ _ (by decide) (by decide)]
  simp [List.append_assoc]


theorem fold_blkD (files : List FileInfo) (c0 : Nat) (g : RGraph) :
    List.foldl rstep ⟨RMode.inGroups, g⟩ (blkD (buildSmartProject files c0)) =
      ⟨RMode.inResources, g⟩ := by
  simp only [blkD, buildSmartProject, List.foldl_cons, List.foldl_nil]
  rw [rstep_child_skip _ _ (by decide) (by decide)]
  rw [rstep_child_skip _ _ (by decide) (by decide)]
  rw [rstep_child_skip _ _ (by decide) (by decide)]
  rw [rstep_child_skip _ _ (by decide) (by decide)]
  rw [rstep_mark _ RMode.idle "/* End PBXGroup section */" (by decide)]
  rw [rstep_idle_skip _ _ (by decide) (by decide)]
  rw [rstep_mark _ RMode.inOther "/* Begin PBXNativeTarget section */" (by decide)]
  rw [rstep_other _ _ (markerMode_app "\t\t" _ _ _ rfl)]
  rw [rstep_other _ _ (by decide)]
  rw [rstep_other _ _ (markerMode_app "\t\t\tbuildConfigurationList = " _ _ _ rfl)]
  rw [rstep_other _ _ (by decide)]
  rw [rstep_other _ _ (markerMode_app "\t\t\t\t" _ _ _ rfl)]
  rw [rstep_other _ _ (markerMode_app "\t\t\t\t" _ _ _ rfl)]
  rw [rstep_other _ _ (markerMode_app "\t\t\t\t" _ _ _ rfl)]
  rw [rstep_other _ _ (by decide)]
  rw [rstep_other _ _ (by decide)]
  rw [rstep_other _ _ (by decide)]
  rw [rstep_other _ _ (by decide)]
  rw [rstep_other _ _ (by decide)]
  rw [rstep_other _ _ (by decide)]
  rw [rstep_other _ _ (by decide)]
  rw [rstep_other _ _ (markerMode_app "\t\t\tproductReference = " _ _ _ rfl)]
  rw [rstep_other _ _ (by decide)]
  rw [rstep_other _ _ (by decide)]
  rw [rstep_mark _ RMode.idle "/* End PBXNativeTarget section */" (by decide)]
  rw [rstep_idle_skip _ _ (by decide) (by decide)]
  rw [rstep_mark _ RMode.inOther "/* Begin PBXProject section */" (by decide)]
  rw [rstep_other _ _ (markerMode_app "\t\t" _ _ _ rfl)]
  rw [rstep_other _ _ (by decide)]
  rw [rstep_other _ _ (by decide)]
  rw [rstep_other _ _ (by decide)]
  rw [rstep_other _ _ (by decide)]
  rw [rstep_other _ _ (by decide)]
  rw [rstep_other _ _ (by decide)]
  rw [rstep_other _ _ (markerMode_app "\t\t\t\t\t" _ _ _ rfl)]
  rw [rstep_other _ _ (by decide)]
  rw [rstep_other _ _ (by decide)]
  rw [rstep_other _ _ (by decide)]
  rw [rstep_other _ _ (by decide)]
  rw [rstep_other _ _ (markerMode_app "\t\t\tbuildConfigurationList = " _ _ _ rfl)]
  rw [rstep_other _ _ (by decide)]
  rw [rstep_other _ _ (by decide)]
  rw [rstep_other _ _ (by decide)]
  rw [rstep_other _ _ (by decide)]
  rw [rstep_other _ _ (by decide)]
  rw [rstep_other _ _ (by decide)]
  rw [rstep_other _ _ (markerMode_app "\t\t\tmainGroup = " _ _ _ rfl)]
  rw [rstep_other _ _ (markerMode_app "\t\t\tproductRefGroup = " _ _ _ rfl)]
  rw [rstep_other _ _ (by decide)]
  rw [rstep_other _ _ (by decide)]
  rw [rstep_other _ _ (by decide)]
  rw [rstep_other _ _ (markerMode_app "\t\t\t\t" _ _ _ rfl)]
  rw [rstep_other _ _ (by decide)]
  rw [rstep_other _ _ (by decide)]
  rw [rstep_mark _ RMode.idle "/* End PBXProject section */" (by decide)]
  rw [rstep_idle_skip _ _ (by decide) (by decide)]
  rw [rstep_mark _ RMode.inResources "/* Begin PBXResourcesBuildPhase section */" (by decide)]
  rw [rstep_res_skip _ _ (markerMode_app "\t\t" _ _ _ rfl) (parseMember_hdr _ _ _)]
  rw [rstep_res_skip _ _ (by decide) (by decide)]
  rw [rstep_res_skip _ _ (by decide) (by decide)]
  rw [rstep_res_skip _ _ (by decide) (by decide)]


theorem fold_blkE (files : List FileInfo) (c0 : Nat) (g : RGraph) :
    List.foldl rstep ⟨RMode.inResources, g⟩ (blkE (buildSmartProject files c0)) =
      ⟨RMode.inSources, g⟩ := by
  simp only [blkE, buildSmartProject, List.foldl_cons, List.foldl_nil]
  rw [rstep_res_skip _ _ (by decide) (by decide)]
  rw [rstep_res_skip _ _ (by decide) (by decide)]
  rw [rstep_res_skip _ _ (by decide) (by decide)]
  rw [rstep_mark _ RMode.idle "/* End PBXResourcesBuildPhase section */" (by decide)]
  rw [rstep_idle_skip _ _ (by decide) (by decide)]
  rw [rstep_mark _ RMode.inSources "/* Begin PBXSourcesBuildPhase section */" (by decide)]
  rw [rstep_src_skip _ _ (markerMode_app "\t\t" _ _ _ rfl) (parseMember_hdr _ _ _)]
  rw [rstep_src_skip _ _ (by decide) (by decide)]
  rw [rstep_src_skip _ _ (by decide) (by decide)]
  rw [rstep_src_skip _ _ (by decide) (by decide)]


theorem fold_blkF (files : List FileInfo) (c0 : Nat) (g : RGraph) :
    List.foldl rstep ⟨RMode.inSources, g⟩ (blkF (buildSmartProject files c0)) =
      ⟨RMode.idle, { g with root := some (genIdStr (c0 + 15)) }⟩ := by
  simp only [blkF, buildSmartProject, List.foldl_cons, List.foldl_nil]
  rw [rstep_src_skip _ _ (by decide) (by decide)]
  rw [rstep_src_skip _ _ (by decide) (by decide)]
  rw [rstep_src_skip _ _ (by decide) (by decide)]
  rw [rstep_mark _ RMode.idle "/* End PBXSourcesBuildPhase section */" (by decide)]
  rw [rstep_idle_skip _ _ (by decide) (by decide)]
  rw [rstep_mark _ RMode.inOther "/* Begin XCBuildConfiguration section */" (by decide)]
  rw [rstep_other _ _ (markerMode_app "\t\t" _ _ _ rfl)]
  rw [rstep_other _ _ (by decide)]
  rw [rstep_other _ _ (by decide)]
  rw [rstep_other _ _ (by decide)]
  rw [rstep_other _ _ (by decide)]
  rw [rstep_other _ _ (by decide)]
  rw [rstep_other _ _ (by decide)]
  rw [rstep_other _ _ (by decide)]
  rw [rstep_other _ _ (by decide)]
  rw [rstep_other _ _ (by decide)]
  rw [rstep_other _ _ (by decide)]
  rw [rstep_other _ _ (by decide)]
  rw [rstep_other _ _ (by decide)]
  rw [rstep_other _ _ (by decide)]
  rw [rstep_other _ _ (by decide)]
  rw [rstep_other _ _ (by decide)]
  rw [rstep_other _ _ (by decide)]
  rw [rstep_other _ _ (by decide)]
  rw [rstep_other _ _ (by decide)]
  rw [rstep_other _ _ (by decide)]
  rw [rstep_other _ _ (by decide)]
  rw [rstep_other _ _ (by decide)]
  rw [rstep_other _ _ (by decide)]
  rw [rstep_other _ _ (by decide)]
  rw [rstep_other _ _ (by decide)]
  rw [rstep_other _ _ (by decide)]
  rw [rstep_other _ _ (by decide)]
  rw [rstep_other _ _ (by decide)]
  rw [rstep_other _ _ (by decide)]
  rw [rstep_other _ _ (by decide)]
  rw [rstep_other _ _ (by decide)]
  rw [rstep_other _ _ (by decide)]
  rw [rstep_other _ _ (by decide)]
  rw [rstep_other _ _ (by decide)]
  rw [rstep_other _ _ (markerMode_app "\t\t" _ _ _ rfl)]
  rw [rstep_other _ _ (by decide)]
  rw [rstep_other _ _ (by decide)]
  rw [rstep_other _ _ (by decide)]
  rw [rstep_other _ _ (by decide)]
  rw [rstep_other _ _ (by decide)]
  rw [rstep_other _ _ (by decide)]
  rw [rstep_other _ _ (by decide)]
  rw [rstep_other _ _ (by decide)]
  rw [rstep_other _ _ (by decide)]
  rw [rstep_other _ _ (by decide)]
  rw [rstep_other _ _ (by decide)]
  rw [rstep_other _ _ (by decide)]
  rw [rstep_other _ _ (by decide)]
  rw [rstep_other _ _ (by decide)]
  rw [rstep_other _ _ (by decide)]
  rw [rstep_other _ _ (by decide)]
  rw [rstep_other _ _ (by decide)]
  rw [rstep_other _ _ (by decide)]
  rw [rstep_other _ _ (by decide)]
  rw [rstep_other _ _ (by decide)]
  rw [rstep_other _ _ (by decide)]
  rw [rstep_other _ _ (by decide)]
  rw [rstep_other _ _ (by decide)]
  rw [rstep_other _ _ (by decide)]
  rw [rstep_other _ _ (by decide)]
  rw [rstep_other _ _ (by decide)]
  rw [rstep_other _ _ (markerMode_app "\t\t" _ _ _ rfl)]
  rw [rstep_other _ _ (by decide)]
  rw [rstep_other _ _ (by decide)]
  rw [rstep_other _ _ (by decide)]
  rw [rstep_other _ _ (by decide)]
  rw [rstep_other _ _ (by decide)]
  rw [rstep_other _ _ (by decide)]
  rw [rstep_other _ _ (by decide)]
  rw [rstep_other _ _ (by decide)]
  rw [rstep_other _ _ (by decide)]
  rw [rstep_other _ _ (by decide)]
  rw [rstep_other _ _ (by decide)]
  rw [rstep_other _ _ (by decide)]
  rw [rstep_other _ _ (by decide)]
  rw [rstep_other _ _ (by decide)]
  rw [rstep_other _ _ (by decide)]
  rw [rstep_other _ _ (by decide)]
  rw [rstep_other _ _ (by decide)]
  rw [rstep_other _ _ (by decide)]
  rw [rstep_other _ _ (by decide)]
  rw [rstep_other _ _ (by decide)]
  rw [rstep_other _ _ (by decide)]
  rw [rstep_other _ _ (by decide)]
  rw [rstep_other _ _ (by decide)]
  rw [rstep_other _ _ (by decide)]
  rw [rstep_other _ _ (by decide)]
  rw [rstep_other _ _ (markerMode_app "\t\t" _ _ _ rfl)]
  rw [rstep_other _ _ (by decide)]
  rw [rstep_other _ _ (by decide)]
  rw [rstep_other _ _ (by decide)]
  rw [rstep_other _ _ (by decide)]
  rw [rstep_other _ _ (by decide)]
  rw [rstep_other _ _ (by decide)]
  rw [rstep_other _ _ (by decide)]
  rw [rstep_other _ _ (by decide)]
  rw [rstep_other _ _ (by decide)]
  rw [rstep_other _ _ (by decide)]
  rw [rstep_other _ _ (by decide)]
  rw [rstep_other _ _ (by decide)]
  rw [rstep_other _ _ (by decide)]
  rw [rstep_other _ _ (by decide)]
  rw [rstep_other _ _ (by decide)]
  rw [rstep_other _ _ (by decide)]
  rw [rstep_other _ _ (by decide)]
  rw [rstep_other _ _ (by decide)]
  rw [rstep_other _ _ (by decide)]
  rw [rstep_other _ _ (by decide)]
  rw [rstep_other _ _ (by decide)]
  rw [rstep_other _ _ (by decide)]
  rw [rstep_other _ _ (by decide)]
  rw [rstep_other _ _ (by decide)]
  rw [rstep_other _ _ (by decide)]
  rw [rstep_mark _ RMode.idle "/* End XCBuildConfiguration section */" (by decide)]
  rw [rstep_idle_skip _ _ (by decide) (by decide)]
  rw [rstep_mark _ RMode.inOther "/* Begin XCConfigurationList section */" (by decide)]
  rw [rstep_other _ _ (markerMode_app "\t\t" _ _ _ rfl)]
  rw [rstep_other _ _ (by decide)]
  rw [rstep_other _ _ (by decide)]
  rw [rstep_other _ _ (markerMode_app "\t\t\t\t" _ _ _ rfl)]
  rw [rstep_other _ _ (markerMode_app "\t\t\t\t" _ _ _ rfl)]
  rw [rstep_other _ _ (by decide)]
  rw [rstep_other _ _ (by decide)]
  rw [rstep_other _ _ (by decide)]
  rw [rstep_other _ _ (by decide)]
  rw [rstep_other _ _ (markerMode_app "\t\t" _ _ _ rfl)]
  rw [rstep_other _ _ (by decide)]
  rw [rstep_other _ _ (by decide)]
  rw [rstep_other _ _ (markerMode_app "\t\t\t\t" _ _ _ rfl)]
  rw [rstep_other _ _ (markerMode_app "\t\t\t\t" _ _ _ rfl)]
  rw [rstep_other _ _ (by decide)]
  rw [rstep_other _ _ (by decide)]
  rw [rstep_other _ _ (by decide)]
  rw [rstep_other _ _ (by decide)]
  rw [rstep_mark _ RMode.idle "/* End XCConfigurationList section */" (by decide)]
  rw [rstep_idle_skip _ _ (by decide) (by decide)]
  rw [rstep_idle_skip _ _ (by decide) (by decide)]
  rw [rstep_root _ _ _ (markerMode_app "\trootObject = " _ _ _ rfl) (inv_root _ (genIdStr_not_mem (by decide) _))]
  rw [rstep_idle_skip _ _ (by decide) (by decide)]


/-! #### Folding the reader over the per-file line lists -/

theorem fileRefLine_data (a : PerFile) : (fileRefLine a).data =
    ("\t\t").data ++ (a.refId.data ++ ((" /* ").data ++ (a.info.name.data ++
      ((" */ = \x7bisa = PBXFileReference; lastKnownFileType = ").data ++
        (a.info.ftype.data ++ (("; path = \"").data ++
          (a.info.path.data ++ ("\"; sourceTree = \"<group>\"; \x7d;").data))))))) := by
  simp only [fileRefLine, String.data_append, List.append_assoc]

theorem buildFileLine_data (e : String × String × String × String) :
    (buildFileLine e).data =
    ("\t\t").data ++ (e.1.data ++ ((" /* ").data ++ (e.2.1.data ++
      ((" in ").data ++ (e.2.2.1.data ++
        ((" */ = \x7bisa = PBXBuildFile; fileRef = ").data ++
          (e.2.2.2.data ++ ((" /* ").data ++
            (e.2.1.data ++ (" */; \x7d;").data))))))))) := by
  simp only [buildFileLine, String.data_append, List.append_assoc]

theorem childLine_data (e : String × String) : (childLine e).data =
    ("\t\t\t\t").data ++ (e.1.data ++ ((" /* ").data ++
      (e.2.data ++ (" */,").data))) := by
  simp only [childLine, String.data_append, List.append_assoc]

theorem memberLine_data (ph : String) (e : String × String) :
    (memberLine ph e).data =
    ("\t\t\t\t").data ++ (e.1.data ++ ((" /* ").data ++
      (e.2.data ++ ((" in ").data ++ (ph.data ++ (" */,").data))))) := by
  simp only [memberLine, String.data_append, List.append_assoc]

theorem joinBlock_cons (x : String) (xs : List String) :
    joinBlock (x :: xs) = x :: xs := by
  simp [joinBlock]

theorem inv_bf (e : String × String × String × String)
    (hbid : ' ' ∉ e.1.data)
    (hnm : hasSub ((" */").data) e.2.1.data = false)
    (hph : e.2.2.1 = ("Sources" : String) ∨ e.2.2.1 = ("Resources" : String))
    (hrid : ∀ c ∈ e.2.2.2.data, c ∈ ("0123456789ABCDEF").data) :
    parseBFLine (buildFileLine e) = some e := by
  obtain ⟨bid, nm, ph, rid⟩ := e
  rcases hph with hph | hph
  · have hph2 : ph = ("Sources" : String) := hph
    subst hph2
    exact inv_bf_src bid nm rid hbid hnm hrid
  · have hph2 : ph = ("Resources" : String) := hph
    subst hph2
    exact inv_bf_res bid nm rid hbid hnm hrid

theorem inv_child_pair (e : String × String) (hid : ' ' ∉ e.1.data)
    (hnm : hasSub ((" */").data) e.2.data = false) :
    parseChildLine (childLine e) = some e := by
  obtain ⟨i, nm⟩ := e
  exact inv_child i nm hid hnm

theorem inv_member_src_pair (e : String × String) (hid : ' ' ∉ e.1.data)
    (hnm : hasSub ((" */").data) e.2.data = false) :
    parseMemberLine "Sources" (memberLine "Sources" e) = some e := by
  obtain ⟨i, nm⟩ := e
  exact inv_member_src i nm hid hnm

theorem inv_member_res_pair (e : String × String) (hid : ' ' ∉ e.1.data)
    (hnm : hasSub ((" */").data) e.2.data = false) :
    parseMemberLine "Resources" (memberLine "Resources" e) = some e := by
  obtain ⟨i, nm⟩ := e
  exact inv_member_res i nm hid hnm

theorem fold_frList (pfs : List PerFile) (g : RGraph)
    (h : ∀ a ∈ pfs, (' ' ∉ a.refId.data) ∧
      hasSub ((" */").data) a.info.name.data = false ∧
      hasSub ((";").data) a.info.ftype.data = false ∧
      hasSub (("\"").data) a.info.path.data = false) :
    List.foldl rstep ⟨RMode.inFileRefs, g⟩ (pfs.map fileRefLine) =
      ⟨RMode.inFileRefs, { g with fileRefs := (g.fileRefs ++
        pfs.map (fun a => (a.refId, a.info.name, some (a.info.ftype, a.info.path)))) }⟩ := by
  induction pfs generalizing g with
  | nil => simp
  | cons a t ih =>
    obtain ⟨h1, h2, h3, h4⟩ := h a (List.mem_cons_self a t)
    rw [List.map_cons, List.foldl_cons,
      rstep_fr _ _ _ (markerMode_tab _ _ (fileRefLine_data a)) (inv_fileRef a h1 h2 h3 h4),
      ih _ (fun b hb => h b (List.mem_cons_of_mem a hb))]
    simp [List.append_assoc]

theorem fold_frBlock (files : List FileInfo) (c0 : Nat) (g : RGraph)
    (h : ∀ a ∈ (buildSmartProject files c0).alloc.perFile, (' ' ∉ a.refId.data) ∧
      hasSub ((" */").data) a.info.name.data = false ∧
      hasSub ((";").data) a.info.ftype.data = false ∧
      hasSub (("\"").data) a.info.path.data = false) :
    List.foldl rstep ⟨RMode.inFileRefs, g⟩
      (joinBlock (productRefLine (buildSmartProject files c0) ::
        (buildSmartProject files c0).alloc.perFile.map fileRefLine)) =
      ⟨RMode.inFileRefs, { g with fileRefs := g.fileRefs ++
        ((genIdStr (c0 + 5), ("VitalSense.app" : String), none) ::
          (buildSmartProject files c0).alloc.perFile.map
            (fun a => (a.refId, a.info.name, some (a.info.ftype, a.info.path)))) }⟩ := by
  rw [joinBlock_cons, List.foldl_cons]
  have hpl : productRefLine (buildSmartProject files c0) =
      "\t\t" ++ genIdStr (c0 + 5) ++
      " /* VitalSense.app */ = \x7bisa = PBXFileReference; explicitFileType = wrapper.application; includeInIndex = 0; path = VitalSense.app; sourceTree = BUILT_PRODUCTS_DIR; \x7d;" := by
    simp [productRefLine, buildSmartProject]
  rw [hpl,
    rstep_fr _ _ _ (markerMode_app "\t\t" _ _ _ rfl)
      (inv_product (genIdStr (c0 + 5)) (genIdStr_not_mem (by decide) (c0 + 5))),
    fold_frList _ _ h]
  simp [List.append_assoc]

theorem fold_bfList (es : List (String × String × String × String)) (g : RGraph)
    (h : ∀ e ∈ es, (∃ n, e.1 = genIdStr n) ∧
      hasSub ((" */").data) e.2.1.data = false ∧
      (e.2.2.1 = ("Sources" : String) ∨ e.2.2.1 = ("Resources" : String)) ∧
      (∃ m, e.2.2.2 = genIdStr m)) :
    List.foldl rstep ⟨RMode.inBuildFiles, g⟩ (es.map buildFileLine) =
      ⟨RMode.inBuildFiles, { g with buildFiles := g.buildFiles ++ es }⟩ := by
  induction es generalizing g with
  | nil => simp
  | cons e t ih =>
    obtain ⟨⟨n, hn⟩, h2, hph, ⟨m, hm⟩⟩ := h e (List.mem_cons_self e t)
    have hbid : ' ' ∉ e.1.data := by rw [hn]; exact genIdStr_not_mem (by decide) n
    have hrid : ∀ c ∈ e.2.2.2.data, c ∈ ("0123456789ABCDEF").data := by
      rw [hm]; exact genIdStr_hexOnly m
    rw [List.map_cons, List.foldl_cons,
      rstep_bf _ _ _ (markerMode_tab _ _ (buildFileLine_data e)) (inv_bf e hbid h2 hph hrid),
      ih _ (fun b hb => h b (List.mem_cons_of_mem e hb))]
    simp [List.append_assoc]

theorem fold_bfJoin (es : List (String × String × String × String)) (g : RGraph)
    (h : ∀ e ∈ es, (∃ n, e.1 = genIdStr n) ∧
      hasSub ((" */").data) e.2.1.data = false ∧
      (e.2.2.1 = ("Sources" : String) ∨ e.2.2.1 = ("Resources" : String)) ∧
      (∃ m, e.2.2.2 = genIdStr m)) :
    List.foldl rstep ⟨RMode.inBuildFiles, g⟩ (joinBlock (es.map buildFileLine)) =
      ⟨RMode.inBuildFiles, { g with buildFiles := g.buildFiles ++ es }⟩ := by
  cases es with
  | nil =>
    show List.foldl rstep ⟨RMode.inBuildFiles, g⟩ [""] = _
    rw [List.foldl_cons, rstep_bf_skip _ _ (by decide) (by decide), List.foldl_nil]
    simp
  | cons e t =>
    rw [List.map_cons, joinBlock_cons, ← List.map_cons]
    exact fold_bfList _ _ h

theorem fold_childList (es : List (String × String)) (g : RGraph)
    (h : ∀ e ∈ es, (∃ n, e.1 = genIdStr n) ∧ hasSub ((" */").data) e.2.data = false) :
    List.foldl rstep ⟨RMode.inGroups, g⟩ (es.map childLine) =
      ⟨RMode.inGroups, { g with children := g.children ++ es }⟩ := by
  induction es generalizing g with
  | nil => simp
  | cons e t ih =>
    obtain ⟨⟨n, hn⟩, h2⟩ := h e (List.mem_cons_self e t)
    have hid : ' ' ∉ e.1.data := by rw [hn]; exact genIdStr_not_mem (by decide) n
    rw [List.map_cons, List.foldl_cons,
      rstep_child _ _ _ (markerMode_tab _ _ (childLine_data e)) (inv_child_pair e hid h2),
      ih _ (fun b hb => h b (List.mem_cons_of_mem e hb))]
    simp [List.append_assoc]

theorem fold_childJoin (es : List (String × String)) (g : RGraph)
    (h : ∀ e ∈ es, (∃ n, e.1 = genIdStr n) ∧ hasSub ((" */").data) e.2.data = false) :
    List.foldl rstep ⟨RMode.inGroups, g⟩ (joinBlock (es.map childLine)) =
      ⟨RMode.inGroups, { g with children := g.children ++ es }⟩ := by
  cases es with
  | nil =>
    show List.foldl rstep ⟨RMode.inGroups, g⟩ [""] = _
    rw [List.foldl_cons, rstep_child_skip _ _ (by decide) (by decide), List.foldl_nil]
    simp
  | cons e t =>
    rw [List.map_cons, joinBlock_cons, ← List.map_cons]
    exact fold_childList _ _ h

theorem fold_srcList (es : List (String × String)) (g : RGraph)
    (h : ∀ e ∈ es, (∃ n, e.1 = genIdStr n) ∧ hasSub ((" */").data) e.2.data = false) :
    List.foldl rstep ⟨RMode.inSources, g⟩ (es.map (memberLine "Sources")) =
      ⟨RMode.inSources, { g with srcMembers := g.srcMembers ++ es }⟩ := by
  induction es generalizing g with
  | nil => simp
  | cons e t ih =>
    obtain ⟨⟨n, hn⟩, h2⟩ := h e (List.mem_cons_self e t)
    have hid : ' ' ∉ e.1.data := by rw [hn]; exact genIdStr_not_mem (by decide) n
    rw [List.map_cons, List.foldl_cons,
      rstep_src _ _ _ (markerMode_tab _ _ (memberLine_data "Sources" e))
        (inv_member_src_pair e hid h2),
      ih _ (fun b hb => h b (List.mem_cons_of_mem e hb))]
    simp [List.append_assoc]

theorem fold_srcJoin (es : List (String × String)) (g : RGraph)
    (h : ∀ e ∈ es, (∃ n, e.1 = genIdStr n) ∧ hasSub ((" */").data) e.2.data = false) :
    List.foldl rstep ⟨RMode.inSources, g⟩ (joinBlock (es.map (memberLine "Sources"))) =
      ⟨RMode.inSources, { g with srcMembers := g.srcMembers ++ es }⟩ := by
  cases es with
  | nil =>
    show List.foldl rstep ⟨RMode.inSources, g⟩ [""] = _
    rw [List.foldl_cons, rstep_src_skip _ _ (by decide) (by decide), List.foldl_nil]
    simp
  | cons e t =>
    rw [List.map_cons, joinBlock_cons, ← List.map_cons]
    exact fold_srcList _ _ h

theorem fold_resList (es : List (String × String)) (g : RGraph)
    (h : ∀ e ∈ es, (∃ n, e.1 = genIdStr n) ∧ hasSub ((" */").data) e.2.data = false) :
    List.foldl rstep ⟨RMode.inResources, g⟩ (es.map (memberLine "Resources")) =
      ⟨RMode.inResources, { g with resMembers := g.resMembers ++ es }⟩ := by
  induction es generalizing g with
  | nil => simp
  | cons e t ih =>
    obtain ⟨⟨n, hn⟩, h2⟩ := h e (List.mem_cons_self e t)
    have hid : ' ' ∉ e.1.data := by rw [hn]; exact genIdStr_not_mem (by decide) n
    rw [List.map_cons, List.foldl_cons,
      rstep_res _ _ _ (markerMode_tab _ _ (memberLine_data "Resources" e))
        (inv_member_res_pair e hid h2),
      ih _ (fun b hb => h b (List.mem_cons_of_mem e hb))]
    simp [List.append_assoc]

theorem fold_resJoin (es : List (String × String)) (g : RGraph)
    (h : ∀ e ∈ es, (∃ n, e.1 = genIdStr n) ∧ hasSub ((" */").data) e.2.data = false) :
    List.foldl rstep ⟨RMode.inResources, g⟩ (joinBlock (es.map (memberLine "Resources"))) =
      ⟨RMode.inResources, { g with resMembers := g.resMembers ++ es }⟩ := by
  cases es with
  | nil =>
    show List.foldl rstep ⟨RMode.inResources, g⟩ [""] = _
    rw [List.foldl_cons, rstep_res_skip _ _ (by decide) (by decide), List.foldl_nil]
    simp
  | cons e t =>
    rw [List.map_cons, joinBlock_cons, ← List.map_cons]
    exact fold_resList _ _ h


/-! #### Shape of the allocator's output -/

theorem alloc_shape (fs : List FileInfo) (c : Nat) :
    (∀ a ∈ (allocFiles fs c).perFile, a.info ∈ fs ∧ ∃ n, a.refId = genIdStr n) ∧
    (∀ e ∈ (allocFiles fs c).buildFileEntries, (∃ n, e.1 = genIdStr n) ∧
      (∃ f ∈ fs, e.2.1 = f.name) ∧
      (e.2.2.1 = ("Sources" : String) ∨ e.2.2.1 = ("Resources" : String)) ∧
      (∃ m, e.2.2.2 = genIdStr m)) ∧
    (∀ m ∈ (allocFiles fs c).sourcesList,
      (∃ n, m.1 = genIdStr n) ∧ ∃ f ∈ fs, m.2 = f.name) ∧
    (∀ m ∈ (allocFiles fs c).resourcesList,
      (∃ n, m.1 = genIdStr n) ∧ ∃ f ∈ fs, m.2 = f.name) := by
  induction fs generalizing c with
  | nil =>
    refine ⟨?_, ?_, ?_, ?_⟩ <;> intro x hx <;> simp [allocFiles] at hx
  | cons f t ih =>
    by_cases h1 : f.category = "source"
    · simp only [allocFiles, if_pos h1]
      refine ⟨?_, ?_, ?_, ?_⟩
      · intro x hx
        rcases List.mem_cons.mp hx with hx | hx
        · subst hx
          exact ⟨List.mem_cons_self _ _, c + 1, rfl⟩
        · obtain ⟨ha, hb⟩ := (ih (c + 2)).1 x hx
          exact ⟨List.mem_cons_of_mem _ ha, hb⟩
      · intro x hx
        rcases List.mem_cons.mp hx with hx | hx
        · subst hx
          exact ⟨⟨c + 2, rfl⟩, ⟨f, List.mem_cons_self _ _, rfl⟩, Or.inl rfl, c + 1, rfl⟩
        · obtain ⟨ha, ⟨f2, hf2, hb⟩, hc, hd⟩ := (ih (c + 2)).2.1 x hx
          exact ⟨ha, ⟨f2, List.mem_cons_of_mem _ hf2, hb⟩, hc, hd⟩
      · intro x hx
        rcases List.mem_cons.mp hx with hx | hx
        · subst hx
          exact ⟨⟨c + 2, rfl⟩, f, List.mem_cons_self _ _, rfl⟩
        · obtain ⟨ha, f2, hf2, hb⟩ := (ih (c + 2)).2.2.1 x hx
          exact ⟨ha, f2, List.mem_cons_of_mem _ hf2, hb⟩
      · intro x hx
        obtain ⟨ha, f2, hf2, hb⟩ := (ih (c + 2)).2.2.2 x hx
        exact ⟨ha, f2, List.mem_cons_of_mem _ hf2, hb⟩
    · by_cases h2 : f.category = "resource"
      · simp only [allocFiles, if_neg h1, if_pos h2]
        refine ⟨?_, ?_, ?_, ?_⟩
        · intro x hx
          rcases List.mem_cons.mp hx with hx | hx
          · subst hx
            exact ⟨List.mem_cons_self _ _, c + 1, rfl⟩
          · obtain ⟨ha, hb⟩ := (ih (c + 2)).1 x hx
            exact ⟨List.mem_cons_of_mem _ ha, hb⟩
        · intro x hx
          rcases List.mem_cons.mp hx with hx | hx
          · subst hx
            exact ⟨⟨c + 2, rfl⟩, ⟨f, List.mem_cons_self _ _, rfl⟩, Or.inr rfl, c + 1, rfl⟩
          · obtain ⟨ha, ⟨f2, hf2, hb⟩, hc, hd⟩ := (ih (c + 2)).2.1 x hx
            exact ⟨ha, ⟨f2, List.mem_cons_of_mem _ hf2, hb⟩, hc, hd⟩
        · intro x hx
          obtain ⟨ha, f2, hf2, hb⟩ := (ih (c + 2)).2.2.1 x hx
          exact ⟨ha, f2, List.mem_cons_of_mem _ hf2, hb⟩
        · intro x hx
          rcases List.mem_cons.mp hx with hx | hx
          · subst hx
            exact ⟨⟨c + 2, rfl⟩, f, List.mem_cons_self _ _, rfl⟩
          · obtain ⟨ha, f2, hf2, hb⟩ := (ih (c + 2)).2.2.2 x hx
            exact ⟨ha, f2, List.mem_cons_of_mem _ hf2, hb⟩
      · simp only [allocFiles, if_neg h1, if_neg h2]
        refine ⟨?_, ?_, ?_, ?_⟩
        · intro x hx
          rcases List.mem_cons.mp hx with hx | hx
          · subst hx
            exact ⟨List.mem_cons_self _ _, c + 1, rfl⟩
          · obtain ⟨ha, hb⟩ := (ih (c + 1)).1 x hx
            exact ⟨List.mem_cons_of_mem _ ha, hb⟩
        · intro x hx
          obtain ⟨ha, ⟨f2, hf2, hb⟩, hc, hd⟩ := (ih (c + 1)).2.1 x hx
          exact ⟨ha, ⟨f2, List.mem_cons_of_mem _ hf2, hb⟩, hc, hd⟩
        · intro x hx
          obtain ⟨ha, f2, hf2, hb⟩ := (ih (c + 1)).2.2.1 x hx
          exact ⟨ha, f2, List.mem_cons_of_mem _ hf2, hb⟩
        · intro x hx
          obtain ⟨ha, f2, hf2, hb⟩ := (ih (c + 1)).2.2.2 x hx
          exact ⟨ha, f2, List.mem_cons_of_mem _ hf2, hb⟩

theorem fileChildren_shape (files : List FileInfo) (c0 : Nat) :
    ∀ e ∈ fileChildren (buildSmartProject files c0),
      (∃ n, e.1 = genIdStr n) ∧ ∃ f ∈ files, e.2 = f.name := by
  intro e he
  rw [fileChildren] at he
  obtain ⟨a, ha, hae⟩ := List.mem_map.mp he
  have hshape := alloc_shape files (c0 + 15)
  constructor
  · rw [← hae]
    show ∃ n, lastRefId (buildSmartProject files c0).alloc.perFile a.info.path = genIdStr n
    cases hfind : (buildSmartProject files c0).alloc.perFile.reverse.find?
        (fun b => b.info.path = a.info.path) with
    | none =>
      exfalso
      have hs : ((buildSmartProject files c0).alloc.perFile.reverse.find?
          (fun b => b.info.path = a.info.path)).isSome := by
        rw [List.find?_isSome]
        exact ⟨a, List.mem_reverse.mpr ha, by simp⟩
      rw [hfind] at hs
      cases hs
    | some b =>
      have hb : b ∈ (buildSmartProject files c0).alloc.perFile :=
        List.mem_reverse.mp (List.mem_of_find?_eq_some hfind)
      obtain ⟨_, n, hn⟩ := hshape.1 b hb
      refine ⟨n, ?_⟩
      simp only [lastRefId, hfind]
      exact hn
  · rw [← hae]
    obtain ⟨hinfo, _⟩ := hshape.1 a ha
    exact ⟨a.info, hinfo, rfl⟩

/-- Modelled from the spec: the round trip of §6/§8 concerns the object graph
the manifest denotes, so the scanned records must not collide with the
manifest's own comment and field delimiters: the label must not contain the
comment closer, the type no semicolon, the path no double quote. -/
def saneInfo (f : FileInfo) : Bool :=
  !(strContains " */" f.name) && !(strContains ";" f.ftype) &&
    !(strContains "\"" f.path)

theorem saneInfo_spec (f : FileInfo) (h : saneInfo f = true) :
    hasSub ((" */").data) f.name.data = false ∧
    hasSub ((";").data) f.ftype.data = false ∧
    hasSub (("\"").data) f.path.data = false := by
  simp only [saneInfo, strContains, Bool.and_eq_true, Bool.not_eq_true'] at h
  exact ⟨h.1.1, h.1.2, h.2⟩


/-- A file record whose name contains the group-child comment delimiter
` */,`: serialized into the manifest and read back, the child entry's label
degenerates to the part before the delimiter. -/
def c9badInfo : FileInfo :=
  ⟨"Core/C.swift", "x */, y.swift", "sourcecode.swift", "source"⟩

def c9badProject : SmartProject := buildSmartProject [c9badInfo] 0x2000

set_option maxRecDepth 1000000 in
/-- C9 counterexample: the claim that re-parsing the serialized manifest
always recovers the builder's object graph fails on a project containing a
file whose name embeds the comment-closing delimiter: the reader recovers a
truncated child label, so the graphs differ. -/
theorem c9_roundtrip_cex :
    readGraph (serializeProject c9badProject) ≠ graphOf c9badProject := by
  intro h
  have h3 : (readGraph (serializeProject c9badProject)).children ≠
      (graphOf c9badProject).children := by decide
  exact h3 (congrArg RGraph.children h)

/-- C9 (amended): for every scanned listing whose records are free of the
manifest's own delimiters (no ` */` in a name, no `;` in a type, no `"` in a
path — true of every real file the scanner admits), re-parsing the serialized
manifest recovers exactly the builder's object graph: every file reference
with its type and path, every build-file entry with its phase and reference,
the phase memberships, the group children and the root object pointer, all in
order. -/
theorem c9_roundtrip_amended (files : List FileInfo) (c0 : Nat)
    (hsane : ∀ f ∈ files, saneInfo f = true) :
    readGraph (serializeProject (buildSmartProject files c0)) =
      graphOf (buildSmartProject files c0) := by
  have hshape := alloc_shape files (c0 + 15)
  have hpf : ∀ a ∈ (buildSmartProject files c0).alloc.perFile, (' ' ∉ a.refId.data) ∧
      hasSub ((" */").data) a.info.name.data = false ∧
      hasSub ((";").data) a.info.ftype.data = false ∧
      hasSub (("\"").data) a.info.path.data = false := by
    intro a ha
    obtain ⟨hinfo, n, hn⟩ := hshape.1 a ha
    obtain ⟨hn1, hn2, hn3⟩ := saneInfo_spec _ (hsane _ hinfo)
    exact ⟨by rw [hn]; exact genIdStr_not_mem (by decide) n, hn1, hn2, hn3⟩
  have hbf : ∀ e ∈ (buildSmartProject files c0).alloc.buildFileEntries,
      (∃ n, e.1 = genIdStr n) ∧
      hasSub ((" */").data) e.2.1.data = false ∧
      (e.2.2.1 = ("Sources" : String) ∨ e.2.2.1 = ("Resources" : String)) ∧
      (∃ m, e.2.2.2 = genIdStr m) := by
    intro e he
    obtain ⟨hid, ⟨f, hf, hfn⟩, hph, hm⟩ := hshape.2.1 e he
    obtain ⟨h1, _, _⟩ := saneInfo_spec f (hsane f hf)
    exact ⟨hid, by rw [hfn]; exact h1, hph, hm⟩
  have hsrc : ∀ e ∈ (buildSmartProject files c0).alloc.sourcesList,
      (∃ n, e.1 = genIdStr n) ∧ hasSub ((" */").data) e.2.data = false := by
    intro e he
    obtain ⟨hid, f, hf, hfn⟩ := hshape.2.2.1 e he
    obtain ⟨h1, _, _⟩ := saneInfo_spec f (hsane f hf)
    exact ⟨hid, by rw [hfn]; exact h1⟩
  have hres : ∀ e ∈ (buildSmartProject files c0).alloc.resourcesList,
      (∃ n, e.1 = genIdStr n) ∧ hasSub ((" */").data) e.2.data = false := by
    intro e he
    obtain ⟨hid, f, hf, hfn⟩ := hshape.2.2.2 e he
    obtain ⟨h1, _, _⟩ := saneInfo_spec f (hsane f hf)
    exact ⟨hid, by rw [hfn]; exact h1⟩
  have hch : ∀ e ∈ fileChildren (buildSmartProject files c0),
      (∃ n, e.1 = genIdStr n) ∧ hasSub ((" */").data) e.2.data = false := by
    intro e he
    obtain ⟨hid, f, hf, hfn⟩ := fileChildren_shape files c0 e he
    obtain ⟨h1, _, _⟩ := saneInfo_spec f (hsane f hf)
    exact ⟨hid, by rw [hfn]; exact h1⟩
  rw [readGraph, serializeProject]
  simp only [List.foldl_append]
  rw [fold_blkA, fold_bfJoin _ _ hbf, fold_blkB, fold_frBlock files c0 _ hpf,
    fold_blkC, fold_childJoin _ _ hch, fold_blkD, fold_resJoin _ _ hres,
    fold_blkE, fold_srcJoin _ _ hsrc, fold_blkF]
  simp [graphOf, emptyRGraph, buildSmartProject, List.append_assoc]

/-- Witness for the amended C9 round trip on a one-file listing. -/
theorem c9_roundtrip_amended_witness :
    (∀ f ∈ [(⟨"Core/Model.swift", "Model.swift", "sourcecode.swift",
        "source"⟩ : FileInfo)], saneInfo f = true) ∧
    readGraph (serializeProject (buildSmartProject
        [⟨"Core/Model.swift", "Model.swift", "sourcecode.swift", "source"⟩] 0x2000)) =
      graphOf (buildSmartProject
        [⟨"Core/Model.swift", "Model.swift", "sourcecode.swift", "source"⟩] 0x2000) :=
  ⟨by decide, c9_roundtrip_amended _ _ (by decide)⟩

end VitalSense
